import Mathlib

/-! # Store-rating backend: a shallow embedding of the route handlers

The Express handlers of `store-rating-backend` are embedded as pure functions
over an explicit database state.  Every `pool.query` call of a handler becomes
a `query` step that records the statement it issues, may fail (the handler's
`catch` then answers 500) and otherwise transforms the tables the way the SQL
text says.

Libraries the handlers call (the PostgreSQL server behind `pool`, `bcryptjs`,
`jsonwebtoken`, `express-validator`) are not part of the repository; what a
handler needs from them is a parameter of its definition.  The last sections
embed the two functions of the client (`App.jsx`) that the properties refer
to.
-/

set_option autoImplicit false

namespace StoreRating

/-! ## JavaScript values -/

/-- A JavaScript number.  Finite doubles are rationals, and the relational
operators compare them exactly, so a finite number is carried as the rational
it denotes. -/
inductive JSNum
  | nan
  | posInf
  | negInf
  | fin (q : ℚ)
deriving DecidableEq

/-- A value found in `req.body`, in `req.user` or in a table cell.
`undefined` is what reading a missing field yields.  `other s` stands for an
array or a plain object, `s` being the string its conversion to a primitive
produces (`[3]` gives `"3"`, `{}` gives `"[object Object]"`). -/
inductive Value
  | undefined
  | null
  | bool (b : Bool)
  | num (n : JSNum)
  | str (s : String)
  | other (s : String)
deriving DecidableEq

/-- Value of a numeric literal such as the `1` and `5` of the range check. -/
def lit (q : ℚ) : Value := Value.num (JSNum.fin q)

/-- A parsed JSON object with the fields listed in order; reading a key that
is not listed gives `undefined`. -/
abbrev JObject := List (String × Value)

/-- Property read `o.k`. -/
def JObject.get (o : JObject) (k : String) : Value :=
  match o.lookup k with
  | some v => v
  | none => Value.undefined

/-- ECMAScript `ToNumber`.  The conversion of a string (`StringToNumber`,
which also rounds to the nearest double) is a parameter. -/
def toNumber (stringToNumber : String → JSNum) : Value → JSNum
  | Value.undefined => JSNum.nan
  | Value.null => JSNum.fin 0
  | Value.bool true => JSNum.fin 1
  | Value.bool false => JSNum.fin 0
  | Value.num n => n
  | Value.str s => stringToNumber s
  | Value.other s => stringToNumber s

/-- Number comparison `x < y` of ECMAScript: false as soon as one side is
`NaN`. -/
def JSNum.lt : JSNum → JSNum → Bool
  | JSNum.nan, _ => false
  | _, JSNum.nan => false
  | JSNum.posInf, _ => false
  | JSNum.negInf, JSNum.negInf => false
  | JSNum.negInf, _ => true
  | JSNum.fin _, JSNum.posInf => true
  | JSNum.fin _, JSNum.negInf => false
  | JSNum.fin a, JSNum.fin b => decide (a < b)

/-- The operator `a < b` when `b` is a number literal (the comparison is then
numeric whatever `a` is). -/
def jsLt (stringToNumber : String → JSNum) (a b : Value) : Bool :=
  JSNum.lt (toNumber stringToNumber a) (toNumber stringToNumber b)

/-- The operator `a > b`, that is `b < a`, when `b` is a number literal. -/
def jsGt (stringToNumber : String → JSNum) (a b : Value) : Bool :=
  JSNum.lt (toNumber stringToNumber b) (toNumber stringToNumber a)

/-- Truthiness (`ToBoolean`): `undefined`, `null`, `false`, `0`, `NaN` and the
empty string are falsy, everything else (arrays and objects too) is truthy. -/
def truthy : Value → Bool
  | Value.undefined => false
  | Value.null => false
  | Value.bool b => b
  | Value.num JSNum.nan => false
  | Value.num (JSNum.fin q) => decide (q ≠ 0)
  | Value.num _ => true
  | Value.str s => decide (s ≠ "")
  | Value.other _ => true

/-! ## Tables and statements -/

/-- Row of `users`. -/
structure UserRow where
  id : Nat
  name : Value
  email : Value
  password : Value
  address : Value
  role : Value
deriving DecidableEq

/-- Row of `stores`. -/
structure StoreRow where
  id : Nat
  name : Value
  email : Value
  address : Value
  owner_id : Value
deriving DecidableEq

/-- Row of `ratings`. -/
structure RatingRow where
  id : Nat
  user_id : Value
  store_id : Value
  rating : Value
  created_at : Nat
deriving DecidableEq

/-- The three tables, with the next value of each `id` sequence.  The table
definitions are not among the sources: a cell holds the parameter it was
written with. -/
structure Db where
  users : List UserRow
  stores : List StoreRow
  ratings : List RatingRow
  nextUserId : Nat
  nextStoreId : Nat
  nextRatingId : Nat
deriving DecidableEq

/-- What a handler passes to `pool.query`: the SQL text and the parameter
array. -/
structure Stmt where
  sql : String
  params : List Value
deriving DecidableEq

/-- Conversion of a parameter by the driver: `undefined` is sent as `NULL`. -/
def toParam : Value → Value
  | Value.undefined => Value.null
  | v => v

/-- SQL `cell = $k` for a text column (`email`, `role`) and a parameter sent
as a string: never satisfied when either side is `NULL`. -/
def sqlTextEq (cell param : Value) : Bool :=
  decide (cell ≠ Value.null) && decide (toParam param ≠ Value.null)
    && decide (cell = toParam param)

/-- White space the server skips around a number. -/
def isSqlSpace (c : Char) : Bool :=
  c = ' ' || c = '\t' || c = '\n' || c = '\r' || c = Char.ofNat 11 || c = Char.ofNat 12

/-- Number written by a run of decimal digits. -/
def digitsValue (digits : List Char) : Nat :=
  digits.foldl (fun n c => 10 * n + (c.toNat - '0'.toNat)) 0

/-- Number written by a text that consists of decimal digits; nothing for any
other text. -/
def digitsOnly (digits : List Char) : Option Nat :=
  if digits ≠ [] ∧ digits.all Char.isDigit = true then some (digitsValue digits) else none

/-- The integer a text denotes when the server reads it for an integer column:
decimal digits behind an optional sign, white space around them being skipped;
nothing for any other text. -/
def intOfText (text : List Char) : Option ℤ :=
  match ((text.dropWhile isSqlSpace).reverse.dropWhile isSqlSpace).reverse with
  | '-' :: digits => (digitsOnly digits).map fun n => -(n : ℤ)
  | '+' :: digits => (digitsOnly digits).map fun n => (n : ℤ)
  | digits => (digitsOnly digits).map fun n => (n : ℤ)

/-- The value an integer column (an `id`, `user_id`, `store_id`, `owner_id`)
takes for a parameter.  The driver sends every parameter as text and the server
reads the text as an integer: the number 8 and the strings `8` and `08` all
give 8.  `undefined` and `null` give `NULL`.  A parameter that denotes no
integer (a fraction, a boolean, an array, any other text such as the empty
string) is rejected by the server, as is an integer beyond the range of the
column; a rejected statement is a case of `Pool.fails`.  Here the first gives
`NULL` and the second the integer. -/
def intColumn : Value → Value
  | Value.num (JSNum.fin q) => if q.den = 1 then Value.num (JSNum.fin q) else Value.null
  | Value.str s =>
    match intOfText s.toList with
    | some n => lit n
    | none => Value.null
  | _ => Value.null

/-- SQL `cell = $k` for an integer column: the parameter is read as an integer
first; never satisfied when either side is `NULL`. -/
def sqlEq (cell param : Value) : Bool :=
  decide (cell ≠ Value.null) && decide (intColumn param ≠ Value.null)
    && decide (cell = intColumn param)

/-- Value of an integer key (`id` column) as it appears in a token or a
parameter. -/
def idVal (n : Nat) : Value := lit n

/-! ## Handlers -/

/-- What a failing call raises. -/
inductive Thrown
  | persistence
  | hashing
  | signing
  | typeError
deriving DecidableEq

/-- State threaded through one handler run: the tables and the statements
issued so far. -/
structure HState where
  db : Db
  log : List Stmt
deriving DecidableEq

/-- A handler step: it ends normally or throws, and in both cases leaves a
state (a statement that committed stays committed when a later one throws). -/
def Handler (α : Type) : Type := HState → Except Thrown α × HState

/-- Sequencing of handler steps: a throw skips the rest. -/
def Handler.bind {α β : Type} (m : Handler α) (f : α → Handler β) : Handler β :=
  fun st =>
    match m st with
    | (Except.ok a, st') => f a st'
    | (Except.error e, st') => (Except.error e, st')

instance : Monad Handler where
  pure a := fun st => (Except.ok a, st)
  bind := Handler.bind

/-- The statement `throw`. -/
def Handler.throw {α : Type} (e : Thrown) : Handler α :=
  fun st => (Except.error e, st)

/-- Block `try { body } catch (err) { handler }`. -/
def Handler.tryCatch {α : Type} (body : Handler α) (handler : Thrown → Handler α) :
    Handler α :=
  fun st =>
    match body st with
    | (Except.ok a, st') => (Except.ok a, st')
    | (Except.error e, st') => handler e st'

/-- The connection pool as one request sees it: `fails` tells which
statements the server rejects in which state (constraint violation, lost
connection), `now` is the value of `NOW()`. -/
structure Pool where
  fails : Db → Stmt → Bool
  now : Nat

/-- Call `await pool.query(sql, params)`: the statement is recorded; when the
server rejects it the call throws and the tables are unchanged, otherwise
`sem` gives the returned rows and the new tables. -/
def Pool.query {α : Type} (pool : Pool) (stmt : Stmt) (sem : Db → α × Db) : Handler α :=
  fun st =>
    if pool.fails st.db stmt then
      (Except.error Thrown.persistence, { st with log := st.log ++ [stmt] })
    else
      (Except.ok (sem st.db).1, { db := (sem st.db).2, log := st.log ++ [stmt] })

/-- Tree of a JSON response body. -/
inductive Json
  | val (v : Value)
  | obj (fields : List (String × Json))
  | arr (items : List Json)

/-- Body of a response: `res.json(...)` or `res.send(text)`. -/
inductive ResBody
  | json (j : Json)
  | text (s : String)

/-- A response: status code (200 unless `res.status` was called) and body. -/
structure Response where
  status : Nat
  body : ResBody

/-- Response `res.status(code).json({ msg })`. -/
def msgResponse (code : Nat) (msg : String) : Response :=
  { status := code, body := ResBody.json (Json.obj [("msg", Json.val (Value.str msg))]) }

/-- Response `res.status(500).send('Server Error')`. -/
def serverError : Response :=
  { status := 500, body := ResBody.text "Server Error" }

/-- A request as a handler finds it: `req.user` (absent unless an earlier
middleware attached the decoded identity), `req.body`, `req.query` and
`req.headers` (the header names in lower case). -/
structure Request where
  user : Option JObject
  body : JObject
  query : JObject
  headers : JObject

/-- Property read `req.user.k`; reading a property of an absent `req.user`
throws a `TypeError`. -/
def Request.userField (req : Request) (k : String) : Handler Value :=
  match req.user with
  | some u => pure (u.get k)
  | none => Handler.throw Thrown.typeError

/-! ## routes/ratings.js -/

/-- Rating row as a JSON object (`RETURNING *`). -/
def RatingRow.toJson (r : RatingRow) : Json :=
  Json.obj [("id", Json.val (idVal r.id)), ("user_id", Json.val r.user_id),
    ("store_id", Json.val r.store_id), ("rating", Json.val r.rating),
    ("created_at", Json.val (lit r.created_at))]

/-- Element `rows[0]` sent with `res.json`: `undefined` when there is no row. -/
def firstRowJson (rows : List RatingRow) : Json :=
  match rows with
  | r :: _ => r.toJson
  | [] => Json.val Value.undefined

/-- Text of the lookup statement of `POST /ratings`. -/
def sqlSelectRating : String :=
  "SELECT * FROM ratings WHERE user_id = $1 AND store_id = $2"

/-- Text of the update statement of `POST /ratings`. -/
def sqlUpdateRating : String :=
  "UPDATE ratings SET rating = $1, created_at = NOW() WHERE user_id = $2 AND store_id = $3 RETURNING *"

/-- Text of the insert statement of `POST /ratings`. -/
def sqlInsertRating : String :=
  "INSERT INTO ratings (user_id, store_id, rating) VALUES ($1, $2, $3) RETURNING *"

/-- Condition `user_id = u AND store_id = s` on a rating row. -/
def RatingRow.isFor (u s : Value) (r : RatingRow) : Bool :=
  sqlEq r.user_id u && sqlEq r.store_id s

/-- Rows selected by the lookup statement. -/
def Db.selectRating (db : Db) (u s : Value) : List RatingRow :=
  db.ratings.filter (RatingRow.isFor u s)

/-- Effect of the update statement: every row of the pair gets the new rating
and the current time; the updated rows are returned. -/
def Db.updateRating (now : Nat) (v u s : Value) (db : Db) : List RatingRow × Db :=
  let upd : RatingRow → RatingRow := fun r =>
    if r.isFor u s then { r with rating := toParam v, created_at := now } else r
  ((db.ratings.filter (RatingRow.isFor u s)).map upd,
    { db with ratings := db.ratings.map upd })

/-- Effect of the insert statement: one new row with the next id; its
`user_id` and `store_id` are the integers the parameters denote. -/
def Db.insertRating (now : Nat) (u s v : Value) (db : Db) : List RatingRow × Db :=
  let row : RatingRow := ⟨db.nextRatingId, intColumn u, intColumn s, toParam v, now⟩
  ([row], { db with ratings := db.ratings ++ [row], nextRatingId := db.nextRatingId + 1 })

/-- Handler of `POST /ratings` (after `authMiddleware`). -/
def submitRating (stringToNumber : String → JSNum) (pool : Pool) (req : Request) :
    Handler Response := do
  let store_id := req.body.get "store_id"
  let rating := req.body.get "rating"
  let user_id ← req.userField "id"
  if jsLt stringToNumber rating (lit 1) || jsGt stringToNumber rating (lit 5) then
    return msgResponse 400 "Rating must be between 1 and 5"
  Handler.tryCatch
    (do
      let existingRating ← pool.query ⟨sqlSelectRating, [user_id, store_id]⟩
        (fun db => (db.selectRating user_id store_id, db))
      let newRating ←
        if existingRating.length > 0 then
          pool.query ⟨sqlUpdateRating, [rating, user_id, store_id]⟩
            (Db.updateRating pool.now rating user_id store_id)
        else
          pool.query ⟨sqlInsertRating, [user_id, store_id, rating]⟩
            (Db.insertRating pool.now user_id store_id rating)
      return { status := 200, body := ResBody.json (firstRowJson newRating) })
    (fun _ => return serverError)

/-- Run of a handler on given tables: the outcome (a response, or what escaped
the handler), the tables afterwards and the statements issued. -/
def run (h : Handler Response) (db : Db) : Except Thrown Response × Db × List Stmt :=
  let r := h { db := db, log := [] }
  (r.1, r.2.db, r.2.log)

/-! ## Serving requests one after another -/

/-- Requests handled one after another: each call runs on the tables the
previous one left.  The result lists, per call, the outcome and the statements
it issued, and gives the final tables. -/
def serve : List (Handler Response) → Db → List (Except Thrown Response × List Stmt) × Db
  | [], db => ([], db)
  | h :: rest, db =>
    let o := run h db
    let r := serve rest o.2.1
    ((o.1, o.2.2) :: r.1, r.2)

/-- An outcome is accepted when the handler answered with status 200. -/
def accepted (o : Except Thrown Response) : Bool :=
  match o with
  | Except.ok r => decide (r.status = 200)
  | Except.error _ => false

/-- Handlers of a sequence of `POST /ratings` calls, each with the pool state
it meets. -/
def ratingCalls (stringToNumber : String → JSNum) (calls : List (Pool × Request)) :
    List (Handler Response) :=
  calls.map (fun c => submitRating stringToNumber c.1 c.2)

/-- The rating a statement of `POST /ratings` carries: third parameter of the
insert, first parameter of the update, nothing for any other statement. -/
def ratingHanded (stmt : Stmt) : Option Value :=
  if stmt.sql = sqlInsertRating then stmt.params.get? 2
  else if stmt.sql = sqlUpdateRating then stmt.params.get? 0
  else none

/-- An integer between 1 and 5, as a value. -/
def isRatingInteger (v : Value) : Prop :=
  ∃ k : ℤ, 1 ≤ k ∧ k ≤ 5 ∧ v = lit k

/-! ## Average rating -/

/-- Numeric content of a cell: the rational of a finite number, nothing for
`NULL` (an aggregate skips it) or for a cell that is not a number. -/
def Value.numeric? : Value → Option ℚ
  | Value.num (JSNum.fin q) => some q
  | _ => none

/-- SQL `AVG` over the cells of a group: `NULL` when no cell counts, else the
mean of the numeric cells.  The server divides with at least sixteen
significant digits; the mean is taken here as the exact quotient. -/
def sqlAvg (cells : List Value) : Option ℚ :=
  match cells.filterMap Value.numeric? with
  | [] => none
  | q :: qs => some ((q :: qs).sum / ((q :: qs).length : ℚ))

/-- SQL `ROUND(x, 2)` on a numeric: to the nearest hundredth, ties away from
zero. -/
def sqlRound2 (x : ℚ) : ℚ :=
  if 0 ≤ x then (⌊x * 100 + 1 / 2⌋ : ℚ) / 100 else -((⌊-x * 100 + 1 / 2⌋ : ℚ) / 100)

/-- The expression `COALESCE(ROUND(AVG(rating), 2), 0)` over the rating cells
of a group. -/
def avgRating (cells : List Value) : ℚ :=
  match sqlAvg cells with
  | some a => sqlRound2 a
  | none => 0

/-- Rows selected by `FROM ratings WHERE store_id = $1`. -/
def Db.ratingsOf (db : Db) (storeId : Value) : List RatingRow :=
  db.ratings.filter (fun r => sqlEq r.store_id storeId)

/-- The average query of the owner dashboard:
`SELECT COALESCE(ROUND(AVG(rating), 2), 0) as average FROM ratings WHERE store_id = $1`. -/
def Db.averageFor (db : Db) (storeId : Value) : ℚ :=
  avgRating ((db.ratingsOf storeId).map (fun r => r.rating))

/-! ## The list queries: joins, groups and the average column -/

/-- SQL `a = b` between two columns in an `ON` clause: never satisfied when
either side is `NULL`. -/
def colEq (a b : Value) : Bool :=
  decide (a ≠ Value.null) && decide (b ≠ Value.null) && decide (a = b)

/-- The join `xs LEFT JOIN ys ON cond x y`: each row of `xs` paired with every
matching row of `ys`, or with no row at all when none matches. -/
def leftJoin {α β : Type} (cond : α → β → Bool) (xs : List α) (ys : List β) :
    List (α × Option β) :=
  xs.flatMap fun x =>
    match ys.filter (cond x) with
    | [] => [(x, none)]
    | y :: rest => (y :: rest).map fun b => (x, some b)

/-- Clause `GROUP BY key`: one group per distinct key, holding the joined rows
with that key. -/
def groupBy {ρ κ : Type} [DecidableEq κ] (key : ρ → κ) (rows : List ρ) : List (κ × List ρ) :=
  (rows.map key).dedup.map fun k => (k, rows.filter fun r => decide (key r = k))

/-- Column `r.rating` of a joined row: `NULL` when the left join found no
rating. -/
def ratingCell (r : Option RatingRow) : Value :=
  match r with
  | some row => row.rating
  | none => Value.null

/-- Clause `ORDER BY name`, for a collation `le` of the names. -/
def orderByName {ρ : Type} (le : Value → Value → Bool) (name : ρ → Value) (rows : List ρ) :
    List ρ :=
  rows.insertionSort (fun a b => le (name a) (name b) = true)

/-- Row of the store list of `GET /stores`. -/
structure StoreListRow where
  id : Nat
  name : Value
  address : Value
  average_rating : ℚ
  user_rating : Value

/-- Rows of `stores s LEFT JOIN ratings r ON s.id = r.store_id` that pass the
`WHERE` clause `keep` (a condition on the store columns). -/
def Db.storeRatings (db : Db) (keep : StoreRow → Bool) : List (StoreRow × Option RatingRow) :=
  (leftJoin (fun s r => colEq (idVal s.id) r.store_id) db.stores db.ratings).filter
    fun p => keep p.1

/-- Groups of the store list: `GROUP BY s.id, s.name, s.address`. -/
def Db.storeListGroups (db : Db) (keep : StoreRow → Bool) :
    List ((Nat × Value × Value) × List (StoreRow × Option RatingRow)) :=
  groupBy (fun p => (p.1.id, p.1.name, p.1.address)) (db.storeRatings keep)

/-- The scalar subquery
`(SELECT rating FROM ratings WHERE user_id = $1 AND store_id = s.id)`: `NULL`
without a row, the rating of the only row, an error with several rows. -/
def Db.userRating (db : Db) (userId : Value) (storeId : Nat) : Option Value :=
  match db.selectRating userId (idVal storeId) with
  | [] => some Value.null
  | [r] => some r.rating
  | _ => none

/-- Result of the store list query of `GET /stores` (`none`: the statement
fails, which it does when the scalar subquery finds several rows), for the
`WHERE` clause `keep` and the requesting user `$1`. -/
def Db.storeList (db : Db) (le : Value → Value → Bool) (keep : StoreRow → Bool)
    (userId : Value) : Option (List StoreListRow) :=
  if (db.storeListGroups keep).all (fun g => (db.userRating userId g.1.1).isSome) then
    some (orderByName le (fun row => row.name)
      ((db.storeListGroups keep).map fun g =>
        { id := g.1.1, name := g.1.2.1, address := g.1.2.2,
          average_rating := avgRating (g.2.map fun p => ratingCell p.2),
          user_rating := (db.userRating userId g.1.1).getD Value.null }))
  else none

/-- Row of the store list of `GET /admin/stores`. -/
structure AdminStoreRow where
  id : Nat
  name : Value
  email : Value
  address : Value
  owner_id : Value
  owner_name : Value
  average_rating : ℚ

/-- Column `u.name` of a joined row: `NULL` when the left join found no user. -/
def nameCell (u : Option UserRow) : Value :=
  match u with
  | some row => row.name
  | none => Value.null

/-- Groups of the admin store list:
`stores s LEFT JOIN ratings r ON s.id = r.store_id LEFT JOIN users u ON s.owner_id = u.id`
filtered by `keep`, then
`GROUP BY s.id, s.name, s.email, s.address, s.owner_id, u.name`. -/
def Db.adminStoreGroups (db : Db) (keep : StoreRow → Bool) :
    List ((Nat × Value × Value × Value × Value × Value)
      × List ((StoreRow × Option RatingRow) × Option UserRow)) :=
  groupBy (fun p => (p.1.1.id, p.1.1.name, p.1.1.email, p.1.1.address, p.1.1.owner_id,
      nameCell p.2))
    ((leftJoin (fun (p : StoreRow × Option RatingRow) (u : UserRow) =>
        colEq p.1.owner_id (idVal u.id))
      (leftJoin (fun s r => colEq (idVal s.id) r.store_id) db.stores db.ratings) db.users).filter
      fun p => keep p.1.1)

/-- Result of the store list query of `GET /admin/stores`. -/
def Db.adminStoreList (db : Db) (le : Value → Value → Bool) (keep : StoreRow → Bool) :
    List AdminStoreRow :=
  orderByName le (fun row => row.name)
    ((db.adminStoreGroups keep).map fun g =>
      { id := g.1.1, name := g.1.2.1, email := g.1.2.2.1, address := g.1.2.2.2.1,
        owner_id := g.1.2.2.2.2.1, owner_name := g.1.2.2.2.2.2,
        average_rating := avgRating (g.2.map fun p => ratingCell p.1.2) })

/-- Row of the user list of `GET /admin/users`. -/
structure AdminUserRow where
  id : Nat
  name : Value
  email : Value
  address : Value
  role : Value
  store_name : Value
  store_rating : ℚ

/-- Column `s.name` of a joined row: `NULL` when the left join found no store. -/
def storeNameCell (s : Option StoreRow) : Value :=
  match s with
  | some row => row.name
  | none => Value.null

/-- Condition `s.id = r.store_id` when the store side comes from a left join:
not satisfied when there is no store. -/
def storeMatches (s : Option StoreRow) (r : RatingRow) : Bool :=
  match s with
  | some row => colEq (idVal row.id) r.store_id
  | none => false

/-- Groups of the admin user list:
`users u LEFT JOIN stores s ON u.id = s.owner_id LEFT JOIN ratings r ON s.id = r.store_id`
filtered by `keep`, then
`GROUP BY u.id, u.name, u.email, u.address, u.role, s.name`. -/
def Db.adminUserGroups (db : Db) (keep : UserRow → Bool) :
    List ((Nat × Value × Value × Value × Value × Value)
      × List ((UserRow × Option StoreRow) × Option RatingRow)) :=
  groupBy (fun p => (p.1.1.id, p.1.1.name, p.1.1.email, p.1.1.address, p.1.1.role,
      storeNameCell p.1.2))
    ((leftJoin (fun (p : UserRow × Option StoreRow) (r : RatingRow) => storeMatches p.2 r)
      (leftJoin (fun u s => colEq (idVal u.id) s.owner_id) db.users db.stores) db.ratings).filter
      fun p => keep p.1.1)

/-- Result of the user list query of `GET /admin/users`. -/
def Db.adminUserList (db : Db) (le : Value → Value → Bool) (keep : UserRow → Bool) :
    List AdminUserRow :=
  orderByName le (fun row => row.name)
    ((db.adminUserGroups keep).map fun g =>
      { id := g.1.1, name := g.1.2.1, email := g.1.2.2.1, address := g.1.2.2.2.1,
        role := g.1.2.2.2.2.1, store_name := g.1.2.2.2.2.2,
        store_rating := avgRating (g.2.map fun p => ratingCell p.2) })

/-! ## routes/stores.js: the owner dashboard -/

/-- Text of the store lookup of the owner dashboard. -/
def sqlSelectOwnedStore : String := "SELECT * FROM stores WHERE owner_id = $1"

/-- Text of the average query of the owner dashboard. -/
def sqlSelectAverage : String :=
  "SELECT COALESCE(ROUND(AVG(rating), 2), 0) as average FROM ratings WHERE store_id = $1"

/-- Text of the raters query of the owner dashboard. -/
def sqlSelectRaters : String :=
  "SELECT u.name, u.email, r.rating FROM ratings r JOIN users u ON r.user_id = u.id WHERE r.store_id = $1 ORDER BY r.created_at DESC"

/-- Row of the raters query. -/
structure RaterRow where
  name : Value
  email : Value
  rating : Value
  created_at : Nat

/-- Rows of the raters query: the ratings of the store, each joined with the
users whose id is its `user_id`, most recent first. -/
def Db.raters (db : Db) (storeId : Value) : List RaterRow :=
  ((db.ratingsOf storeId).flatMap fun r =>
      (db.users.filter fun u => colEq r.user_id (idVal u.id)).map fun u =>
        ({ name := u.name, email := u.email, rating := r.rating,
           created_at := r.created_at } : RaterRow)).insertionSort
    (fun a b => b.created_at ≤ a.created_at)

/-- Rater row as the JSON object of the response. -/
def RaterRow.toJson (r : RaterRow) : Json :=
  Json.obj [("name", Json.val r.name), ("email", Json.val r.email),
    ("rating", Json.val r.rating)]

/-- Handler of `GET /stores/owner-dashboard` (after `authMiddleware`). -/
def ownerDashboard (pool : Pool) (req : Request) : Handler Response := do
  let ownerId ← req.userField "id"
  Handler.tryCatch
    (do
      let storeResult ← pool.query ⟨sqlSelectOwnedStore, [ownerId]⟩
        (fun db => (db.stores.filter (fun s => sqlEq s.owner_id ownerId), db))
      match storeResult with
      | [] => return msgResponse 404 "You do not own a store."
      | store :: _ =>
        let averageRating ← pool.query ⟨sqlSelectAverage, [idVal store.id]⟩
          (fun db => (db.averageFor (idVal store.id), db))
        let ratersResult ← pool.query ⟨sqlSelectRaters, [idVal store.id]⟩
          (fun db => (db.raters (idVal store.id), db))
        return { status := 200, body := ResBody.json (Json.obj
          [("storeName", Json.val store.name),
           ("averageRating", Json.val (lit averageRating)),
           ("raters", Json.arr (ratersResult.map RaterRow.toJson))]) })
    (fun _ => return serverError)

/-! ## middleware/adminMiddleware.js -/

/-- What a middleware does with a request: it hands over to the next handler
or answers itself. -/
inductive Step
  | next
  | respond (r : Response)

/-- The test `!req.user || !req.user.role`: an attached identity is an object
and so truthy; its role counts when it is truthy. -/
def roleMissing (req : Request) : Bool :=
  match req.user with
  | none => true
  | some u => !truthy (u.get "role")

/-- Field `req.user.role` once `req.user` is known to be present. -/
def Request.role (req : Request) : Value :=
  match req.user with
  | some u => u.get "role"
  | none => Value.undefined

/-- The admin check.  No step of its `try` block raises, so the `catch`
branch is never taken. -/
def adminMiddleware (req : Request) : Step :=
  if roleMissing req then
    Step.respond (msgResponse 403 "Access denied. User role not found.")
  else if req.role ≠ Value.str "System Administrator" then
    Step.respond (msgResponse 403 "Access denied. Administrator privileges required.")
  else
    Step.next

/-! ## routes/auth.js -/

/-- The `bcryptjs` calls as one request sees them (`none`: the call rejects).
`genSalt` depends on the random source, so it is given per request. -/
structure Bcrypt where
  genSalt : Nat → Option String
  hash : Value → String → Option String
  compare : Value → Value → Option Bool

/-- Step `await bcrypt.genSalt(rounds)`. -/
def Bcrypt.genSaltStep (b : Bcrypt) (rounds : Nat) : Handler String :=
  match b.genSalt rounds with
  | some salt => pure salt
  | none => Handler.throw Thrown.hashing

/-- Step `await bcrypt.hash(password, salt)`. -/
def Bcrypt.hashStep (b : Bcrypt) (password : Value) (salt : String) : Handler String :=
  match b.hash password salt with
  | some h => pure h
  | none => Handler.throw Thrown.hashing

/-- Step `await bcrypt.compare(password, hash)`. -/
def Bcrypt.compareStep (b : Bcrypt) (password hash : Value) : Handler Bool :=
  match b.compare password hash with
  | some r => pure r
  | none => Handler.throw Thrown.hashing

/-- How a `jwt.sign` call with a callback ends: the callback gets the token,
or it gets an error while `jwt.sign` is still running (inside the caller's
`try`), or it gets an error later. -/
inductive SignOutcome
  | token (t : String)
  | errorNow
  | errorLater

/-- The `jsonwebtoken` library and the environment variable `JWT_SECRET`. -/
structure Jwt where
  secret : Value
  sign : Json → Value → JObject → SignOutcome

/-- Modelled from the spec: the default of the column `users.role`, which the
registration insert relies on; the table definition is not among the sources
("persists with default role Normal User"). -/
def defaultRole : Value := Value.str "Normal User"

/-- Text of the email lookup of `register`, `login` and admin `createUser`. -/
def sqlSelectUserByEmail : String := "SELECT * FROM users WHERE email = $1"

/-- Text of the insert statement of `register`. -/
def sqlInsertUser : String :=
  "INSERT INTO users (name, email, password, address) VALUES ($1, $2, $3, $4) RETURNING id, name, email, role"

/-- Rows selected by the email lookup. -/
def Db.usersByEmail (db : Db) (email : Value) : List UserRow :=
  db.users.filter (fun u => sqlTextEq u.email email)

/-- Effect of the insert statement of `register`: one new row with the next
id; the statement names no role, so the column default applies. -/
def Db.insertUser (name email password address : Value) (db : Db) : List UserRow × Db :=
  let row : UserRow :=
    ⟨db.nextUserId, toParam name, toParam email, toParam password, toParam address, defaultRole⟩
  ([row], { db with users := db.users ++ [row], nextUserId := db.nextUserId + 1 })

/-- User row as returned by `RETURNING id, name, email, role`. -/
def UserRow.returning (u : UserRow) : Json :=
  Json.obj [("id", Json.val (idVal u.id)), ("name", Json.val u.name),
    ("email", Json.val u.email), ("role", Json.val u.role)]

/-- Element `rows[0]` of a user result: `undefined` when there is no row. -/
def firstUserJson (rows : List UserRow) : Json :=
  match rows with
  | u :: _ => u.returning
  | [] => Json.val Value.undefined

/-- Handler of `POST /auth/register` (after the validation middleware). -/
def register (pool : Pool) (bcrypt : Bcrypt) (req : Request) : Handler Response :=
  let name := req.body.get "name"
  let email := req.body.get "email"
  let password := req.body.get "password"
  let address := req.body.get "address"
  Handler.tryCatch
    (do
      let userExists ← pool.query ⟨sqlSelectUserByEmail, [email]⟩
        (fun db => (db.usersByEmail email, db))
      if userExists.length > 0 then
        return msgResponse 400 "User with this email already exists."
      let salt ← bcrypt.genSaltStep 10
      let hashedPassword ← bcrypt.hashStep password salt
      let newUser ← pool.query
        ⟨sqlInsertUser, [name, email, Value.str hashedPassword, address]⟩
        (Db.insertUser name email (Value.str hashedPassword) address)
      return { status := 201, body := ResBody.json (Json.obj
        [("msg", Json.val (Value.str "User registered successfully!")),
         ("user", firstUserJson newUser)]) })
    (fun _ => return serverError)

/-- The object `{ id: user.id, name: user.name, role: user.role }`. -/
def UserRow.identity (u : UserRow) : Json :=
  Json.obj [("id", Json.val (idVal u.id)), ("name", Json.val u.name),
    ("role", Json.val u.role)]

/-- The token payload `{ user: { id, name, role } }`. -/
def loginPayload (u : UserRow) : Json :=
  Json.obj [("user", u.identity)]

/-- The signing options `{ expiresIn: '5h' }`. -/
def loginSignOptions : JObject := [("expiresIn", Value.str "5h")]

/-- Where `login` stands once its `try` block has run through: it answered,
or the token callback is still to run, with the token or with an error. -/
inductive LoginProgress
  | answered (r : Response)
  | signed (user : UserRow) (token : String)
  | signFailed

/-- Handler of `POST /auth/login`.  The callback of `jwt.sign` answers with
the token and rethrows an error it is given: inside the `try` block when the
library reports the error at once, outside of it when the error comes later. -/
def login (pool : Pool) (bcrypt : Bcrypt) (jwt : Jwt) (req : Request) : Handler Response := do
  let email := req.body.get "email"
  let password := req.body.get "password"
  let progress ← Handler.tryCatch
    (do
      let userResult ← pool.query ⟨sqlSelectUserByEmail, [email]⟩
        (fun db => (db.usersByEmail email, db))
      match userResult with
      | [] => return LoginProgress.answered (msgResponse 400 "Invalid credentials.")
      | user :: _ =>
        let isMatch ← bcrypt.compareStep password user.password
        if !isMatch then
          return LoginProgress.answered (msgResponse 400 "Invalid credentials.")
        match jwt.sign (loginPayload user) jwt.secret loginSignOptions with
        | SignOutcome.errorNow => Handler.throw Thrown.signing
        | SignOutcome.errorLater => return LoginProgress.signFailed
        | SignOutcome.token token => return LoginProgress.signed user token)
    (fun _ => return LoginProgress.answered serverError)
  match progress with
  | LoginProgress.answered r => return r
  | LoginProgress.signFailed => Handler.throw Thrown.signing
  | LoginProgress.signed user token =>
    return { status := 200, body := ResBody.json (Json.obj
      [("msg", Json.val (Value.str "Login successful!")),
       ("token", Json.val (Value.str token)),
       ("user", user.identity)]) }

/-! ## middleware/validationMiddleware.js -/

/-- The functions of `express-validator` and `validator.js` the rules call.
`toString` is the string form under which a field value that is not a string
is validated and sanitized; `modifiersOnRegExp` tells whether `matches`
applies its modifiers argument to a pattern that is already a regular
expression object. -/
structure ValidatorLib where
  toString : Value → String
  isEmail : String → Bool
  normalizeEmail : String → Value
  trim : String → String
  escape : String → String
  modifiersOnRegExp : Bool

/-- String a validator or sanitizer receives for a field value. -/
def ValidatorLib.fieldString (lib : ValidatorLib) : Value → String
  | Value.str s => s
  | v => lib.toString v

/-- The variation selectors U+FE0E and U+FE0F. -/
def isVariationSelector (c : Char) : Bool :=
  c = Char.ofNat 0xFE0E || c = Char.ofNat 0xFE0F

/-- Length of a string as `isLength` counts it: the code points of the string,
the variation selectors apart. -/
def validatorLength (s : String) : Nat :=
  s.length - (s.toList.filter isVariationSelector).length

/-- Validator `isLength({ min, max })`. -/
def isLength (s : String) (min : Nat) (max : Option Nat) : Bool :=
  decide (min ≤ validatorLength s) &&
    match max with
    | some m => decide (validatorLength s ≤ m)
    | none => true

/-- Line terminators, which `.` does not match. -/
def isLineTerminator (c : Char) : Bool :=
  c = '\n' || c = '\r' || c = Char.ofNat 0x2028 || c = Char.ofNat 0x2029

/-- Class `[A-Z]`, also matching `a` to `z` when the pattern ignores case. -/
def matchesUpper (ignoreCase : Bool) (c : Char) : Bool :=
  (decide ('A' ≤ c) && decide (c ≤ 'Z')) ||
    (ignoreCase && decide ('a' ≤ c) && decide (c ≤ 'z'))

/-- Class `[!@#$&*]`. -/
def isSpecial (c : Char) : Bool :=
  c = '!' || c = '@' || c = '#' || c = '$' || c = '&' || c = '*'

/-- Match of the pattern `^(?=.*[A-Z])(?=.*[!@#$&*]).*$`: the whole string is
on one line and holds a character of each class. -/
def passwordPattern (ignoreCase : Bool) (s : String) : Bool :=
  s.toList.all (fun c => !isLineTerminator c) && s.toList.any (matchesUpper ignoreCase)
    && s.toList.any isSpecial

/-- Entry of the error list, as `handleValidationErrors` extracts it. -/
structure FieldError where
  param : String
  msg : String
deriving DecidableEq

/-- Errors of one validator: its message when the check fails. -/
def checkField (ok : Bool) (param msg : String) : List FieldError :=
  if ok then [] else [⟨param, msg⟩]

/-- Assignment `o.k = v`. -/
def JObject.set (o : JObject) (k : String) (v : Value) : JObject :=
  (k, v) :: o.filter (fun p => p.1 ≠ k)

/-- Message of the password chain. -/
def passwordMsg : String :=
  "Password must be 8-16 characters and include one uppercase letter and one special character."

/-- Message of the name chain. -/
def nameMsg : String := "Name must be between 20 and 60 characters."

/-- Message of the email chain. -/
def emailMsg : String := "Please include a valid email."

/-- Message of the address chain. -/
def addressMsg : String := "Address must not exceed 400 characters."

/-- The places of a request where `check(field)` looks the field up. -/
inductive Location
  | body
  | cookies
  | headers
  | params
  | query
deriving DecidableEq

/-- The locations in the order `check` goes through them. -/
def checkLocations : List Location :=
  [Location.body, Location.cookies, Location.headers, Location.params, Location.query]

/-- The object a location stands for.  `server.js` installs no cookie parser,
so `req.cookies` is never set, and the two routes have no route parameter, so
`req.params` is empty: no field is found in either. -/
def Request.inLocation (req : Request) : Location → JObject
  | Location.body => req.body
  | Location.cookies => []
  | Location.headers => req.headers
  | Location.params => []
  | Location.query => req.query

/-- Assignment `req[location][k] = v`, for the locations that can hold a
field. -/
def Request.setIn (req : Request) (loc : Location) (k : String) (v : Value) : Request :=
  match loc with
  | Location.body => { req with body := req.body.set k v }
  | Location.headers => { req with headers := req.headers.set k v }
  | Location.query => { req with query := req.query.set k v }
  | Location.cookies => req
  | Location.params => req

/-- The instances of a field a chain of `check(field)` works on: the value of
the field in every location that holds one, in the order of the locations;
when no location holds the field, the instance of the first location (the
body) with the value `undefined`. -/
def Request.instances (req : Request) (field : String) : List (Location × Value) :=
  match (checkLocations.map (fun loc => (loc, (req.inLocation loc).get field))).filter
      (fun p => decide (p.2 ≠ Value.undefined)) with
  | [] => (checkLocations.map (fun loc => (loc, (req.inLocation loc).get field))).take 1
  | withValue => withValue

/-- One validator of a chain, run on every instance in turn: its message for
each instance on which the check fails.  The validator sees the string form of
the value (an array, which the library validates element by element, is not
told apart from a plain object by `Value.other`; the properties of the chains
are stated for requests without such values). -/
def validate (lib : ValidatorLib) (ok : String → Bool) (param msg : String) :
    List (Location × Value) → List FieldError
  | [] => []
  | p :: rest => checkField (ok (lib.fieldString p.2)) param msg
      ++ validate lib ok param msg rest

/-- The sanitizers of a chain, run on every instance in turn: each instance
gets its sanitized value in the location it was found in. -/
def sanitize (lib : ValidatorLib) (sanitizer : String → Value) (field : String) :
    List (Location × Value) → Request → Request
  | [], req => req
  | p :: rest, req =>
    sanitize lib sanitizer field rest (req.setIn p.1 field (sanitizer (lib.fieldString p.2)))

/-- The chains of `userValidationRules`, run one after the other on the
request: the errors they report and the request with the sanitized values.
Each chain selects the instances of its field, runs its validators on the
values as submitted and then its sanitizers. -/
def userValidationRules (lib : ValidatorLib) (req : Request) : List FieldError × Request :=
  let names := req.instances "name"
  let nameErrors := validate lib (fun s => isLength s 20 (some 60)) "name" nameMsg names
  let req1 := sanitize lib (fun s => Value.str (lib.escape (lib.trim s))) "name" names req
  let emails := req1.instances "email"
  let emailErrors := validate lib lib.isEmail "email" emailMsg emails
  let req2 := sanitize lib lib.normalizeEmail "email" emails req1
  let passwords := req2.instances "password"
  let passwordErrors := validate lib (fun s => isLength s 8 (some 16)) "password" passwordMsg
      passwords
    ++ validate lib (passwordPattern lib.modifiersOnRegExp) "password" passwordMsg passwords
  let addresses := req2.instances "address"
  let addressErrors := validate lib (fun s => isLength s 0 (some 400)) "address" addressMsg
      addresses
  let req3 := sanitize lib (fun s => Value.str (lib.escape (lib.trim s))) "address" addresses
      req2
  (nameErrors ++ emailErrors ++ passwordErrors ++ addressErrors, req3)

/-- Error entry as a JSON object `{ param, msg }`. -/
def FieldError.toJson (e : FieldError) : Json :=
  Json.obj [("param", Json.val (Value.str e.param)), ("msg", Json.val (Value.str e.msg))]

/-- The middleware `handleValidationErrors`, given the errors collected for
the request. -/
def handleValidationErrors (errors : List FieldError) : Step :=
  if !errors.isEmpty then
    Step.respond { status := 400, body := ResBody.json (Json.obj
      [("errors", Json.arr (errors.map FieldError.toJson))]) }
  else
    Step.next

/-- The route `POST /auth/register`: the validation chains,
`handleValidationErrors`, then the handler on the sanitized request. -/
def registerRoute (lib : ValidatorLib) (pool : Pool) (bcrypt : Bcrypt) (req : Request) :
    Handler Response :=
  match handleValidationErrors (userValidationRules lib req).1 with
  | Step.respond r => pure r
  | Step.next => register pool bcrypt (userValidationRules lib req).2

/-! ## routes/users.js -/

/-- Text of the password lookup of `PUT /users/password`. -/
def sqlSelectPassword : String := "SELECT password FROM users WHERE id = $1"

/-- Text of the password update of `PUT /users/password`. -/
def sqlUpdatePassword : String := "UPDATE users SET password = $1 WHERE id = $2"

/-- Rows selected by `FROM users WHERE id = $1`. -/
def Db.usersById (db : Db) (userId : Value) : List UserRow :=
  db.users.filter (fun u => sqlEq (idVal u.id) userId)

/-- Effect of the password update: every row with the id gets the new
password. -/
def Db.updatePassword (password userId : Value) (db : Db) : Unit × Db :=
  let upd : UserRow → UserRow := fun u =>
    if sqlEq (idVal u.id) userId then { u with password := toParam password } else u
  ((), { db with users := db.users.map upd })

/-- Handler of `PUT /users/password` (after `authMiddleware`). -/
def changePassword (pool : Pool) (bcrypt : Bcrypt) (req : Request) : Handler Response := do
  let currentPassword := req.body.get "currentPassword"
  let newPassword := req.body.get "newPassword"
  let userId ← req.userField "id"
  Handler.tryCatch
    (do
      let userResult ← pool.query ⟨sqlSelectPassword, [userId]⟩
        (fun db => (db.usersById userId, db))
      match userResult with
      | [] => return msgResponse 404 "User not found."
      | user :: _ =>
        if !truthy user.password then
          return msgResponse 500 "Server configuration error."
        let isMatch ← bcrypt.compareStep currentPassword user.password
        if !isMatch then
          return msgResponse 400 "Incorrect current password."
        let salt ← bcrypt.genSaltStep 10
        let hashedNewPassword ← bcrypt.hashStep newPassword salt
        pool.query ⟨sqlUpdatePassword, [Value.str hashedNewPassword, userId]⟩
          (Db.updatePassword (Value.str hashedNewPassword) userId)
        return msgResponse 200 "Password updated successfully.")
    (fun _ => return serverError)

/-! ## Filters of the list routes -/

/-- Text settings of the database server: the order `ORDER BY` follows on
names (`le`) and the case folding `ILIKE` applies (`lower`). -/
structure Collation where
  le : Value → Value → Bool
  lower : Char → Char

/-- SQL `LIKE`: `%` stands for any run of characters, `_` for any one
character, and a backslash makes the character after it stand for itself.
(A pattern built by the handlers ends with `%`, so it never ends with an
unfinished escape.) -/
def likeMatch : List Char → List Char → Bool
  | [], s => s.isEmpty
  | '%' :: ps, s => s.tails.any (likeMatch ps)
  | '_' :: ps, s =>
    match s with
    | [] => false
    | _ :: xs => likeMatch ps xs
  | '\\' :: c :: ps, s =>
    match s with
    | [] => false
    | x :: xs => x == c && likeMatch ps xs
  | c :: ps, s =>
    match s with
    | [] => false
    | x :: xs => x == c && likeMatch ps xs

/-- SQL `cell ILIKE pattern`: `LIKE` on the case-folded texts; a cell that
holds no text does not match. -/
def ilike (lower : Char → Char) (cell : Value) (pattern : String) : Bool :=
  match cell with
  | Value.str s => likeMatch (pattern.toList.map lower) (s.toList.map lower)
  | _ => false

/-- Template literal substitution `${v}` (ECMAScript `ToString`); the digits
of a number are given by `numberToString`. -/
def interpolate (numberToString : JSNum → String) : Value → String
  | Value.undefined => "undefined"
  | Value.null => "null"
  | Value.bool true => "true"
  | Value.bool false => "false"
  | Value.num n => numberToString n
  | Value.str s => s
  | Value.other s => s

/-- The arrays `queryParams` and `whereClauses` while a query is built. -/
structure QueryBuild where
  params : List Value
  clauses : List String
deriving DecidableEq

/-- The pattern a `name`, `email` or `address` filter pushes: the filter
between two `%`. -/
def likePattern (numberToString : JSNum → String) (v : Value) : String :=
  "%" ++ interpolate numberToString v ++ "%"

/-- The block `if (v) { queryParams.push(pattern); whereClauses.push(column
ILIKE $n) }`, `n` being the length of `queryParams` after the push. -/
def pushLike (numberToString : JSNum → String) (column : String) (v : Value)
    (b : QueryBuild) : QueryBuild :=
  if truthy v then
    ⟨b.params ++ [Value.str (likePattern numberToString v)],
      b.clauses ++ [column ++ " ILIKE $" ++ toString (b.params.length + 1)]⟩
  else b

/-- The block `if (role) { queryParams.push(role); whereClauses.push(column =
$n) }`. -/
def pushEq (column : String) (v : Value) (b : QueryBuild) : QueryBuild :=
  if truthy v then
    ⟨b.params ++ [v], b.clauses ++ [column ++ " = $" ++ toString (b.params.length + 1)]⟩
  else b

/-- The text added when `whereClauses` is not empty: the clauses joined by
`AND` behind `WHERE`. -/
def whereText (b : QueryBuild) : String :=
  if b.clauses.length > 0 then " WHERE " ++ " AND ".intercalate b.clauses else ""

/-- Meaning of an `ILIKE` clause that is only added for a truthy filter. -/
def likeFilter (coll : Collation) (numberToString : JSNum → String) (cell v : Value) : Bool :=
  !truthy v || ilike coll.lower cell (likePattern numberToString v)

/-- Meaning of an `=` clause that is only added for a truthy filter. -/
def eqFilter (cell v : Value) : Bool :=
  !truthy v || sqlTextEq cell v

/-- Call `await pool.query(sql, params)` for a statement that can fail by
itself (`sem` gives `none`). -/
def Pool.queryOpt {α : Type} (pool : Pool) (stmt : Stmt) (sem : Db → Option (α × Db)) :
    Handler α :=
  fun st =>
    match sem st.db with
    | some r =>
      if pool.fails st.db stmt then
        (Except.error Thrown.persistence, { st with log := st.log ++ [stmt] })
      else
        (Except.ok r.1, { db := r.2, log := st.log ++ [stmt] })
    | none => (Except.error Thrown.persistence, { st with log := st.log ++ [stmt] })

/-! ## routes/stores.js: the store list -/

/-- Text of the store list query up to the joins. -/
def sqlStoreListHead : String :=
  "\n            SELECT \n                s.id, \n                s.name, \n                s.address,\n                COALESCE(ROUND(AVG(r.rating), 2), 0) AS average_rating,\n                (SELECT rating FROM ratings WHERE user_id = $1 AND store_id = s.id) AS user_rating\n            FROM \n                stores s\n            LEFT JOIN \n                ratings r ON s.id = r.store_id\n        "

/-- Text of the store list query from `GROUP BY` on. -/
def sqlStoreListTail : String :=
  "\n            GROUP BY \n                s.id, s.name, s.address\n            ORDER BY \n                s.name;\n        "

/-- Row of the store list as a JSON object. -/
def StoreListRow.toJson (r : StoreListRow) : Json :=
  Json.obj [("id", Json.val (idVal r.id)), ("name", Json.val r.name),
    ("address", Json.val r.address), ("average_rating", Json.val (lit r.average_rating)),
    ("user_rating", Json.val r.user_rating)]

/-- The `WHERE` clause of the store list for the filters `name` and
`address`. -/
def storeListFilter (coll : Collation) (numberToString : JSNum → String) (name address : Value)
    (s : StoreRow) : Bool :=
  likeFilter coll numberToString s.name name && likeFilter coll numberToString s.address address

/-- Handler of `GET /stores` (after `authMiddleware`). -/
def listStoresForUser (numberToString : JSNum → String) (coll : Collation) (pool : Pool)
    (req : Request) : Handler Response := do
  let userId ← req.userField "id"
  let name := req.query.get "name"
  let address := req.query.get "address"
  Handler.tryCatch
    (do
      let b := pushLike numberToString "s.address" address
        (pushLike numberToString "s.name" name ⟨[userId], []⟩)
      let queryText := sqlStoreListHead ++ whereText b ++ sqlStoreListTail
      let stores ← pool.queryOpt ⟨queryText, b.params⟩
        (fun db => (db.storeList coll.le (storeListFilter coll numberToString name address)
          userId).map fun rows => (rows, db))
      return { status := 200, body := ResBody.json (Json.arr (stores.map StoreListRow.toJson)) })
    (fun _ => return serverError)

/-! ## routes/admin.js: the lists -/

/-- Text of the user list query up to the joins. -/
def sqlUserListHead : String :=
  "\n            SELECT \n                u.id, u.name, u.email, u.address, u.role,\n                s.name as store_name,\n                COALESCE(ROUND(AVG(r.rating), 2), 0) AS store_rating\n            FROM users u\n            LEFT JOIN stores s ON u.id = s.owner_id\n            LEFT JOIN ratings r ON s.id = r.store_id\n        "

/-- Text of the user list query from `GROUP BY` on. -/
def sqlUserListTail : String :=
  " GROUP BY u.id, u.name, u.email, u.address, u.role, s.name ORDER BY u.name"

/-- Text of the admin store list query up to the joins. -/
def sqlAdminStoreListHead : String :=
  "\n            SELECT \n                s.id, s.name, s.email, s.address, s.owner_id,\n                u.name as owner_name,\n                COALESCE(ROUND(AVG(r.rating), 2), 0) AS average_rating\n            FROM stores s\n            LEFT JOIN ratings r ON s.id = r.store_id\n            LEFT JOIN users u ON s.owner_id = u.id\n        "

/-- Text of the admin store list query from `GROUP BY` on. -/
def sqlAdminStoreListTail : String :=
  " GROUP BY s.id, s.name, s.email, s.address, s.owner_id, u.name ORDER BY s.name"

/-- Row of the user list as a JSON object. -/
def AdminUserRow.toJson (r : AdminUserRow) : Json :=
  Json.obj [("id", Json.val (idVal r.id)), ("name", Json.val r.name),
    ("email", Json.val r.email), ("address", Json.val r.address), ("role", Json.val r.role),
    ("store_name", Json.val r.store_name), ("store_rating", Json.val (lit r.store_rating))]

/-- Row of the admin store list as a JSON object. -/
def AdminStoreRow.toJson (r : AdminStoreRow) : Json :=
  Json.obj [("id", Json.val (idVal r.id)), ("name", Json.val r.name),
    ("email", Json.val r.email), ("address", Json.val r.address),
    ("owner_id", Json.val r.owner_id), ("owner_name", Json.val r.owner_name),
    ("average_rating", Json.val (lit r.average_rating))]

/-- The `WHERE` clause of the user list for the filters `name`, `email` and
`role`. -/
def userListFilter (coll : Collation) (numberToString : JSNum → String) (name email role : Value)
    (u : UserRow) : Bool :=
  likeFilter coll numberToString u.name name && likeFilter coll numberToString u.email email
    && eqFilter u.role role

/-- The `WHERE` clause of the admin store list for the filters `name`, `email`
and `address`. -/
def adminStoreListFilter (coll : Collation) (numberToString : JSNum → String)
    (name email address : Value) (s : StoreRow) : Bool :=
  likeFilter coll numberToString s.name name && likeFilter coll numberToString s.email email
    && likeFilter coll numberToString s.address address

/-- Handler of `GET /admin/users` (after the authentication and admin
checks). -/
def listUsers (numberToString : JSNum → String) (coll : Collation) (pool : Pool)
    (req : Request) : Handler Response :=
  let name := req.query.get "name"
  let email := req.query.get "email"
  let role := req.query.get "role"
  Handler.tryCatch
    (do
      let b := pushEq "u.role" role (pushLike numberToString "u.email" email
        (pushLike numberToString "u.name" name ⟨[], []⟩))
      let queryText := sqlUserListHead ++ whereText b ++ sqlUserListTail
      let users ← pool.query ⟨queryText, b.params⟩
        (fun db => (db.adminUserList coll.le
          (userListFilter coll numberToString name email role), db))
      return { status := 200, body := ResBody.json (Json.arr (users.map AdminUserRow.toJson)) })
    (fun _ => return serverError)

/-- Handler of `GET /admin/stores` (after the authentication and admin
checks). -/
def listStores (numberToString : JSNum → String) (coll : Collation) (pool : Pool)
    (req : Request) : Handler Response :=
  let name := req.query.get "name"
  let email := req.query.get "email"
  let address := req.query.get "address"
  Handler.tryCatch
    (do
      let b := pushLike numberToString "s.address" address
        (pushLike numberToString "s.email" email
          (pushLike numberToString "s.name" name ⟨[], []⟩))
      let queryText := sqlAdminStoreListHead ++ whereText b ++ sqlAdminStoreListTail
      let stores ← pool.query ⟨queryText, b.params⟩
        (fun db => (db.adminStoreList coll.le
          (adminStoreListFilter coll numberToString name email address), db))
      return { status := 200, body := ResBody.json (Json.arr (stores.map AdminStoreRow.toJson)) })
    (fun _ => return serverError)

/-- Plain substring test: `f` occurs in `s` at some position. -/
def isSubstring (f s : List Char) : Bool :=
  s.tails.any fun t => f.isPrefixOf t

/-- The filter the spec describes: the text of the cell contains `f` as a
substring when letter case is ignored. -/
def containsIgnoreCase (lower : Char → Char) (cell : Value) (f : String) : Bool :=
  match cell with
  | Value.str s => isSubstring (f.toList.map lower) (s.toList.map lower)
  | _ => false

/-! ## routes/admin.js: creating users and stores -/

/-- Text of the insert statement of admin `createUser`. -/
def sqlInsertUserWithRole : String :=
  "INSERT INTO users (name, email, password, address, role) VALUES ($1, $2, $3, $4, $5) RETURNING id, name, email, role"

/-- Text of the owner assignment of admin `createUser`. -/
def sqlUpdateStoreOwner : String := "UPDATE stores SET owner_id = $1 WHERE id = $2"

/-- Effect of the insert statement of `createUser`: one new row with the next
id and the role given as fifth parameter. -/
def Db.insertUserWithRole (name email password address role : Value) (db : Db) :
    List UserRow × Db :=
  let row : UserRow :=
    ⟨db.nextUserId, toParam name, toParam email, toParam password, toParam address,
      toParam role⟩
  ([row], { db with users := db.users ++ [row], nextUserId := db.nextUserId + 1 })

/-- Effect of the owner assignment: every store row with the id gets the new
`owner_id`. -/
def Db.updateStoreOwner (ownerId storeId : Value) (db : Db) : Unit × Db :=
  let upd : StoreRow → StoreRow := fun s =>
    if sqlEq (idVal s.id) storeId then { s with owner_id := intColumn ownerId } else s
  ((), { db with stores := db.stores.map upd })

/-- Handler of `POST /admin/users` (after the admin checks and the validation
middleware). -/
def createUser (pool : Pool) (bcrypt : Bcrypt) (req : Request) : Handler Response :=
  let name := req.body.get "name"
  let email := req.body.get "email"
  let password := req.body.get "password"
  let address := req.body.get "address"
  let role := req.body.get "role"
  let store_id := req.body.get "store_id"
  Handler.tryCatch
    (do
      let userExists ← pool.query ⟨sqlSelectUserByEmail, [email]⟩
        (fun db => (db.usersByEmail email, db))
      if userExists.length > 0 then
        return msgResponse 400 "User with this email already exists."
      let salt ← bcrypt.genSaltStep 10
      let hashedPassword ← bcrypt.hashStep password salt
      let newUserResult ← pool.query
        ⟨sqlInsertUserWithRole, [name, email, Value.str hashedPassword, address, role]⟩
        (Db.insertUserWithRole name email (Value.str hashedPassword) address role)
      if decide (role = Value.str "Store Owner") && truthy store_id then
        match newUserResult with
        | newUser :: _ =>
          pool.query ⟨sqlUpdateStoreOwner, [idVal newUser.id, store_id]⟩
            (Db.updateStoreOwner (idVal newUser.id) store_id)
        | [] => Handler.throw Thrown.typeError
      return { status := 201, body := ResBody.json (firstUserJson newUserResult) })
    (fun _ => return serverError)

/-- Text of the email lookup of admin `createStore`. -/
def sqlSelectStoreByEmail : String := "SELECT * FROM stores WHERE email = $1"

/-- Text of the insert statement of admin `createStore`. -/
def sqlInsertStore : String :=
  "INSERT INTO stores (name, email, address, owner_id) VALUES ($1, $2, $3, $4) RETURNING *"

/-- Text of the role update of admin `createStore`. -/
def sqlPromoteOwner : String := "UPDATE users SET role = 'Store Owner' WHERE id = $1"

/-- Rows selected by the store email lookup. -/
def Db.storesByEmail (db : Db) (email : Value) : List StoreRow :=
  db.stores.filter (fun s => sqlTextEq s.email email)

/-- Effect of the insert statement of `createStore`: one new row with the next
id; its `owner_id` is the integer the parameter denotes. -/
def Db.insertStore (name email address ownerId : Value) (db : Db) : List StoreRow × Db :=
  let row : StoreRow :=
    ⟨db.nextStoreId, toParam name, toParam email, toParam address, intColumn ownerId⟩
  ([row], { db with stores := db.stores ++ [row], nextStoreId := db.nextStoreId + 1 })

/-- Effect of the role update: every user row with the id gets the role
'Store Owner'. -/
def Db.promoteOwner (ownerId : Value) (db : Db) : Unit × Db :=
  let upd : UserRow → UserRow := fun u =>
    if sqlEq (idVal u.id) ownerId then { u with role := Value.str "Store Owner" } else u
  ((), { db with users := db.users.map upd })

/-- Store row as a JSON object (`RETURNING *`). -/
def StoreRow.toJson (s : StoreRow) : Json :=
  Json.obj [("id", Json.val (idVal s.id)), ("name", Json.val s.name),
    ("email", Json.val s.email), ("address", Json.val s.address),
    ("owner_id", Json.val s.owner_id)]

/-- Element `rows[0]` of a store result: `undefined` when there is no row. -/
def firstStoreJson (rows : List StoreRow) : Json :=
  match rows with
  | s :: _ => s.toJson
  | [] => Json.val Value.undefined

/-- Handler of `POST /admin/stores` (after the admin checks). -/
def createStore (pool : Pool) (req : Request) : Handler Response :=
  let name := req.body.get "name"
  let email := req.body.get "email"
  let address := req.body.get "address"
  let owner_id := req.body.get "owner_id"
  Handler.tryCatch
    (do
      let storeExists ← pool.query ⟨sqlSelectStoreByEmail, [email]⟩
        (fun db => (db.storesByEmail email, db))
      if storeExists.length > 0 then
        return msgResponse 400 "Store with this email already exists."
      let newStore ← pool.query ⟨sqlInsertStore, [name, email, address, owner_id]⟩
        (Db.insertStore name email address owner_id)
      if truthy owner_id then
        pool.query ⟨sqlPromoteOwner, [owner_id]⟩ (Db.promoteOwner owner_id)
      return { status := 201, body := ResBody.json (firstStoreJson newStore) })
    (fun _ => return serverError)

/-! ## What the validation chains accept -/

/-- A chain accepts its field when the error list holds no entry for the
field. -/
def accepts (errors : List FieldError) (param : String) : Bool :=
  errors.all (fun e => !decide (e.param = param))

/-- The password rule as the spec words it: 8 to 16 characters, at least one
uppercase letter `A` to `Z` and at least one character of `!@#$&*`. -/
def passwordRuleStated (s : String) : Bool :=
  decide (8 ≤ s.length) && decide (s.length ≤ 16)
    && s.toList.any (fun c => decide ('A' ≤ c) && decide (c ≤ 'Z'))
    && s.toList.any (fun c => decide (c ∈ ['!', '@', '#', '$', '&', '*']))

/-- The route `POST /admin/users` past the admin checks: the validation
chains, `handleValidationErrors`, then the handler on the sanitized request. -/
def createUserRoute (lib : ValidatorLib) (pool : Pool) (bcrypt : Bcrypt) (req : Request) :
    Handler Response :=
  match handleValidationErrors (userValidationRules lib req).1 with
  | Step.respond r => pure r
  | Step.next => createUser pool bcrypt (userValidationRules lib req).2

/-- Outcomes of one validator on the instances of its field. -/
def outcomes (lib : ValidatorLib) (ok : String → Bool) (instances : List (Location × Value)) :
    List Bool :=
  instances.map (fun p => ok (lib.fieldString p.2))

/-- Outcomes of the validators of `userValidationRules` on a request, in the
order of the chains, each validator on every instance of its field:
`isLength` of the name, `isEmail`, `isLength` and `matches` of the password,
`isLength` of the address. -/
def validatorOutcomes (lib : ValidatorLib) (req : Request) : List Bool :=
  outcomes lib (fun s => isLength s 20 (some 60)) (req.instances "name")
    ++ outcomes lib lib.isEmail (req.instances "email")
    ++ outcomes lib (fun s => isLength s 8 (some 16)) (req.instances "password")
    ++ outcomes lib (passwordPattern lib.modifiersOnRegExp) (req.instances "password")
    ++ outcomes lib (fun s => isLength s 0 (some 400)) (req.instances "address")

/-- The fields the chains of `userValidationRules` check. -/
def checkedFields : List String := ["name", "email", "password", "address"]

/-- No instance of a checked field is an array or an object. -/
def Request.plainFields (req : Request) : Bool :=
  checkedFields.all (fun field => (req.instances field).all (fun p =>
    match p.2 with
    | Value.other _ => false
    | _ => true))

/-! ## routes/admin.js: the counts -/

/-- Text of the user count of `GET /admin/stats`. -/
def sqlCountUsers : String := "SELECT COUNT(*) FROM users"

/-- Text of the store count of `GET /admin/stats`. -/
def sqlCountStores : String := "SELECT COUNT(*) FROM stores"

/-- Text of the rating count of `GET /admin/stats`. -/
def sqlCountRatings : String := "SELECT COUNT(*) FROM ratings"

/-- Handler of `GET /admin/stats` (after the authentication and admin checks).
The server sends each count as a decimal string, which `parseInt` reads back
(exactly, for a count a double represents). -/
def adminStats (pool : Pool) : Handler Response :=
  Handler.tryCatch
    (do
      let userCount ← pool.query ⟨sqlCountUsers, []⟩ (fun db => (db.users.length, db))
      let storeCount ← pool.query ⟨sqlCountStores, []⟩ (fun db => (db.stores.length, db))
      let ratingCount ← pool.query ⟨sqlCountRatings, []⟩ (fun db => (db.ratings.length, db))
      return { status := 200, body := ResBody.json (Json.obj
        [("users", Json.val (lit userCount)), ("stores", Json.val (lit storeCount)),
         ("ratings", Json.val (lit ratingCount))]) })
    (fun _ => return serverError)

/-! ## Client: `App.jsx` -/

/-- The body `{ storeId, rating }` that `handleRateStore(storeId, rating)`
posts to `/ratings`. -/
def handleRateStoreBody (storeId rating : Value) : JObject :=
  [("storeId", storeId), ("rating", rating)]

/-- White space and line terminators of ECMAScript, the characters
`String.prototype.trim` removes. -/
def isJsWhiteSpace (c : Char) : Bool :=
  c = '\t' || c = '\n' || c = Char.ofNat 0x0B || c = Char.ofNat 0x0C || c = '\r' || c = ' '
    || c = Char.ofNat 0xA0 || c = Char.ofNat 0x1680
    || (decide (0x2000 ≤ c.toNat) && decide (c.toNat ≤ 0x200A))
    || c = Char.ofNat 0x2028 || c = Char.ofNat 0x2029 || c = Char.ofNat 0x202F
    || c = Char.ofNat 0x205F || c = Char.ofNat 0x3000 || c = Char.ofNat 0xFEFF

/-- The method `trim()`: white space at both ends is removed. -/
def jsTrim (s : String) : String :=
  String.mk ((s.toList.dropWhile isJsWhiteSpace).reverse.dropWhile isJsWhiteSpace).reverse

/-- The call `replace(/ /g, '_')`: every space becomes an underscore. -/
def spacesToUnderscores (s : String) : String :=
  String.mk (s.toList.map fun c => if c = ' ' then '_' else c)

/-- The expression `(user.role || '').trim().toLowerCase().replace(/ /g, '_')`
of `renderView`; `toLowerCase` is the method of the runtime.  A truthy role
that is not a string has no method `trim`: the expression throws (`none`). -/
def standardizedRole (toLowerCase : String → String) (role : Value) : Option String :=
  match (if truthy role then role else Value.str "") with
  | Value.str s => some (spacesToUnderscores (toLowerCase (jsTrim s)))
  | _ => none

/-- What `renderView` shows. -/
inductive View
  | normalUserDashboard
  | storeOwnerDashboard
  | adminDashboard
  | unknownRole (role : Value)
  | registerPage
  | loginPage
deriving DecidableEq

/-- The function `renderView` of `App`, on the state `token`, `user` (`none`
when it is `null`) and `view`. -/
def renderView (toLowerCase : String → String) (token : Value) (user : Option JObject)
    (view : String) : Option View :=
  match user with
  | some u =>
    if truthy token then
      match standardizedRole toLowerCase (u.get "role") with
      | some r =>
        if r = "normal_user" then some View.normalUserDashboard
        else if r = "store_owner" then some View.storeOwnerDashboard
        else if r = "system_administrator" then some View.adminDashboard
        else some (View.unknownRole (u.get "role"))
      | none => none
    else if view = "register" then some View.registerPage
    else some View.loginPage
  | none =>
    if view = "register" then some View.registerPage else some View.loginPage

/-! ## Placeholders of a statement text -/

/-- The placeholders `$n` of a statement text, in the order they occur: each
`$` that is followed by digits gives the number the digits write. -/
def placeholders : List Char → List Nat
  | [] => []
  | c :: rest =>
    if c = '$' ∧ (rest.takeWhile Char.isDigit) ≠ [] then
      digitsValue (rest.takeWhile Char.isDigit) :: placeholders rest
    else placeholders rest

/-- The arrays `queryParams` and `whereClauses` of `GET /admin/users` once its
three filter blocks have run. -/
def userListBuild (numberToString : JSNum → String) (name email role : Value) : QueryBuild :=
  pushEq "u.role" role (pushLike numberToString "u.email" email
    (pushLike numberToString "u.name" name ⟨[], []⟩))

/-- The arrays `queryParams` and `whereClauses` of `GET /admin/stores` once its
three filter blocks have run. -/
def adminStoreListBuild (numberToString : JSNum → String) (name email address : Value) :
    QueryBuild :=
  pushLike numberToString "s.address" address (pushLike numberToString "s.email" email
    (pushLike numberToString "s.name" name ⟨[], []⟩))

/-- The arrays `queryParams` and `whereClauses` of `GET /stores` once its two
filter blocks have run; `queryParams` starts as `[userId]`. -/
def storeListBuild (numberToString : JSNum → String) (userId name address : Value) :
    QueryBuild :=
  pushLike numberToString "s.address" address
    (pushLike numberToString "s.name" name ⟨[userId], []⟩)

/-! ## Concrete inputs used to exercise the handlers -/

/-- A pool that rejects no statement, at time `t`. -/
def Sample.pool (t : Nat) : Pool := ⟨fun _ _ => false, t⟩

/-- A string conversion that knows no numeric string. -/
def Sample.noNumber : String → JSNum := fun _ => JSNum.nan

/-- Empty tables. -/
def Sample.emptyDb : Db := ⟨[], [], [], 1, 1, 1⟩

/-- The request `POST /ratings` of user `uid` with the given body fields. -/
def Sample.rate (uid : Nat) (store_id rating : Value) : Request :=
  ⟨some [("id", idVal uid)], [("store_id", store_id), ("rating", rating)], [], []⟩

/-- Tables with one store (id 2) rated 3 by user 1 and 5 by user 3. -/
def Sample.ratedDb : Db :=
  { users := [], ratings := [⟨1, idVal 1, idVal 2, lit 3, 10⟩, ⟨2, idVal 3, idVal 2, lit 5, 11⟩],
    stores := [⟨2, Value.str "Corner Shop", Value.str "shop@example.com", Value.str "1 Main St",
      Value.null⟩],
    nextUserId := 4, nextStoreId := 3, nextRatingId := 3 }

/-- A request that carries the identity `{ id, name, role }`. -/
def Sample.withRole (role : Value) : Request :=
  ⟨some [("id", idVal 1), ("name", Value.str "Someone"), ("role", role)], [], [], []⟩

/-- A toy password hasher: the hash of a string is the string behind a fixed
marker, `compare` recomputes it; other values are rejected. -/
def Sample.bcrypt : Bcrypt :=
  { genSalt := fun _ => some "salt",
    hash := fun p _ =>
      match p with
      | Value.str s => some ("hashed:" ++ s)
      | _ => none,
    compare := fun p h =>
      match p, h with
      | Value.str s, Value.str hs => some (decide (hs = "hashed:" ++ s))
      | _, _ => none }

/-- A toy signer: the token only records that something was signed. -/
def Sample.jwt : Jwt :=
  { secret := Value.str "secret", sign := fun _ _ _ => SignOutcome.token "signed-token" }

/-- The user row of Alice, with the hash of the password `Secret!Pass1`. -/
def Sample.alice : UserRow :=
  ⟨7, Value.str "Alice Margaret Smithson", Value.str "alice@example.com",
    Value.str "hashed:Secret!Pass1", Value.str "1 Main St", Value.str "Store Owner"⟩

/-- Tables with the single user Alice. -/
def Sample.aliceDb : Db := ⟨[Sample.alice], [], [], 8, 1, 1⟩

/-- The request `POST /auth/login` with the given credentials. -/
def Sample.loginReq (email password : String) : Request :=
  ⟨none, [("email", Value.str email), ("password", Value.str password)], [], []⟩

/-- The request `POST /auth/register` as it reaches the handler, with the
four fields and a requested role. -/
def Sample.registerReq (name email password address : String) (role : Value) : Request :=
  ⟨none, [("name", Value.str name), ("email", Value.str email),
    ("password", Value.str password), ("address", Value.str address), ("role", role)], [], []⟩

/-- A toy validator library: an email needs an `@`, normalization lower-cases
the address, trimming and escaping leave the samples as they are. -/
def Sample.lib : ValidatorLib :=
  { toString := fun _ => "",
    isEmail := fun s => s.toList.contains '@',
    normalizeEmail := fun s => Value.str (String.mk (s.toList.map Char.toLower)),
    trim := fun s => s,
    escape := fun s => s,
    modifiersOnRegExp := false }

/-- Tables after the sample registration of `Alice@Example.com`: the stored
email is the normalized one. -/
def Sample.registeredDb : Db :=
  ⟨[⟨1, Value.str "Alice Margaret Smithson", Value.str "alice@example.com",
      Value.str "hashed:Secret!Pass1", Value.str "1 Main St", Value.str "Normal User"⟩],
    [], [], 2, 1, 1⟩


/-- The request `PUT /users/password` of user `uid`. -/
def Sample.passwordReq (uid : Nat) (currentPassword newPassword : String) : Request :=
  ⟨some [("id", idVal uid)], [("currentPassword", Value.str currentPassword),
    ("newPassword", Value.str newPassword)], [], []⟩

/-- A toy collation: strings in code point order behind every other value,
ASCII case folding. -/
def Sample.coll : Collation :=
  { le := fun a b =>
      match a, b with
      | Value.str x, Value.str y => decide (x ≤ y)
      | Value.str _, _ => false
      | _, _ => true,
    lower := Char.toLower }

/-- A number printer that is never consulted by the samples. -/
def Sample.noDigits : JSNum → String := fun _ => ""

/-- The store `Corner Shop`, without owner. -/
def Sample.cornerShop : StoreRow :=
  ⟨2, Value.str "Corner Shop", Value.str "shop@example.com", Value.str "1 Main St", Value.null⟩

/-- Tables with the single store `Corner Shop`, no user and no rating. -/
def Sample.shopDb : Db := ⟨[], [Sample.cornerShop], [], 1, 3, 1⟩

/-- A request of the admin lists with the given query string fields. -/
def Sample.listReq (query : JObject) : Request := ⟨none, [], query, []⟩

/-- The user row of Bob. -/
def Sample.bob : UserRow :=
  ⟨8, Value.str "Robert James Fletcher", Value.str "bob@example.com",
    Value.str "hashed:Other!Pass2", Value.str "2 Side St", Value.str "Normal User"⟩

/-- Tables where Alice (id 7) owns the store `Corner Shop` (id 2), which Bob
(id 8) rated 4. -/
def Sample.ownedDb : Db :=
  { users := [Sample.alice, Sample.bob],
    stores := [⟨2, Value.str "Corner Shop", Value.str "shop@example.com",
      Value.str "1 Main St", idVal 7⟩],
    ratings := [⟨1, idVal 8, idVal 2, lit 4, 10⟩],
    nextUserId := 9, nextStoreId := 3, nextRatingId := 2 }

/-- A request that carries the identity of user `uid` and nothing else. -/
def Sample.asUser (uid : Nat) : Request := ⟨some [("id", idVal uid)], [], [], []⟩

/-- The request `POST /admin/users` as it reaches the handler. -/
def Sample.createUserReq (name email password address : String) (role store_id : Value) :
    Request :=
  ⟨none, [("name", Value.str name), ("email", Value.str email),
    ("password", Value.str password), ("address", Value.str address), ("role", role),
    ("store_id", store_id)], [], []⟩

/-- The request `POST /admin/stores`. -/
def Sample.createStoreReq (name email address : String) (owner_id : Value) : Request :=
  ⟨none, [("name", Value.str name), ("email", Value.str email),
    ("address", Value.str address), ("owner_id", owner_id)], [], []⟩

/-- The request with the given query string fields. -/
def Sample.withQuery (req : Request) (query : JObject) : Request :=
  { req with query := query }

/-- A validator library that applies the modifiers given to `matches` also to
a pattern that is a regular expression object; otherwise as `Sample.lib`. -/
def Sample.libModifiers : ValidatorLib := { Sample.lib with modifiersOnRegExp := true }

/-- Trimming as `validator.js` does it, for texts whose only white space is
the blank, the tab and the line break: white space at both ends is removed. -/
def Sample.trim (s : String) : String :=
  let blank : Char → Bool := fun c => c = ' ' || c = '\t' || c = '\n' || c = '\r'
  String.mk ((s.toList.dropWhile blank).reverse.dropWhile blank).reverse

/-- Escaping as `validator.js` does it: the characters `&`, `"`, the
apostrophe, `<`, `>`, `/`, the backslash and the grave accent are replaced by
HTML entities. -/
def Sample.escape (s : String) : String :=
  let entity : Char → List Char := fun c =>
    if c = '&' then "&amp;".toList
    else if c = '"' then "&quot;".toList
    else if c = Char.ofNat 39 then "&#x27;".toList
    else if c = '<' then "&lt;".toList
    else if c = '>' then "&gt;".toList
    else if c = '/' then "&#x2F;".toList
    else if c = '\\' then "&#x5C;".toList
    else if c = Char.ofNat 96 then "&#96;".toList
    else [c]
  String.mk (s.toList.flatMap entity)

/-- A validator library with the sanitizers `Sample.trim` and `Sample.escape`;
otherwise as `Sample.lib`. -/
def Sample.libSanitizing : ValidatorLib :=
  { Sample.lib with trim := Sample.trim, escape := Sample.escape }

/-- A signer that hands its callback an error after `jwt.sign` has returned. -/
def Sample.jwtLate : Jwt :=
  { secret := Value.str "secret", sign := fun _ _ _ => SignOutcome.errorLater }

/-- A pool that rejects exactly the statements with the given text. -/
def Sample.poolRejecting (sql : String) : Pool := ⟨fun _ stmt => decide (stmt.sql = sql), 1⟩

/-- Lower-casing of texts in the ASCII range. -/
def Sample.toLowerCase (s : String) : String := String.mk (s.toList.map Char.toLower)

/-- A client session: the token and the `user` object of a login answer. -/
def Sample.session (role : Value) : JObject :=
  [("id", idVal 7), ("name", Value.str "Alice Margaret Smithson"), ("role", role)]

/-- The request `POST /ratings` of user `uid` whose body also names another
user in a field `user_id`. -/
def Sample.rateFor (uid : Nat) (user_id store_id rating : Value) : Request :=
  ⟨some [("id", idVal uid)],
    [("user_id", user_id), ("store_id", store_id), ("rating", rating)], [], []⟩

/-- The request `GET /stores` of user `uid` with the given query string
fields. -/
def Sample.searchAs (uid : Nat) (query : JObject) : Request :=
  ⟨some [("id", idVal uid)], [], query, []⟩

/-- Tables where two stores, `Corner Shop` and `Harbour Books`, name Alice
(id 7) as owner; no rating. -/
def Sample.twoStoresDb : Db :=
  { users := [Sample.alice],
    stores := [⟨2, Value.str "Corner Shop", Value.str "shop@example.com",
        Value.str "1 Main St", idVal 7⟩,
      ⟨3, Value.str "Harbour Books", Value.str "books@example.com", Value.str "5 Quay Rd",
        idVal 7⟩],
    ratings := [],
    nextUserId := 8, nextStoreId := 4, nextRatingId := 1 }

/-! # Properties -/

/-! ## Integer columns -/

/-- An integer number is the integer it denotes. -/
theorem intColumn_lit_int (k : ℤ) : intColumn (lit k) = lit k := by
  simp [intColumn, lit]

/-- An id is the integer it denotes. -/
theorem intColumn_idVal (n : Nat) : intColumn (idVal n) = idVal n := by
  simp [intColumn, idVal, lit]

/-- What an integer column holds is `NULL` or an integer. -/
theorem intColumn_is_int (v : Value) :
    intColumn v = Value.null ∨ ∃ k : ℤ, intColumn v = lit k := by
  cases v with
  | num n =>
    cases n with
    | fin q =>
      by_cases h : q.den = 1
      · right
        exact ⟨q.num, by simp [intColumn, h, lit, Rat.coe_int_num_of_den_eq_one h]⟩
      · left
        simp [intColumn, h]
    | _ => left; rfl
  | str s =>
    cases h : intOfText s.toList with
    | none => left; simp only [intColumn]; rw [h]
    | some n => right; exact ⟨n, by simp only [intColumn]; rw [h]⟩
  | _ => left; rfl

/-- Reading a column value again changes nothing. -/
theorem intColumn_idem (v : Value) : intColumn (intColumn v) = intColumn v := by
  rcases intColumn_is_int v with h | ⟨k, h⟩
  · rw [h]; rfl
  · rw [h, intColumn_lit_int]

/-- The comparison with a parameter holds exactly for the cell that is the
integer the parameter denotes. -/
theorem sqlEq_iff (c p : Value) :
    sqlEq c p = true ↔ c = intColumn p ∧ intColumn p ≠ Value.null := by
  simp only [sqlEq, Bool.and_eq_true, decide_eq_true_eq]
  constructor
  · rintro ⟨⟨_, h2⟩, h3⟩
    exact ⟨h3, h2⟩
  · rintro ⟨h3, h2⟩
    exact ⟨⟨h3 ▸ h2, h2⟩, h3⟩

/-- The comparison with an id as parameter is equality with the id. -/
theorem sqlEq_idVal (c : Value) (n : Nat) : sqlEq c (idVal n) = decide (c = idVal n) := by
  have hne : idVal n ≠ Value.null := by simp [idVal, lit]
  by_cases h : c = idVal n
  · simp [sqlEq, intColumn_idVal, h, hne]
  · simp [sqlEq, intColumn_idVal, h]

/-- Parameters that denote the same integer compare alike. -/
theorem sqlEq_congr (c p q : Value) (h : intColumn p = intColumn q) : sqlEq c p = sqlEq c q := by
  simp only [sqlEq, h]

/-- A natural number as JSON number is the integer it denotes. -/
theorem intColumn_num_nat (n : Nat) :
    intColumn (Value.num (JSNum.fin (n : ℚ))) = Value.num (JSNum.fin (n : ℚ)) := by
  simp [intColumn]

/-- Different ids are different values. -/
theorem idVal_inj (a b : Nat) : idVal a = idVal b ↔ a = b := by
  simp [idVal, lit]

/-- The comparison of an id with a parameter that denotes the id `k` holds
exactly for `k`. -/
theorem sqlEq_denotes (n k : Nat) (p : Value) (h : intColumn p = idVal k) :
    sqlEq (idVal n) p = decide (n = k) := by
  rw [sqlEq_congr (idVal n) p (idVal k) (by rw [h, intColumn_idVal]), sqlEq_idVal]
  simp [idVal_inj]

/-! ## Range check of `POST /ratings` -/

/-- C1: a request of an authenticated user whose rating is a number below 1 or
above 5 (infinite ones included) is answered 400 with the message
'Rating must be between 1 and 5'; no statement is issued and the tables are
what they were. -/
theorem submitRating_rejects_out_of_range (stringToNumber : String → JSNum) (pool : Pool)
    (req : Request) (u : JObject) (db : Db) (n : JSNum)
    (huser : req.user = some u)
    (hrating : req.body.get "rating" = Value.num n)
    (hout : (∃ v : ℚ, n = JSNum.fin v ∧ (v < 1 ∨ 5 < v)) ∨ n = JSNum.posInf ∨ n = JSNum.negInf) :
    run (submitRating stringToNumber pool req) db
      = (Except.ok (msgResponse 400 "Rating must be between 1 and 5"), db, []) := by
  have hcond : (jsLt stringToNumber (Value.num n) (lit 1)
      || jsGt stringToNumber (Value.num n) (lit 5)) = true := by
    rcases hout with ⟨v, rfl, hv | hv⟩ | rfl | rfl
    · simp [jsLt, jsGt, lit, toNumber, JSNum.lt, hv]
    · simp [jsLt, jsGt, lit, toNumber, JSNum.lt, hv]
    · simp [jsLt, jsGt, lit, toNumber, JSNum.lt]
    · simp [jsLt, jsGt, lit, toNumber, JSNum.lt]
  simp [run, submitRating, Request.userField, huser, hrating, hcond, bind, Handler.bind, pure]

/-- C1 at a concrete request: rating 6 on an empty database. -/
theorem submitRating_rejects_out_of_range_witness :
    run (submitRating (fun _ => JSNum.nan) ⟨fun _ _ => false, 0⟩
        ⟨some [("id", idVal 1)], [("store_id", idVal 2), ("rating", lit 6)], [], []⟩)
        ⟨[], [], [], 1, 1, 1⟩
      = (Except.ok (msgResponse 400 "Rating must be between 1 and 5"), ⟨[], [], [], 1, 1, 1⟩, []) :=
  submitRating_rejects_out_of_range _ _ _ [("id", idVal 1)] _ (JSNum.fin 6) rfl (by rfl)
    (Or.inl ⟨6, rfl, Or.inr (by norm_num)⟩)

/-! ## One rating per user and store -/

/-- What an accepted `submitRating` call did: the range check let the rating
through, the lookup was issued, then the update when a row of the pair existed
and the insert otherwise. -/
theorem submitRating_accepted (stringToNumber : String → JSNum) (pool : Pool) (req : Request)
    (id : JObject) (db : Db) (huser : req.user = some id)
    (hacc : accepted (run (submitRating stringToNumber pool req) db).1 = true) :
    let u := id.get "id"
    let s := req.body.get "store_id"
    let v := req.body.get "rating"
    (db.selectRating u s ≠ [] →
      (run (submitRating stringToNumber pool req) db).2
        = ((Db.updateRating pool.now v u s db).2,
            [⟨sqlSelectRating, [u, s]⟩, ⟨sqlUpdateRating, [v, u, s]⟩])) ∧
    (db.selectRating u s = [] →
      (run (submitRating stringToNumber pool req) db).2
        = ((Db.insertRating pool.now u s v db).2,
            [⟨sqlSelectRating, [u, s]⟩, ⟨sqlInsertRating, [u, s, v]⟩])) := by
  intro u s v
  by_cases hc : (jsLt stringToNumber v (lit 1) || jsGt stringToNumber v (lit 5)) = true
  · simp [run, submitRating, Request.userField, huser, v, hc, bind, Handler.bind, pure,
      accepted, msgResponse] at hacc
  · by_cases hf1 : pool.fails db ⟨sqlSelectRating, [u, s]⟩ = true
    · simp [run, submitRating, Request.userField, huser, u, s, v, hc, hf1, bind, Handler.bind,
        pure, accepted, Handler.tryCatch, Pool.query, serverError] at hacc
    · constructor
      · intro hne
        have hlen : 0 < (db.selectRating u s).length := List.length_pos.mpr hne
        by_cases hf2 : pool.fails db ⟨sqlUpdateRating, [v, u, s]⟩ = true
        · simp [run, submitRating, Request.userField, huser, u, s, v, hc, hf1, hf2, hlen, bind,
            Handler.bind, pure, accepted, Handler.tryCatch, Pool.query, serverError] at hacc hlen
        · simp [run, submitRating, Request.userField, huser, u, s, v, hc, hf1, hf2, hlen, bind,
            Handler.bind, pure, Handler.tryCatch, Pool.query] at hlen ⊢
      · intro he
        by_cases hf2 : pool.fails db ⟨sqlInsertRating, [u, s, v]⟩ = true
        · simp [run, submitRating, Request.userField, huser, u, s, v, hc, hf1, hf2, he, bind,
            Handler.bind, pure, accepted, Handler.tryCatch, Pool.query, serverError] at hacc he
        · simp [run, submitRating, Request.userField, huser, u, s, v, hc, hf1, hf2, he, bind,
            Handler.bind, pure, Handler.tryCatch, Pool.query] at he ⊢

/-- The lookup condition depends on its parameters only through the integers
they denote. -/
theorem isFor_congr (u s u2 s2 : Value) (hu : intColumn u2 = intColumn u)
    (hs : intColumn s2 = intColumn s) (r : RatingRow) : r.isFor u2 s2 = r.isFor u s := by
  simp only [RatingRow.isFor, sqlEq_congr _ _ _ hu, sqlEq_congr _ _ _ hs]

/-- The rows of a pair are the same under every spelling of its ids. -/
theorem selectRating_congr (db : Db) (u s u2 s2 : Value) (hu : intColumn u2 = intColumn u)
    (hs : intColumn s2 = intColumn s) : db.selectRating u2 s2 = db.selectRating u s := by
  simp only [Db.selectRating]
  exact List.filter_congr (fun r _ => isFor_congr u s u2 s2 hu hs r)

/-- A row written for the pair `(u, s)` satisfies the lookup condition of that
pair as soon as both ids denote an integer. -/
theorem isFor_self (u s : Value) (hu : intColumn u ≠ Value.null) (hs : intColumn s ≠ Value.null)
    (r : RatingRow) (h1 : r.user_id = intColumn u) (h2 : r.store_id = intColumn s) :
    r.isFor u s = true := by
  simp [RatingRow.isFor, sqlEq, h1, h2, hu, hs]

/-- Rows of the pair after the insert statement: the former ones, then the
new row. -/
theorem selectRating_insertRating (now : Nat) (u s v : Value)
    (hu : intColumn u ≠ Value.null) (hs : intColumn s ≠ Value.null) (db : Db) :
    (Db.insertRating now u s v db).2.selectRating u s
      = db.selectRating u s ++ [⟨db.nextRatingId, intColumn u, intColumn s, toParam v, now⟩] := by
  simp [Db.insertRating, Db.selectRating, List.filter_append, List.filter_cons,
    isFor_self u s hu hs]

/-- Rows of the pair after the update statement: the same rows, each with the
new rating and time. -/
theorem selectRating_updateRating (now : Nat) (u s v : Value) (db : Db) :
    (Db.updateRating now v u s db).2.selectRating u s
      = (db.selectRating u s).map
          (fun r => { r with rating := toParam v, created_at := now }) := by
  simp only [Db.updateRating, Db.selectRating]
  induction db.ratings with
  | nil => rfl
  | cons r rs ih =>
    by_cases h : r.isFor u s = true
    · have h2 : RatingRow.isFor u s { r with rating := toParam v, created_at := now } = true := by
        simpa [RatingRow.isFor] using h
      simp [List.filter_cons, h, h2, ih]
    · simp [List.filter_cons, h, ih]

/-- One accepted call for the pair `(u, s)`, whose ids the request may spell
in its own way, on tables with at most one row of the pair leaves exactly one
row of the pair, holding the submitted rating; the call issued the insert when
there was no row and the update when there was one. -/
theorem submitRating_step (stringToNumber : String → JSNum) (u s : Value)
    (hu : intColumn u ≠ Value.null) (hs : intColumn s ≠ Value.null)
    (pool : Pool) (req : Request) (db : Db)
    (hdb : (db.selectRating u s).length ≤ 1)
    (hreq : (∃ id, req.user = some id ∧ intColumn (id.get "id") = intColumn u) ∧
      intColumn (req.body.get "store_id") = intColumn s)
    (hacc : accepted (run (submitRating stringToNumber pool req) db).1 = true) :
    (∃ row, (run (submitRating stringToNumber pool req) db).2.1.selectRating u s = [row]
        ∧ row.rating = toParam (req.body.get "rating")) ∧
    (db.selectRating u s = [] →
      ∃ u2 s2, intColumn u2 = intColumn u ∧ intColumn s2 = intColumn s ∧
        (run (submitRating stringToNumber pool req) db).2.2
          = [⟨sqlSelectRating, [u2, s2]⟩,
             ⟨sqlInsertRating, [u2, s2, req.body.get "rating"]⟩]) ∧
    (db.selectRating u s ≠ [] →
      ∃ u2 s2, intColumn u2 = intColumn u ∧ intColumn s2 = intColumn s ∧
        (run (submitRating stringToNumber pool req) db).2.2
          = [⟨sqlSelectRating, [u2, s2]⟩,
             ⟨sqlUpdateRating, [req.body.get "rating", u2, s2]⟩]) := by
  obtain ⟨⟨id, huser, hid⟩, hstore⟩ := hreq
  have h := submitRating_accepted stringToNumber pool req id db huser hacc
  simp only [selectRating_congr db u s _ _ hid hstore] at h
  obtain ⟨hupd, hins⟩ := h
  have hu2 : intColumn (id.get "id") ≠ Value.null := hid ▸ hu
  have hs2 : intColumn (req.body.get "store_id") ≠ Value.null := hstore ▸ hs
  by_cases he : db.selectRating u s = []
  · have h2 := hins he
    have h21 := congrArg Prod.fst h2
    have h22 := congrArg Prod.snd h2
    simp only at h21 h22
    refine ⟨?_, fun _ => ⟨_, _, hid, hstore, h22⟩, fun hne => absurd he hne⟩
    rw [h21, ← selectRating_congr _ u s _ _ hid hstore,
      selectRating_insertRating _ _ _ _ hu2 hs2, selectRating_congr db u s _ _ hid hstore, he]
    exact ⟨_, rfl, rfl⟩
  · have h2 := hupd he
    have h21 := congrArg Prod.fst h2
    have h22 := congrArg Prod.snd h2
    simp only at h21 h22
    refine ⟨?_, fun h0 => absurd h0 he, fun _ => ⟨_, _, hid, hstore, h22⟩⟩
    rw [h21, ← selectRating_congr _ u s _ _ hid hstore, selectRating_updateRating,
      selectRating_congr db u s _ _ hid hstore]
    obtain ⟨r, hr⟩ : ∃ r, db.selectRating u s = [r] := by
      cases hsel : db.selectRating u s with
      | nil => exact absurd hsel he
      | cons r rs =>
        cases rs with
        | nil => exact ⟨r, rfl⟩
        | cons r2 rs2 => rw [hsel] at hdb; simp at hdb
    rw [hr]
    exact ⟨_, rfl, rfl⟩

/-- Field `rating` of a sample request. -/
theorem Sample.rate_rating (uid : Nat) (store_id rating : Value) :
    (Sample.rate uid store_id rating).body.get "rating" = rating := rfl

/-- A finite number between 1 and 5 passes the range check. -/
theorem range_check_passes (stringToNumber : String → JSNum) (q : ℚ) (h1 : 1 ≤ q) (h5 : q ≤ 5) :
    (jsLt stringToNumber (lit q) (lit 1) || jsGt stringToNumber (lit q) (lit 5)) = false := by
  simp [jsLt, jsGt, toNumber, lit, JSNum.lt, h1, h5]

/-- A call that passes the range check on a pool that rejects nothing is
accepted. -/
theorem submitRating_succeeds (stringToNumber : String → JSNum) (pool : Pool) (req : Request)
    (id : JObject) (db : Db) (huser : req.user = some id)
    (hrange : (jsLt stringToNumber (req.body.get "rating") (lit 1)
      || jsGt stringToNumber (req.body.get "rating") (lit 5)) = false)
    (hpool : ∀ d st, pool.fails d st = false) :
    accepted (run (submitRating stringToNumber pool req) db).1 = true := by
  by_cases hlen : 0 < (db.selectRating (id.get "id") (req.body.get "store_id")).length
  · simp [run, submitRating, Request.userField, huser, hrange, hpool, hlen, bind, Handler.bind,
      pure, accepted, Handler.tryCatch, Pool.query]
  · simp [run, submitRating, Request.userField, huser, hrange, hpool, hlen, bind, Handler.bind,
      pure, accepted, Handler.tryCatch, Pool.query]

/-- Once the pair has exactly one row, every accepted call of a sequence
issues the lookup and the update, and the pair keeps exactly one row. -/
theorem submitRating_later_calls (stringToNumber : String → JSNum) (u s : Value)
    (hu : intColumn u ≠ Value.null) (hs : intColumn s ≠ Value.null)
    (calls : List (Pool × Request)) :
    ∀ db : Db, (db.selectRating u s).length = 1 →
    (∀ c ∈ calls, (∃ id, c.2.user = some id ∧ intColumn (id.get "id") = intColumn u) ∧
      intColumn (c.2.body.get "store_id") = intColumn s) →
    (∀ o ∈ (serve (ratingCalls stringToNumber calls) db).1, accepted o.1 = true) →
    ((serve (ratingCalls stringToNumber calls) db).2.selectRating u s).length = 1 ∧
    ∀ o ∈ (serve (ratingCalls stringToNumber calls) db).1,
      ∃ v u2 s2, intColumn u2 = intColumn u ∧ intColumn s2 = intColumn s ∧
        o.2 = [⟨sqlSelectRating, [u2, s2]⟩, ⟨sqlUpdateRating, [v, u2, s2]⟩] := by
  induction calls with
  | nil => intro db hdb _ _; exact ⟨hdb, by simp [ratingCalls, serve]⟩
  | cons c rest ih =>
    intro db hdb hcalls hacc
    simp only [ratingCalls, List.map_cons, serve, List.mem_cons, forall_eq_or_imp] at hacc ⊢
    have hstep := submitRating_step stringToNumber u s hu hs c.1 c.2 db (le_of_eq hdb)
      (hcalls c (List.mem_cons_self _ _)) hacc.1
    obtain ⟨⟨row, hrow, _⟩, _, hlog⟩ := hstep
    have hne : db.selectRating u s ≠ [] := by
      intro h0; rw [h0] at hdb; simp at hdb
    have hrest := ih (run (submitRating stringToNumber c.1 c.2) db).2.1 (by rw [hrow]; rfl)
      (fun c2 hc2 => hcalls c2 (List.mem_cons_of_mem _ hc2)) hacc.2
    obtain ⟨u2, s2, hu2, hs2, hl⟩ := hlog hne
    exact ⟨hrest.1, ⟨_, u2, s2, hu2, hs2, hl⟩, hrest.2⟩

/-- C2: on tables with at most one row for the pair `(u, s)` of a user id and
a store id (each an integer, which a request may send as a number or as
text), after any non-empty sequence of accepted `submitRating` calls of that
user for that store (handled one after another) the pair has exactly one row
and its rating is the value of the last call; the first call inserts when the
pair had no row, and every later call updates. -/
theorem submitRating_one_row_per_pair (stringToNumber : String → JSNum) (u s : Value)
    (hu : intColumn u ≠ Value.null) (hs : intColumn s ≠ Value.null)
    (calls : List (Pool × Request)) (last : Pool × Request) :
    ∀ db : Db, (db.selectRating u s).length ≤ 1 →
    (∀ c ∈ calls ++ [last],
      (∃ id, c.2.user = some id ∧ intColumn (id.get "id") = intColumn u) ∧
        intColumn (c.2.body.get "store_id") = intColumn s) →
    (∀ o ∈ (serve (ratingCalls stringToNumber (calls ++ [last])) db).1, accepted o.1 = true) →
    (∃ row, (serve (ratingCalls stringToNumber (calls ++ [last])) db).2.selectRating u s = [row]
        ∧ row.rating = toParam (last.2.body.get "rating")) ∧
    (∀ o ∈ (serve (ratingCalls stringToNumber (calls ++ [last])) db).1.tail,
      ∃ v u2 s2, intColumn u2 = intColumn u ∧ intColumn s2 = intColumn s ∧
        o.2 = [⟨sqlSelectRating, [u2, s2]⟩, ⟨sqlUpdateRating, [v, u2, s2]⟩]) ∧
    (db.selectRating u s = [] →
      ∃ v u2 s2, intColumn u2 = intColumn u ∧ intColumn s2 = intColumn s ∧
        ((serve (ratingCalls stringToNumber (calls ++ [last])) db).1.head?).map Prod.snd
          = some [⟨sqlSelectRating, [u2, s2]⟩, ⟨sqlInsertRating, [u2, s2, v]⟩]) ∧
    (db.selectRating u s ≠ [] →
      ∃ v u2 s2, intColumn u2 = intColumn u ∧ intColumn s2 = intColumn s ∧
        ((serve (ratingCalls stringToNumber (calls ++ [last])) db).1.head?).map Prod.snd
          = some [⟨sqlSelectRating, [u2, s2]⟩, ⟨sqlUpdateRating, [v, u2, s2]⟩]) := by
  induction calls with
  | nil =>
    intro db hdb hcalls hacc
    simp only [List.nil_append, ratingCalls, List.map_cons, List.map_nil, serve, List.mem_cons,
      List.mem_singleton, List.not_mem_nil, or_false, forall_eq] at hacc ⊢
    have hstep := submitRating_step stringToNumber u s hu hs last.1 last.2 db hdb
      (hcalls last (by simp)) hacc
    refine ⟨hstep.1, by simp, fun he => ?_, fun hne => ?_⟩
    · obtain ⟨u2, s2, hu2, hs2, hl⟩ := hstep.2.1 he
      exact ⟨last.2.body.get "rating", u2, s2, hu2, hs2, by simp [hl]⟩
    · obtain ⟨u2, s2, hu2, hs2, hl⟩ := hstep.2.2 hne
      exact ⟨last.2.body.get "rating", u2, s2, hu2, hs2, by simp [hl]⟩
  | cons c rest ih =>
    intro db hdb hcalls hacc
    simp only [List.cons_append, ratingCalls, List.map_cons, serve, List.mem_cons,
      forall_eq_or_imp] at hacc ⊢
    have hstep := submitRating_step stringToNumber u s hu hs c.1 c.2 db hdb
      (hcalls c (by simp)) hacc.1
    obtain ⟨⟨row, hrow, _⟩, hins, hupd⟩ := hstep
    have hcalls2 : ∀ c2 ∈ rest ++ [last],
        (∃ id, c2.2.user = some id ∧ intColumn (id.get "id") = intColumn u) ∧
          intColumn (c2.2.body.get "store_id") = intColumn s :=
      fun c2 hc2 => hcalls c2 (by simp at hc2 ⊢; tauto)
    have hrest := ih (run (submitRating stringToNumber c.1 c.2) db).2.1
      (by rw [hrow]; simp) hcalls2 hacc.2
    have hlater := submitRating_later_calls stringToNumber u s hu hs (rest ++ [last])
      (run (submitRating stringToNumber c.1 c.2) db).2.1 (by rw [hrow]; rfl) hcalls2 hacc.2
    refine ⟨hrest.1, ?_, fun he => ?_, fun hne => ?_⟩
    · simpa [ratingCalls] using hlater.2
    · obtain ⟨u2, s2, hu2, hs2, hl⟩ := hins he
      exact ⟨c.2.body.get "rating", u2, s2, hu2, hs2, by simp [hl]⟩
    · obtain ⟨u2, s2, hu2, hs2, hl⟩ := hupd hne
      exact ⟨c.2.body.get "rating", u2, s2, hu2, hs2, by simp [hl]⟩

/-- C2 at concrete calls of user 1 for store 2, on tables where user 1 rated
store 2 with 3: the first call sends the store id as the text `2` with the
rating 4, the second as the number 2 with the rating 5.  Both update the one
row of the pair, which ends with the rating 5. -/
theorem submitRating_one_row_per_pair_witness :
    (∃ row, (serve (ratingCalls Sample.noNumber
          ([(Sample.pool 20, Sample.rate 1 (Value.str "2") (lit 4))]
            ++ [(Sample.pool 21, Sample.rate 1 (idVal 2) (lit 5))])) Sample.ratedDb).2.selectRating
          (idVal 1) (idVal 2) = [row]
        ∧ row.rating = lit 5) ∧
    (∃ v u2 s2, intColumn u2 = intColumn (idVal 1) ∧ intColumn s2 = intColumn (idVal 2) ∧
      ((serve (ratingCalls Sample.noNumber
          ([(Sample.pool 20, Sample.rate 1 (Value.str "2") (lit 4))]
            ++ [(Sample.pool 21, Sample.rate 1 (idVal 2) (lit 5))])) Sample.ratedDb).1.head?).map
          Prod.snd
        = some [⟨sqlSelectRating, [u2, s2]⟩, ⟨sqlUpdateRating, [v, u2, s2]⟩]) :=
  have h := submitRating_one_row_per_pair Sample.noNumber (idVal 1) (idVal 2)
    (by decide) (by decide)
    [(Sample.pool 20, Sample.rate 1 (Value.str "2") (lit 4))]
    (Sample.pool 21, Sample.rate 1 (idVal 2) (lit 5)) Sample.ratedDb
    (by decide)
    (by
      intro c hc
      simp only [List.singleton_append, List.mem_cons, List.mem_singleton, List.not_mem_nil,
        or_false] at hc
      rcases hc with rfl | rfl
      · exact ⟨⟨_, rfl, rfl⟩, by decide⟩
      · exact ⟨⟨_, rfl, rfl⟩, rfl⟩)
    (by
      intro o ho
      simp only [List.singleton_append, ratingCalls, List.map_cons, List.map_nil, serve,
        List.mem_cons, List.mem_singleton, List.not_mem_nil, or_false] at ho
      rcases ho with rfl | rfl
      · exact submitRating_succeeds _ _ _ _ _ rfl
          (by rw [Sample.rate_rating]; exact range_check_passes _ _ (by norm_num) (by norm_num))
          (fun _ _ => rfl)
      · exact submitRating_succeeds _ _ _ _ _ rfl
          (by rw [Sample.rate_rating]; exact range_check_passes _ _ (by norm_num) (by norm_num))
          (fun _ _ => rfl))
  ⟨h.1, h.2.2.2 (by decide)⟩

/-! ## What reaches the rating statements -/

/-- The statements a `submitRating` run issues are among the lookup, the
update and the insert of the request's own fields, and none is issued unless
the range check let the rating through. -/
theorem submitRating_log (stringToNumber : String → JSNum) (pool : Pool) (req : Request)
    (db : Db) (stmt : Stmt) (h : stmt ∈ (run (submitRating stringToNumber pool req) db).2.2) :
    (jsLt stringToNumber (req.body.get "rating") (lit 1)
      || jsGt stringToNumber (req.body.get "rating") (lit 5)) = false ∧
    ∃ u, (stmt = ⟨sqlSelectRating, [u, req.body.get "store_id"]⟩
      ∨ stmt = ⟨sqlUpdateRating, [req.body.get "rating", u, req.body.get "store_id"]⟩
      ∨ stmt = ⟨sqlInsertRating, [u, req.body.get "store_id", req.body.get "rating"]⟩) := by
  cases huser : req.user with
  | none =>
    simp [run, submitRating, Request.userField, huser, bind, Handler.bind, Handler.throw] at h
  | some id =>
    by_cases hc : (jsLt stringToNumber (req.body.get "rating") (lit 1)
        || jsGt stringToNumber (req.body.get "rating") (lit 5)) = true
    · simp [run, submitRating, Request.userField, huser, hc, bind, Handler.bind, pure] at h
    · refine ⟨by simpa using hc, id.get "id", ?_⟩
      by_cases hf1 : pool.fails db ⟨sqlSelectRating, [id.get "id", req.body.get "store_id"]⟩ = true
      · simp [run, submitRating, Request.userField, huser, hc, hf1, bind, Handler.bind, pure,
          Handler.tryCatch, Pool.query] at h
        exact Or.inl h
      · by_cases hlen : 0 < (db.selectRating (id.get "id") (req.body.get "store_id")).length
        · by_cases hf2 : pool.fails db ⟨sqlUpdateRating,
              [req.body.get "rating", id.get "id", req.body.get "store_id"]⟩ = true
          · simp [run, submitRating, Request.userField, huser, hc, hf1, hf2, hlen, bind,
              Handler.bind, pure, Handler.tryCatch, Pool.query] at h
            tauto
          · simp [run, submitRating, Request.userField, huser, hc, hf1, hf2, hlen, bind,
              Handler.bind, pure, Handler.tryCatch, Pool.query] at h
            tauto
        · by_cases hf2 : pool.fails db ⟨sqlInsertRating,
              [id.get "id", req.body.get "store_id", req.body.get "rating"]⟩ = true
          · simp [run, submitRating, Request.userField, huser, hc, hf1, hf2, hlen, bind,
              Handler.bind, pure, Handler.tryCatch, Pool.query] at h
            tauto
          · simp [run, submitRating, Request.userField, huser, hc, hf1, hf2, hlen, bind,
              Handler.bind, pure, Handler.tryCatch, Pool.query] at h
            tauto

/-- The rating a statement of a `submitRating` run carries is the `rating`
field of the body, and that field passed the range check. -/
theorem submitRating_handed (stringToNumber : String → JSNum) (pool : Pool) (req : Request)
    (db : Db) (stmt : Stmt) (v : Value)
    (h : stmt ∈ (run (submitRating stringToNumber pool req) db).2.2)
    (hv : ratingHanded stmt = some v) :
    v = req.body.get "rating" ∧
    (jsLt stringToNumber v (lit 1) || jsGt stringToNumber v (lit 5)) = false := by
  obtain ⟨hc, u, h1 | h1 | h1⟩ := submitRating_log stringToNumber pool req db stmt h
  · rw [h1] at hv
    have : sqlSelectRating ≠ sqlInsertRating := by decide
    have : sqlSelectRating ≠ sqlUpdateRating := by decide
    simp_all [ratingHanded]
  · rw [h1] at hv
    have : sqlUpdateRating ≠ sqlInsertRating := by decide
    simp [ratingHanded, this] at hv
    subst hv
    exact ⟨rfl, hc⟩
  · rw [h1] at hv
    simp [ratingHanded] at hv
    subst hv
    exact ⟨rfl, hc⟩

/-- Statements of the sample call that rates store 2 with `rating` on empty
tables, when the rating passes the range check: the lookup, then the insert
carrying the rating as submitted. -/
theorem Sample.rate_log (rating : Value)
    (hrange : (jsLt Sample.noNumber rating (lit 1) || jsGt Sample.noNumber rating (lit 5)) = false) :
    (run (submitRating Sample.noNumber (Sample.pool 10) (Sample.rate 1 (idVal 2) rating))
        Sample.emptyDb).2.2
      = [⟨sqlSelectRating, [idVal 1, idVal 2]⟩, ⟨sqlInsertRating, [idVal 1, idVal 2, rating]⟩] := by
  have hacc := submitRating_succeeds Sample.noNumber (Sample.pool 10)
    (Sample.rate 1 (idVal 2) rating) _ Sample.emptyDb rfl hrange (fun _ _ => rfl)
  have h := (submitRating_accepted Sample.noNumber (Sample.pool 10)
    (Sample.rate 1 (idVal 2) rating) _ Sample.emptyDb rfl hacc).2 rfl
  exact congrArg Prod.snd h

/-- C3, counterexample: the rating 2.5 passes the range check and is the third
parameter of the insert statement, and 2.5 is not an integer between 1 and 5. -/
theorem submitRating_hands_fraction :
    (run (submitRating Sample.noNumber (Sample.pool 10) (Sample.rate 1 (idVal 2) (lit (5 / 2))))
        Sample.emptyDb).2.2
      = [⟨sqlSelectRating, [idVal 1, idVal 2]⟩,
          ⟨sqlInsertRating, [idVal 1, idVal 2, lit (5 / 2)]⟩] ∧
    ratingHanded ⟨sqlInsertRating, [idVal 1, idVal 2, lit (5 / 2)]⟩ = some (lit (5 / 2)) ∧
    ¬ isRatingInteger (lit (5 / 2)) := by
  refine ⟨Sample.rate_log _ (range_check_passes _ _ (by norm_num) (by norm_num)), rfl, ?_⟩
  rintro ⟨k, h1, h5, hk⟩
  simp only [lit, Value.num.injEq, JSNum.fin.injEq] at hk
  interval_cases k <;> norm_num at hk

/-- C3, amended: a rating handed to the insert or update statement is the
body's `rating` field; when it is a number it is finite and lies between 1 and
5 inclusive (integer or not), and it is never `null`. -/
theorem submitRating_handed_number_in_range (stringToNumber : String → JSNum) (pool : Pool)
    (req : Request) (db : Db) (stmt : Stmt) (v : Value)
    (h : stmt ∈ (run (submitRating stringToNumber pool req) db).2.2)
    (hv : ratingHanded stmt = some v) :
    v = req.body.get "rating" ∧
    (∀ n, v = Value.num n → n ≠ JSNum.nan → ∃ q : ℚ, n = JSNum.fin q ∧ 1 ≤ q ∧ q ≤ 5) ∧
    v ≠ Value.null := by
  obtain ⟨hreq, hc⟩ := submitRating_handed stringToNumber pool req db stmt v h hv
  refine ⟨hreq, ?_, ?_⟩
  · intro n hn hnan
    subst hn
    cases n with
    | nan => exact absurd rfl hnan
    | posInf => simp [jsLt, jsGt, toNumber, lit, JSNum.lt] at hc
    | negInf => simp [jsLt, jsGt, toNumber, lit, JSNum.lt] at hc
    | fin q =>
      simp [jsLt, jsGt, toNumber, lit, JSNum.lt] at hc
      exact ⟨q, rfl, hc.1, hc.2⟩
  · intro hnull
    subst hnull
    simp [jsLt, jsGt, toNumber, lit, JSNum.lt] at hc

/-- C3, amended, at the sample call with rating 2.5. -/
theorem submitRating_handed_number_in_range_witness :
    lit (5 / 2) = (Sample.rate 1 (idVal 2) (lit (5 / 2))).body.get "rating" ∧
    (∀ n, lit (5 / 2) = Value.num n → n ≠ JSNum.nan → ∃ q : ℚ, n = JSNum.fin q ∧ 1 ≤ q ∧ q ≤ 5) ∧
    lit (5 / 2) ≠ Value.null :=
  submitRating_handed_number_in_range Sample.noNumber (Sample.pool 10)
    (Sample.rate 1 (idVal 2) (lit (5 / 2))) Sample.emptyDb
    ⟨sqlInsertRating, [idVal 1, idVal 2, lit (5 / 2)]⟩ (lit (5 / 2))
    (by
      rw [Sample.rate_log _ (range_check_passes _ _ (by norm_num) (by norm_num))]
      simp)
    rfl

/-! ## Average rating -/

/-- Numeric cells of a list of number literals. -/
theorem filterMap_numeric_lit (qs : List ℚ) :
    (qs.map lit).filterMap Value.numeric? = qs := by
  induction qs with
  | nil => rfl
  | cons q qs ih => simp [lit, Value.numeric?, List.filterMap_cons] at ih ⊢; exact ih

/-- Rounding of a non-negative numeric to two decimals: a whole number of
hundredths, at most half a hundredth away, a tie going up. -/
theorem sqlRound2_half_up (x : ℚ) (hx : 0 ≤ x) :
    (∃ k : ℤ, sqlRound2 x = (k : ℚ) / 100) ∧ x - 1 / 200 < sqlRound2 x ∧
      sqlRound2 x ≤ x + 1 / 200 := by
  have h1 := Int.floor_le (x * 100 + 1 / 2)
  have h2 := Int.lt_floor_add_one (x * 100 + 1 / 2)
  simp only [sqlRound2, hx, if_true]
  refine ⟨⟨_, rfl⟩, ?_, ?_⟩
  · rw [lt_div_iff₀ (by norm_num)]; linarith
  · rw [div_le_iff₀ (by norm_num)]; linarith

/-- A group of `GROUP BY` has the key of some row and holds exactly the rows
with its key. -/
theorem mem_groupBy {ρ κ : Type} [DecidableEq κ] (key : ρ → κ) (rows : List ρ)
    (g : κ × List ρ) (hg : g ∈ groupBy key rows) :
    (∃ r ∈ rows, key r = g.1) ∧ g.2 = rows.filter (fun r => decide (key r = g.1)) := by
  simp only [groupBy, List.mem_map, List.mem_dedup] at hg
  obtain ⟨k, ⟨r, hr, hk⟩, rfl⟩ := hg
  exact ⟨⟨r, hr, hk⟩, rfl⟩

/-- A condition on the left row commutes with the left join. -/
theorem filter_leftJoin {α β : Type} (cond : α → β → Bool) (q : α → Bool) (xs : List α)
    (ys : List β) :
    (leftJoin cond xs ys).filter (fun p => q p.1) = leftJoin cond (xs.filter q) ys := by
  induction xs with
  | nil => rfl
  | cons x xs ih =>
    have hx : (leftJoin cond (x :: xs) ys) = leftJoin cond [x] ys ++ leftJoin cond xs ys := by
      simp [leftJoin, List.flatMap_cons]
    rw [hx, List.filter_append, ih]
    by_cases hq : q x = true
    · have h1 : (leftJoin cond [x] ys).filter (fun p => q p.1) = leftJoin cond [x] ys := by
        apply List.filter_eq_self.mpr
        intro p hp
        simp only [leftJoin, List.flatMap_cons, List.flatMap_nil, List.append_nil] at hp
        cases hf : ys.filter (cond x) with
        | nil => rw [hf] at hp; simp at hp; simp [hp, hq]
        | cons y rest =>
          rw [hf] at hp
          simp only [List.mem_map] at hp
          obtain ⟨b, _, rfl⟩ := hp
          exact hq
      rw [h1, List.filter_cons_of_pos hq]
      simp [leftJoin, List.flatMap_cons]
    · have h1 : (leftJoin cond [x] ys).filter (fun p => q p.1) = [] := by
        apply List.filter_eq_nil_iff.mpr
        intro p hp
        simp only [leftJoin, List.flatMap_cons, List.flatMap_nil, List.append_nil] at hp
        cases hf : ys.filter (cond x) with
        | nil => rw [hf] at hp; simp at hp; simp [hp, hq]
        | cons y rest =>
          rw [hf] at hp
          simp only [List.mem_map] at hp
          obtain ⟨b, _, rfl⟩ := hp
          exact hq
      rw [h1, List.filter_cons_of_neg hq]
      rfl

/-- The average over the rating cells of the rows one store contributes to
the left join is the average over the ratings that match the store. -/
theorem avgRating_leftJoin_single {α : Type} (cond : α → RatingRow → Bool) (x : α)
    (ys : List RatingRow) :
    avgRating ((leftJoin cond [x] ys).map fun p => ratingCell p.2)
      = avgRating ((ys.filter (cond x)).map fun r => r.rating) := by
  simp only [leftJoin, List.flatMap_cons, List.flatMap_nil, List.append_nil]
  cases hf : ys.filter (cond x) with
  | nil => simp [ratingCell, avgRating, sqlAvg, Value.numeric?]
  | cons y rest => simp [ratingCell, List.map_map, Function.comp_def]

/-- The join condition `s.id = r.store_id` is the condition `store_id = $1`
for the parameter `s.id`. -/
theorem colEq_idVal (n : Nat) (c : Value) : colEq (idVal n) c = sqlEq c (idVal n) := by
  rw [sqlEq_idVal]
  have hne : idVal n ≠ Value.null := by simp [idVal, lit]
  by_cases h : c = idVal n
  · subst h; simp [colEq, hne]
  · have h2 : ¬ idVal n = c := fun e => h e.symm
    simp [colEq, h, h2]

/-- The left row of a joined row is a row of the left table. -/
theorem fst_mem_of_mem_leftJoin {α β : Type} (cond : α → β → Bool) (xs : List α) (ys : List β)
    (p : α × Option β) (hp : p ∈ leftJoin cond xs ys) : p.1 ∈ xs := by
  simp only [leftJoin, List.mem_flatMap] at hp
  obtain ⟨x, hx, hp⟩ := hp
  cases hf : ys.filter (cond x) with
  | nil => rw [hf] at hp; simp at hp; rw [hp]; exact hx
  | cons y rest =>
    rw [hf] at hp
    simp only [List.mem_map] at hp
    obtain ⟨b, _, rfl⟩ := hp
    exact hx

/-- In a table with distinct ids, the rows that share the grouping key of a
row `s` of the table are `s` alone. -/
theorem filter_key_eq_single {κ : Type} [DecidableEq κ] (xs : List StoreRow)
    (hids : (xs.map fun s => s.id).Nodup) (key : StoreRow → κ)
    (hkey : ∀ a b : StoreRow, key a = key b → a.id = b.id) (s : StoreRow) (hs : s ∈ xs) :
    xs.filter (fun a => decide (key a = key s)) = [s] := by
  induction xs with
  | nil => simp at hs
  | cons x xs ih =>
    simp only [List.map_cons, List.nodup_cons, List.mem_map, not_exists, not_and] at hids
    rcases List.mem_cons.mp hs with rfl | hmem
    · have hrest : xs.filter (fun a => decide (key a = key s)) = [] := by
        apply List.filter_eq_nil_iff.mpr
        intro a ha hka
        exact hids.1 a ha (hkey a s (by simpa using hka))
      simp [List.filter_cons, hrest]
    · have hx : ¬ key x = key s := fun hk => hids.1 s hmem (hkey x s hk).symm
      simp [List.filter_cons, hx, ih hids.2 hmem]

/-- When store ids are distinct, every row of the store list of `GET /stores`
reports the average the owner dashboard computes for that store. -/
theorem storeList_average (db : Db) (le : Value → Value → Bool) (keep : StoreRow → Bool)
    (userId : Value) (rows : List StoreListRow)
    (hids : (db.stores.map fun s => s.id).Nodup)
    (h : db.storeList le keep userId = some rows) :
    ∀ row ∈ rows, row.average_rating = db.averageFor (idVal row.id) := by
  intro row hrow
  simp only [Db.storeList] at h
  split at h
  · simp only [Option.some.injEq] at h
    subst h
    have hmem := (List.perm_insertionSort _ _).mem_iff.mp hrow
    simp only [List.mem_map] at hmem
    obtain ⟨g, hg, rfl⟩ := hmem
    obtain ⟨⟨p, hp, hkey⟩, hg2⟩ := mem_groupBy _ _ g hg
    have hjoin : db.storeRatings keep
        = leftJoin (fun s r => colEq (idVal s.id) r.store_id) (db.stores.filter keep)
            db.ratings := filter_leftJoin _ keep db.stores db.ratings
    rw [hjoin] at hp hg2
    have hs := fst_mem_of_mem_leftJoin _ _ _ p hp
    have hnd : ((db.stores.filter keep).map fun s => s.id).Nodup :=
      List.Nodup.sublist (List.Sublist.map _ (List.filter_sublist _)) hids
    have hsingle := filter_key_eq_single (db.stores.filter keep) hnd
      (fun s => (s.id, s.name, s.address)) (fun a b hab => congrArg Prod.fst hab) p.1 hs
    have hfil := filter_leftJoin (fun (s : StoreRow) (r : RatingRow) => colEq (idVal s.id) r.store_id)
      (fun a => decide ((a.id, a.name, a.address) = g.1)) (db.stores.filter keep) db.ratings
    rw [← hkey] at hfil hg2
    rw [hsingle] at hfil
    show avgRating (g.2.map fun p => ratingCell p.2) = db.averageFor (idVal g.1.1)
    rw [hg2, hfil, avgRating_leftJoin_single, ← hkey]
    simp only [Db.averageFor, Db.ratingsOf, colEq_idVal]
  · exact absurd h (by simp)

/-- Body of a successful owner dashboard answer: the name of a store of the
table, the average `averageFor` computes for its id, and the raters. -/
theorem ownerDashboard_average (pool : Pool) (req : Request) (db : Db) (r : Response)
    (hrun : (run (ownerDashboard pool req) db).1 = Except.ok r) (hok : r.status = 200) :
    ∃ store ∈ db.stores, r.body = ResBody.json (Json.obj
      [("storeName", Json.val store.name),
       ("averageRating", Json.val (lit (db.averageFor (idVal store.id)))),
       ("raters", Json.arr ((db.raters (idVal store.id)).map RaterRow.toJson))]) := by
  cases huser : req.user with
  | none =>
    simp [run, ownerDashboard, Request.userField, huser, bind, Handler.bind, Handler.throw]
      at hrun
  | some id =>
    by_cases hf1 : pool.fails db ⟨sqlSelectOwnedStore, [id.get "id"]⟩ = true
    · simp [run, ownerDashboard, Request.userField, huser, hf1, bind, Handler.bind, pure,
        Handler.tryCatch, Pool.query] at hrun
      rw [← hrun] at hok
      simp [serverError] at hok
    · cases hsel : db.stores.filter (fun s => sqlEq s.owner_id (id.get "id")) with
      | nil =>
        simp [run, ownerDashboard, Request.userField, huser, hf1, hsel, bind, Handler.bind, pure,
          Handler.tryCatch, Pool.query] at hrun
        rw [← hrun] at hok
        simp [msgResponse] at hok
      | cons store rest =>
        have hmem : store ∈ db.stores :=
          (List.mem_filter.mp (by rw [hsel]; exact List.mem_cons_self _ _)).1
        refine ⟨store, hmem, ?_⟩
        by_cases hf2 : pool.fails db ⟨sqlSelectAverage, [idVal store.id]⟩ = true
        · simp [run, ownerDashboard, Request.userField, huser, hf1, hf2, hsel, bind,
            Handler.bind, pure, Handler.tryCatch, Pool.query] at hrun
          rw [← hrun] at hok
          simp [serverError] at hok
        · by_cases hf3 : pool.fails db ⟨sqlSelectRaters, [idVal store.id]⟩ = true
          · simp [run, ownerDashboard, Request.userField, huser, hf1, hf2, hf3, hsel, bind,
              Handler.bind, pure, Handler.tryCatch, Pool.query] at hrun
            rw [← hrun] at hok
            simp [serverError] at hok
          · simp [run, ownerDashboard, Request.userField, huser, hf1, hf2, hf3, hsel, bind,
              Handler.bind, pure, Handler.tryCatch, Pool.query] at hrun
            rw [← hrun]

/-- C4: when the ratings of a store are the non-negative numbers `qs`,
`averageFor` is 0 for no rating and otherwise the mean of `qs` rounded to two
decimals, ties going up; ratings 3 and 5 give 4.  The owner dashboard reports
`averageFor` of the owned store, and the store list and the two admin lists
report the same expression over the rating cells of each group (for the store
list with distinct store ids: `averageFor` of the row's store). -/
theorem averageFor_rounded_mean (db : Db) (storeId : Value) (qs : List ℚ)
    (hcells : (db.ratingsOf storeId).map (fun r => r.rating) = qs.map lit)
    (hnonneg : ∀ q ∈ qs, 0 ≤ q) :
    (qs = [] → db.averageFor storeId = 0) ∧
    (qs ≠ [] →
      (∃ k : ℤ, db.averageFor storeId = (k : ℚ) / 100) ∧
      qs.sum / (qs.length : ℚ) - 1 / 200 < db.averageFor storeId ∧
      db.averageFor storeId ≤ qs.sum / (qs.length : ℚ) + 1 / 200) ∧
    (avgRating [lit 3, lit 5] = 4 ∧ avgRating [] = 0) ∧
    (∀ (pool : Pool) (req : Request) (r : Response),
      (run (ownerDashboard pool req) db).1 = Except.ok r → r.status = 200 →
      ∃ store ∈ db.stores, r.body = ResBody.json (Json.obj
        [("storeName", Json.val store.name),
         ("averageRating", Json.val (lit (db.averageFor (idVal store.id)))),
         ("raters", Json.arr ((db.raters (idVal store.id)).map RaterRow.toJson))])) ∧
    (∀ (le : Value → Value → Bool) (keep : StoreRow → Bool) (userId : Value)
      (rows : List StoreListRow), db.storeList le keep userId = some rows →
      ∀ row ∈ rows,
        (∃ g ∈ db.storeListGroups keep, row.id = g.1.1 ∧
          row.average_rating = avgRating (g.2.map fun p => ratingCell p.2)) ∧
        ((db.stores.map fun s => s.id).Nodup →
          row.average_rating = db.averageFor (idVal row.id))) ∧
    (∀ (le : Value → Value → Bool) (keep : StoreRow → Bool),
      ∀ row ∈ db.adminStoreList le keep,
        ∃ g ∈ db.adminStoreGroups keep, row.id = g.1.1 ∧
          row.average_rating = avgRating (g.2.map fun p => ratingCell p.1.2)) ∧
    (∀ (le : Value → Value → Bool) (keep : UserRow → Bool),
      ∀ row ∈ db.adminUserList le keep,
        ∃ g ∈ db.adminUserGroups keep, row.id = g.1.1 ∧
          row.store_rating = avgRating (g.2.map fun p => ratingCell p.2)) := by
  have havg : db.averageFor storeId = avgRating (qs.map lit) := by
    simp only [Db.averageFor, hcells]
  refine ⟨?_, ?_, ⟨?_, ?_⟩, ?_, ?_, ?_, ?_⟩
  · intro he
    rw [havg, he]
    simp [avgRating, sqlAvg]
  · intro hne
    have hmean : avgRating (qs.map lit) = sqlRound2 (qs.sum / (qs.length : ℚ)) := by
      simp only [avgRating, sqlAvg, filterMap_numeric_lit]
      cases qs with
      | nil => exact absurd rfl hne
      | cons q rest => rfl
    have hlen : (0 : ℚ) < (qs.length : ℚ) := by
      have := List.length_pos.mpr hne
      exact_mod_cast this
    have hpos : 0 ≤ qs.sum / (qs.length : ℚ) :=
      div_nonneg (List.sum_nonneg hnonneg) hlen.le
    rw [havg, hmean]
    exact sqlRound2_half_up _ hpos
  · have h : avgRating [lit 3, lit 5] = sqlRound2 4 := by
      simp only [avgRating, sqlAvg, lit, List.filterMap_cons, Value.numeric?,
        List.filterMap_nil, List.sum_cons, List.sum_nil, List.length_cons, List.length_nil]
      norm_num
    rw [h]
    simp only [sqlRound2]
    norm_num
  · simp [avgRating, sqlAvg]
  · exact fun pool req r hrun hok => ownerDashboard_average pool req db r hrun hok
  · intro le keep userId rows h row hrow
    refine ⟨?_, fun hids => storeList_average db le keep userId rows hids h row hrow⟩
    simp only [Db.storeList] at h
    split at h
    · simp only [Option.some.injEq] at h
      subst h
      have hmem := (List.perm_insertionSort _ _).mem_iff.mp hrow
      simp only [List.mem_map] at hmem
      obtain ⟨g, hg, rfl⟩ := hmem
      exact ⟨g, hg, rfl, rfl⟩
    · exact absurd h (by simp)
  · intro le keep row hrow
    have hmem := (List.perm_insertionSort _ _).mem_iff.mp hrow
    simp only [List.mem_map] at hmem
    obtain ⟨g, hg, rfl⟩ := hmem
    exact ⟨g, hg, rfl, rfl⟩
  · intro le keep row hrow
    have hmem := (List.perm_insertionSort _ _).mem_iff.mp hrow
    simp only [List.mem_map] at hmem
    obtain ⟨g, hg, rfl⟩ := hmem
    exact ⟨g, hg, rfl, rfl⟩

/-- C4 at the sample store rated 3 and 5: the reported average is a whole
number of hundredths within half a hundredth of the mean 8 / 2. -/
theorem averageFor_rounded_mean_witness :
    (∃ k : ℤ, Sample.ratedDb.averageFor (idVal 2) = (k : ℚ) / 100) ∧
    [(3 : ℚ), 5].sum / (([(3 : ℚ), 5].length : ℕ) : ℚ) - 1 / 200
      < Sample.ratedDb.averageFor (idVal 2) ∧
    Sample.ratedDb.averageFor (idVal 2)
      ≤ [(3 : ℚ), 5].sum / (([(3 : ℚ), 5].length : ℕ) : ℚ) + 1 / 200 :=
  (averageFor_rounded_mean Sample.ratedDb (idVal 2) [3, 5]
    (by simp [Sample.ratedDb, Db.ratingsOf, sqlEq, intColumn, toParam, idVal, lit])
    (by intro q hq; simp at hq; rcases hq with rfl | rfl <;> norm_num)).2.1 (by simp)

/-! ## The admin check -/

/-- C5, counterexample: the empty string is a role other than
'System Administrator', yet the answer carries the 'User role not found'
message and not the 'Administrator privileges required' one. -/
theorem adminMiddleware_empty_role :
    adminMiddleware (Sample.withRole (Value.str ""))
      = Step.respond (msgResponse 403 "Access denied. User role not found.") ∧
    adminMiddleware (Sample.withRole (Value.str ""))
      ≠ Step.respond (msgResponse 403 "Access denied. Administrator privileges required.") := by
  have h : adminMiddleware (Sample.withRole (Value.str ""))
      = Step.respond (msgResponse 403 "Access denied. User role not found.") := by
    simp [adminMiddleware, roleMissing, Sample.withRole, JObject.get, List.lookup, truthy]
  refine ⟨h, ?_⟩
  rw [h]
  simp [msgResponse]

/-- C5, amended: the check calls `next()` exactly when the request carries an
identity whose role is the string 'System Administrator'; every answer it
gives has status 403; the message is 'User role not found' when the identity
is absent or its role is absent or falsy (the empty string included), and
'Administrator privileges required' for every other non-empty string. -/
theorem adminMiddleware_spec (req : Request) :
    (adminMiddleware req = Step.next ↔
      ∃ u, req.user = some u ∧ u.get "role" = Value.str "System Administrator") ∧
    (∀ r, adminMiddleware req = Step.respond r → r.status = 403) ∧
    ((req.user = none ∨ ∃ u, req.user = some u ∧ truthy (u.get "role") = false) →
      adminMiddleware req
        = Step.respond (msgResponse 403 "Access denied. User role not found.")) ∧
    (∀ u s, req.user = some u → u.get "role" = Value.str s → s ≠ "" →
      s ≠ "System Administrator" →
      adminMiddleware req
        = Step.respond (msgResponse 403 "Access denied. Administrator privileges required.")) := by
  refine ⟨?_, ?_, ?_, ?_⟩
  · cases huser : req.user with
    | none => simp [adminMiddleware, roleMissing, huser]
    | some u =>
      by_cases ht : truthy (u.get "role") = true
      · by_cases hr : u.get "role" = Value.str "System Administrator"
        · rw [hr] at ht
          simp [adminMiddleware, roleMissing, Request.role, huser, ht, hr]
        · simp [adminMiddleware, roleMissing, Request.role, huser, ht, hr]
      · have hr : u.get "role" ≠ Value.str "System Administrator" := by
          intro h; rw [h] at ht; simp [truthy] at ht
        simp [adminMiddleware, roleMissing, Request.role, huser, ht, hr]
  · intro r hr
    simp only [adminMiddleware] at hr
    split at hr
    · simp only [Step.respond.injEq] at hr; rw [← hr]; rfl
    · split at hr
      · simp only [Step.respond.injEq] at hr; rw [← hr]; rfl
      · exact absurd hr (by simp)
  · rintro (huser | ⟨u, huser, ht⟩)
    · simp [adminMiddleware, roleMissing, huser]
    · simp [adminMiddleware, roleMissing, huser, ht]
  · intro u s huser hrole hne hadmin
    have ht : truthy (Value.str s) = true := by simp [truthy, hne]
    simp [adminMiddleware, roleMissing, Request.role, huser, ht, hrole, hadmin]

/-- C5, amended, at sample requests: the role 'system administrator' in lower
case is answered 403 'Administrator privileges required'. -/
theorem adminMiddleware_spec_witness :
    adminMiddleware (Sample.withRole (Value.str "system administrator"))
      = Step.respond (msgResponse 403 "Access denied. Administrator privileges required.") :=
  (adminMiddleware_spec (Sample.withRole (Value.str "system administrator"))).2.2.2
    _ "system administrator" rfl rfl (by decide) (by decide)

/-! ## Login -/

/-- Run of `login` when the lookup finds no row: 400 'Invalid credentials.',
the lookup as only statement, the tables untouched. -/
theorem login_no_user (pool : Pool) (bcrypt : Bcrypt) (jwt : Jwt) (req : Request) (db : Db)
    (hpool : pool.fails db ⟨sqlSelectUserByEmail, [req.body.get "email"]⟩ = false)
    (hnone : db.usersByEmail (req.body.get "email") = []) :
    run (login pool bcrypt jwt req) db
      = (Except.ok (msgResponse 400 "Invalid credentials."), db,
          [⟨sqlSelectUserByEmail, [req.body.get "email"]⟩]) := by
  simp [run, login, hpool, hnone, bind, Handler.bind, pure, Handler.tryCatch, Pool.query]

/-- Run of `login` when the lookup finds a row and the password does not
match its hash: the same answer, statement and tables. -/
theorem login_wrong_password (pool : Pool) (bcrypt : Bcrypt) (jwt : Jwt) (req : Request)
    (db : Db) (user : UserRow) (rest : List UserRow)
    (hpool : pool.fails db ⟨sqlSelectUserByEmail, [req.body.get "email"]⟩ = false)
    (hsome : db.usersByEmail (req.body.get "email") = user :: rest)
    (hwrong : bcrypt.compare (req.body.get "password") user.password = some false) :
    run (login pool bcrypt jwt req) db
      = (Except.ok (msgResponse 400 "Invalid credentials."), db,
          [⟨sqlSelectUserByEmail, [req.body.get "email"]⟩]) := by
  simp [run, login, hpool, hsome, hwrong, bind, Handler.bind, pure, Handler.tryCatch,
    Pool.query, Bcrypt.compareStep]

/-- Run of `login` when the lookup finds a row, the password matches its hash
and the signing gives a token. -/
theorem login_success (pool : Pool) (bcrypt : Bcrypt) (jwt : Jwt) (req : Request)
    (db : Db) (user : UserRow) (rest : List UserRow) (token : String)
    (hpool : pool.fails db ⟨sqlSelectUserByEmail, [req.body.get "email"]⟩ = false)
    (hsome : db.usersByEmail (req.body.get "email") = user :: rest)
    (hmatch : bcrypt.compare (req.body.get "password") user.password = some true)
    (hsign : jwt.sign (loginPayload user) jwt.secret loginSignOptions = SignOutcome.token token) :
    run (login pool bcrypt jwt req) db
      = (Except.ok { status := 200, body := ResBody.json (Json.obj
          [("msg", Json.val (Value.str "Login successful!")),
           ("token", Json.val (Value.str token)),
           ("user", user.identity)]) }, db,
          [⟨sqlSelectUserByEmail, [req.body.get "email"]⟩]) := by
  simp [run, login, hpool, hsome, hmatch, hsign, bind, Handler.bind, pure, Handler.tryCatch,
    Pool.query, Bcrypt.compareStep]

/-- C6: a login whose email has no user row and a login whose email has a row
but whose password does not match the stored hash get the same answer, status
400 with body `{ msg: 'Invalid credentials.' }`. -/
theorem login_failures_same_response (pool1 pool2 : Pool) (bcrypt1 bcrypt2 : Bcrypt)
    (jwt1 jwt2 : Jwt) (req1 req2 : Request) (db1 db2 : Db) (user : UserRow)
    (rest : List UserRow)
    (hpool1 : pool1.fails db1 ⟨sqlSelectUserByEmail, [req1.body.get "email"]⟩ = false)
    (hpool2 : pool2.fails db2 ⟨sqlSelectUserByEmail, [req2.body.get "email"]⟩ = false)
    (hnone : db1.usersByEmail (req1.body.get "email") = [])
    (hsome : db2.usersByEmail (req2.body.get "email") = user :: rest)
    (hwrong : bcrypt2.compare (req2.body.get "password") user.password = some false) :
    (run (login pool1 bcrypt1 jwt1 req1) db1).1
      = Except.ok (msgResponse 400 "Invalid credentials.") ∧
    (run (login pool2 bcrypt2 jwt2 req2) db2).1
      = Except.ok (msgResponse 400 "Invalid credentials.") ∧
    (run (login pool1 bcrypt1 jwt1 req1) db1).1 = (run (login pool2 bcrypt2 jwt2 req2) db2).1 := by
  have h1 := congrArg Prod.fst (login_no_user pool1 bcrypt1 jwt1 req1 db1 hpool1 hnone)
  have h2 := congrArg Prod.fst
    (login_wrong_password pool2 bcrypt2 jwt2 req2 db2 user rest hpool2 hsome hwrong)
  exact ⟨h1, h2, h1.trans h2.symm⟩

/-- C6 at sample logins on the tables holding Alice: an unknown email and
Alice's email with a wrong password. -/
theorem login_failures_same_response_witness :
    (run (login (Sample.pool 1) Sample.bcrypt Sample.jwt
        (Sample.loginReq "bob@example.com" "Secret!Pass1")) Sample.aliceDb).1
      = Except.ok (msgResponse 400 "Invalid credentials.") ∧
    (run (login (Sample.pool 2) Sample.bcrypt Sample.jwt
        (Sample.loginReq "alice@example.com" "Wrong!Pass1")) Sample.aliceDb).1
      = Except.ok (msgResponse 400 "Invalid credentials.") ∧
    (run (login (Sample.pool 1) Sample.bcrypt Sample.jwt
        (Sample.loginReq "bob@example.com" "Secret!Pass1")) Sample.aliceDb).1
      = (run (login (Sample.pool 2) Sample.bcrypt Sample.jwt
        (Sample.loginReq "alice@example.com" "Wrong!Pass1")) Sample.aliceDb).1 :=
  login_failures_same_response (Sample.pool 1) (Sample.pool 2) Sample.bcrypt Sample.bcrypt
    Sample.jwt Sample.jwt (Sample.loginReq "bob@example.com" "Secret!Pass1")
    (Sample.loginReq "alice@example.com" "Wrong!Pass1") Sample.aliceDb Sample.aliceDb
    Sample.alice [] rfl rfl (by decide) (by decide) (by decide)

/-- C7: when the lookup finds the row `user`, the password matches its hash
and the signing succeeds, the token is the one `jwt.sign` gives for the payload
`{ user: { id, name, role } }` of that row with the option `expiresIn: '5h'`,
and the answer is 200 with `msg`, that token and a `user` object holding the
id, name and role of the row and no other field. -/
theorem login_token_embeds_identity (pool : Pool) (bcrypt : Bcrypt) (jwt : Jwt) (req : Request)
    (db : Db) (user : UserRow) (rest : List UserRow) (token : String)
    (hpool : pool.fails db ⟨sqlSelectUserByEmail, [req.body.get "email"]⟩ = false)
    (hsome : db.usersByEmail (req.body.get "email") = user :: rest)
    (hmatch : bcrypt.compare (req.body.get "password") user.password = some true)
    (hsign : jwt.sign
        (Json.obj [("user", Json.obj [("id", Json.val (idVal user.id)),
          ("name", Json.val user.name), ("role", Json.val user.role)])])
        jwt.secret [("expiresIn", Value.str "5h")] = SignOutcome.token token) :
    (run (login pool bcrypt jwt req) db).1
      = Except.ok { status := 200, body := ResBody.json (Json.obj
          [("msg", Json.val (Value.str "Login successful!")),
           ("token", Json.val (Value.str token)),
           ("user", Json.obj [("id", Json.val (idVal user.id)),
             ("name", Json.val user.name), ("role", Json.val user.role)])]) } ∧
    (run (login pool bcrypt jwt req) db).2.1 = db :=
  ⟨congrArg Prod.fst (login_success pool bcrypt jwt req db user rest token hpool hsome hmatch hsign),
    congrArg (fun r => r.2.1)
      (login_success pool bcrypt jwt req db user rest token hpool hsome hmatch hsign)⟩

/-- C7 at the sample login of Alice with her password. -/
theorem login_token_embeds_identity_witness :
    (run (login (Sample.pool 1) Sample.bcrypt Sample.jwt
        (Sample.loginReq "alice@example.com" "Secret!Pass1")) Sample.aliceDb).1
      = Except.ok { status := 200, body := ResBody.json (Json.obj
          [("msg", Json.val (Value.str "Login successful!")),
           ("token", Json.val (Value.str "signed-token")),
           ("user", Json.obj [("id", Json.val (idVal 7)),
             ("name", Json.val (Value.str "Alice Margaret Smithson")),
             ("role", Json.val (Value.str "Store Owner"))])]) } ∧
    (run (login (Sample.pool 1) Sample.bcrypt Sample.jwt
        (Sample.loginReq "alice@example.com" "Secret!Pass1")) Sample.aliceDb).2.1
      = Sample.aliceDb :=
  login_token_embeds_identity (Sample.pool 1) Sample.bcrypt Sample.jwt
    (Sample.loginReq "alice@example.com" "Secret!Pass1") Sample.aliceDb Sample.alice []
    "signed-token" rfl (by decide) (by decide) rfl

/-! ## Registration -/

/-- C8: when the email of the request already belongs to a user row,
`register` answers 400 'User with this email already exists.'; the lookup is
the only statement issued (no insert) and the tables are unchanged. -/
theorem register_rejects_taken_email (pool : Pool) (bcrypt : Bcrypt) (req : Request) (db : Db)
    (hpool : pool.fails db ⟨sqlSelectUserByEmail, [req.body.get "email"]⟩ = false)
    (htaken : db.usersByEmail (req.body.get "email") ≠ []) :
    run (register pool bcrypt req) db
      = (Except.ok (msgResponse 400 "User with this email already exists."), db,
          [⟨sqlSelectUserByEmail, [req.body.get "email"]⟩]) := by
  have hlen : 0 < (db.usersByEmail (req.body.get "email")).length := List.length_pos.mpr htaken
  simp [run, register, hpool, hlen, bind, Handler.bind, pure, Handler.tryCatch, Pool.query]

/-- C8 at a sample registration with the email of Alice. -/
theorem register_rejects_taken_email_witness :
    run (register (Sample.pool 1) Sample.bcrypt
        (Sample.registerReq "Alice Margaret Smithson" "alice@example.com" "Other!Pass2"
          "2 Side St" Value.undefined)) Sample.aliceDb
      = (Except.ok (msgResponse 400 "User with this email already exists."), Sample.aliceDb,
          [⟨sqlSelectUserByEmail, [(Sample.registerReq "Alice Margaret Smithson"
            "alice@example.com" "Other!Pass2" "2 Side St" Value.undefined).body.get "email"]⟩]) :=
  register_rejects_taken_email (Sample.pool 1) Sample.bcrypt _ Sample.aliceDb rfl (by decide)

/-- Run of `register` when the email is free and no call fails: 201 with the
new row, which is appended to `users` with the default role. -/
theorem register_success (pool : Pool) (bcrypt : Bcrypt) (req : Request) (db : Db)
    (salt h : String)
    (hpool1 : pool.fails db ⟨sqlSelectUserByEmail, [req.body.get "email"]⟩ = false)
    (hfree : db.usersByEmail (req.body.get "email") = [])
    (hsalt : bcrypt.genSalt 10 = some salt)
    (hhash : bcrypt.hash (req.body.get "password") salt = some h)
    (hpool2 : pool.fails db ⟨sqlInsertUser, [req.body.get "name", req.body.get "email",
      Value.str h, req.body.get "address"]⟩ = false) :
    run (register pool bcrypt req) db
      = (Except.ok { status := 201, body := ResBody.json (Json.obj
          [("msg", Json.val (Value.str "User registered successfully!")),
           ("user", UserRow.returning ⟨db.nextUserId, toParam (req.body.get "name"),
              toParam (req.body.get "email"), Value.str h, toParam (req.body.get "address"),
              defaultRole⟩)]) },
          (Db.insertUser (req.body.get "name") (req.body.get "email") (Value.str h)
            (req.body.get "address") db).2,
          [⟨sqlSelectUserByEmail, [req.body.get "email"]⟩,
           ⟨sqlInsertUser, [req.body.get "name", req.body.get "email", Value.str h,
              req.body.get "address"]⟩]) := by
  simp [run, register, hpool1, hpool2, hfree, hsalt, hhash, bind, Handler.bind, pure,
    Handler.tryCatch, Pool.query, Bcrypt.genSaltStep, Bcrypt.hashStep, Db.insertUser,
    firstUserJson, toParam]

/-- A `register` run that answers 201 went through the lookup, the salt, the
hash and the insert. -/
theorem register_created (pool : Pool) (bcrypt : Bcrypt) (req : Request) (db : Db)
    (r : Response) (hrun : (run (register pool bcrypt req) db).1 = Except.ok r)
    (hstatus : r.status = 201) :
    ∃ salt h, bcrypt.genSalt 10 = some salt ∧
      bcrypt.hash (req.body.get "password") salt = some h ∧
      (run (register pool bcrypt req) db).2
        = ((Db.insertUser (req.body.get "name") (req.body.get "email") (Value.str h)
            (req.body.get "address") db).2,
          [⟨sqlSelectUserByEmail, [req.body.get "email"]⟩,
           ⟨sqlInsertUser, [req.body.get "name", req.body.get "email", Value.str h,
              req.body.get "address"]⟩]) := by
  by_cases hf1 : pool.fails db ⟨sqlSelectUserByEmail, [req.body.get "email"]⟩ = true
  · simp [run, register, hf1, bind, Handler.bind, pure, Handler.tryCatch, Pool.query] at hrun
    rw [← hrun] at hstatus
    simp [serverError] at hstatus
  · by_cases hlen : 0 < (db.usersByEmail (req.body.get "email")).length
    · simp [run, register, hf1, hlen, bind, Handler.bind, pure, Handler.tryCatch,
        Pool.query] at hrun
      rw [← hrun] at hstatus
      simp [msgResponse] at hstatus
    · cases hsalt : bcrypt.genSalt 10 with
      | none =>
        simp [run, register, hf1, hlen, hsalt, bind, Handler.bind, pure, Handler.tryCatch,
          Pool.query, Bcrypt.genSaltStep, Handler.throw] at hrun
        rw [← hrun] at hstatus
        simp [serverError] at hstatus
      | some salt =>
        cases hhash : bcrypt.hash (req.body.get "password") salt with
        | none =>
          simp [run, register, hf1, hlen, hsalt, hhash, bind, Handler.bind, pure,
            Handler.tryCatch, Pool.query, Bcrypt.genSaltStep, Bcrypt.hashStep,
            Handler.throw] at hrun
          rw [← hrun] at hstatus
          simp [serverError] at hstatus
        | some h =>
          refine ⟨salt, h, rfl, hhash, ?_⟩
          by_cases hf2 : pool.fails db ⟨sqlInsertUser, [req.body.get "name",
              req.body.get "email", Value.str h, req.body.get "address"]⟩ = true
          · simp [run, register, hf1, hf2, hlen, hsalt, hhash, bind, Handler.bind, pure,
              Handler.tryCatch, Pool.query, Bcrypt.genSaltStep, Bcrypt.hashStep] at hrun
            rw [← hrun] at hstatus
            simp [serverError] at hstatus
          · have hfree : db.usersByEmail (req.body.get "email") = [] := by
              simpa using hlen
            have := register_success pool bcrypt req db salt h (by simpa using hf1) hfree hsalt
              hhash (by simpa using hf2)
            rw [this]

/-- The outcome of `register` depends on the body through the fields `name`,
`email`, `password` and `address` only. -/
theorem register_reads_four_fields (pool : Pool) (bcrypt : Bcrypt) (req : Request) (db : Db)
    (body : JObject)
    (hname : body.get "name" = req.body.get "name")
    (hemail : body.get "email" = req.body.get "email")
    (hpassword : body.get "password" = req.body.get "password")
    (haddress : body.get "address" = req.body.get "address") :
    run (register pool bcrypt { req with body := body }) db = run (register pool bcrypt req) db := by
  simp only [run, register, hname, hemail, hpassword, haddress]

/-- C9: when `register` creates a user (answer 201), the statements issued are
the lookup and one insert whose parameters are the name, the email, the hash
`bcrypt.hash` gave for the password, and the address; the tables gain exactly
one user row, holding that hash as password and the default role
'Normal User'.  A `role` field of the body changes nothing, and the stored
password differs from the submitted one as soon as the hash function never
returns its input. -/
theorem register_default_role_and_hash (pool : Pool) (bcrypt : Bcrypt) (req : Request) (db : Db)
    (r : Response) (hrun : (run (register pool bcrypt req) db).1 = Except.ok r)
    (hstatus : r.status = 201) :
    ∃ salt h, bcrypt.genSalt 10 = some salt ∧
      bcrypt.hash (req.body.get "password") salt = some h ∧
      (run (register pool bcrypt req) db).2.2
        = [⟨sqlSelectUserByEmail, [req.body.get "email"]⟩,
           ⟨"INSERT INTO users (name, email, password, address) VALUES ($1, $2, $3, $4) RETURNING id, name, email, role",
            [req.body.get "name", req.body.get "email", Value.str h, req.body.get "address"]⟩] ∧
      (run (register pool bcrypt req) db).2.1
        = { db with
            users := db.users ++ [⟨db.nextUserId, toParam (req.body.get "name"),
              toParam (req.body.get "email"), Value.str h, toParam (req.body.get "address"),
              Value.str "Normal User"⟩],
            nextUserId := db.nextUserId + 1 } ∧
      (∀ role : Value,
        run (register pool bcrypt { req with body := ("role", role) :: req.body }) db
          = run (register pool bcrypt req) db) ∧
      ((∀ p s o, bcrypt.hash p s = some o → Value.str o ≠ p) →
        Value.str h ≠ req.body.get "password") := by
  obtain ⟨salt, h, hsalt, hhash, hres⟩ := register_created pool bcrypt req db r hrun hstatus
  refine ⟨salt, h, hsalt, hhash, ?_, ?_, ?_, ?_⟩
  · exact congrArg Prod.snd hres
  · have := congrArg Prod.fst hres
    simpa [Db.insertUser, toParam, defaultRole] using this
  · intro role
    exact register_reads_four_fields pool bcrypt req db _ rfl rfl rfl rfl
  · intro hne
    exact hne _ _ _ hhash

/-- C9 at a sample registration that asks for the administrator role. -/
theorem register_default_role_and_hash_witness :
    ∃ salt h, Sample.bcrypt.genSalt 10 = some salt ∧
      Sample.bcrypt.hash (Value.str "Secret!Pass1") salt = some h ∧
      (run (register (Sample.pool 1) Sample.bcrypt
        (Sample.registerReq "Robert James Fletcher" "bob@example.com" "Secret!Pass1"
          "2 Side St" (Value.str "System Administrator"))) Sample.aliceDb).2.1.users
        = [Sample.alice, ⟨8, Value.str "Robert James Fletcher", Value.str "bob@example.com",
            Value.str h, Value.str "2 Side St", Value.str "Normal User"⟩] := by
  obtain ⟨salt, h, hsalt, hhash, _, hdb, _, _⟩ :=
    register_default_role_and_hash (Sample.pool 1) Sample.bcrypt
      (Sample.registerReq "Robert James Fletcher" "bob@example.com" "Secret!Pass1"
        "2 Side St" (Value.str "System Administrator")) Sample.aliceDb _
      (congrArg Prod.fst (register_success (Sample.pool 1) Sample.bcrypt
        (Sample.registerReq "Robert James Fletcher" "bob@example.com" "Secret!Pass1"
          "2 Side St" (Value.str "System Administrator")) Sample.aliceDb "salt"
        "hashed:Secret!Pass1" rfl (by decide) rfl rfl rfl)) rfl
  exact ⟨salt, h, hsalt, hhash, by rw [hdb]; rfl⟩

/-! ## Fields of a JSON object -/

/-- Reading the field just assigned. -/
theorem JObject.get_set_self (o : JObject) (k : String) (v : Value) : (o.set k v).get k = v := by
  simp [JObject.get, JObject.set, List.lookup]

/-- Assigning a field leaves the other fields as they are. -/
theorem JObject.get_set_ne (o : JObject) (k k2 : String) (v : Value) (h : k2 ≠ k) :
    (o.set k v).get k2 = o.get k2 := by
  have hk : (k2 == k) = false := by simpa using h
  have hfilter : List.lookup k2 (o.filter (fun p => decide (p.1 ≠ k))) = List.lookup k2 o := by
    induction o with
    | nil => rfl
    | cons p rest ih =>
      obtain ⟨a, b⟩ := p
      by_cases ha : a = k
      · subst ha
        have hskip : List.lookup k2 ((a, b) :: rest) = List.lookup k2 rest := by
          simp [List.lookup, hk]
        rw [hskip, ← ih]
        simp [List.filter_cons]
      · simp only [List.filter_cons, ha, ne_eq, not_false_eq_true, decide_True, if_true,
          List.lookup, ih]
  simp only [JObject.get, JObject.set, List.lookup, hk, hfilter]

/-! ## Instances of a checked field -/

/-- The instances of a field are the body, header and query values that are
not `undefined`, or the `undefined` of the body when there is none. -/
theorem Request.instances_eq (req : Request) (field : String) :
    req.instances field
      = if req.body.get field = Value.undefined ∧ req.headers.get field = Value.undefined
          ∧ req.query.get field = Value.undefined
        then [(Location.body, Value.undefined)]
        else (if req.body.get field = Value.undefined then []
            else [(Location.body, req.body.get field)])
          ++ (if req.headers.get field = Value.undefined then []
            else [(Location.headers, req.headers.get field)])
          ++ (if req.query.get field = Value.undefined then []
            else [(Location.query, req.query.get field)]) := by
  have hempty : JObject.get [] field = Value.undefined := rfl
  by_cases hb : req.body.get field = Value.undefined <;>
  by_cases hh : req.headers.get field = Value.undefined <;>
  by_cases hq : req.query.get field = Value.undefined <;>
  simp [Request.instances, checkLocations, Request.inLocation, List.filter_cons, hempty, hb, hh,
    hq]

/-- A field that only the body may hold has the body value as its one
instance. -/
theorem Request.instances_body_only (req : Request) (field : String)
    (hh : req.headers.get field = Value.undefined)
    (hq : req.query.get field = Value.undefined) :
    req.instances field = [(Location.body, req.body.get field)] := by
  rw [Request.instances_eq]
  by_cases hb : req.body.get field = Value.undefined <;> simp [hb, hh, hq]

/-- Assigning a field in some location leaves every other field of every
location as it is. -/
theorem Request.inLocation_setIn_ne (req : Request) (loc l : Location) (k k2 : String)
    (v : Value) (h : k2 ≠ k) :
    ((req.setIn loc k v).inLocation l).get k2 = (req.inLocation l).get k2 := by
  cases loc <;> cases l <;>
    simp [Request.setIn, Request.inLocation, JObject.get_set_ne _ _ _ _ h]

/-- Assigning a field leaves the instances of every other field as they are. -/
theorem Request.instances_setIn_ne (req : Request) (loc : Location) (k k2 : String) (v : Value)
    (h : k2 ≠ k) : (req.setIn loc k v).instances k2 = req.instances k2 := by
  simp only [Request.instances, Request.inLocation_setIn_ne _ _ _ _ _ _ h]

/-- The sanitizers of one field leave the instances of every other field as
they are. -/
theorem instances_sanitize_ne (lib : ValidatorLib) (sanitizer : String → Value)
    (k k2 : String) (h : k2 ≠ k) (insts : List (Location × Value)) (req : Request) :
    (sanitize lib sanitizer k insts req).instances k2 = req.instances k2 := by
  induction insts generalizing req with
  | nil => rfl
  | cons p rest ih =>
    simp only [sanitize]
    rw [ih, Request.instances_setIn_ne _ _ _ _ _ h]

/-- The sanitizers of one field leave every other field of every location as
it is. -/
theorem inLocation_sanitize_ne (lib : ValidatorLib) (sanitizer : String → Value)
    (k k2 : String) (h : k2 ≠ k) (l : Location) (insts : List (Location × Value))
    (req : Request) :
    ((sanitize lib sanitizer k insts req).inLocation l).get k2 = (req.inLocation l).get k2 := by
  induction insts generalizing req with
  | nil => rfl
  | cons p rest ih =>
    simp only [sanitize]
    rw [ih]
    exact Request.inLocation_setIn_ne req p.1 l k k2 _ h

/-- The sanitizers of one field leave every other field of the body as it
is. -/
theorem body_sanitize_ne (lib : ValidatorLib) (sanitizer : String → Value)
    (k k2 : String) (h : k2 ≠ k) (insts : List (Location × Value)) (req : Request) :
    (sanitize lib sanitizer k insts req).body.get k2 = req.body.get k2 :=
  inLocation_sanitize_ne lib sanitizer k k2 h Location.body insts req

/-- The sanitizers of one field leave every other header as it is. -/
theorem headers_sanitize_ne (lib : ValidatorLib) (sanitizer : String → Value)
    (k k2 : String) (h : k2 ≠ k) (insts : List (Location × Value)) (req : Request) :
    (sanitize lib sanitizer k insts req).headers.get k2 = req.headers.get k2 :=
  inLocation_sanitize_ne lib sanitizer k k2 h Location.headers insts req

/-- The sanitizers of one field leave every other field of the query string as
it is. -/
theorem query_sanitize_ne (lib : ValidatorLib) (sanitizer : String → Value)
    (k k2 : String) (h : k2 ≠ k) (insts : List (Location × Value)) (req : Request) :
    (sanitize lib sanitizer k insts req).query.get k2 = req.query.get k2 :=
  inLocation_sanitize_ne lib sanitizer k k2 h Location.query insts req

/-- The sanitizers leave `req.user` as it is. -/
theorem user_sanitize (lib : ValidatorLib) (sanitizer : String → Value) (k : String)
    (insts : List (Location × Value)) (req : Request) :
    (sanitize lib sanitizer k insts req).user = req.user := by
  induction insts generalizing req with
  | nil => rfl
  | cons p rest ih =>
    simp only [sanitize]
    rw [ih]
    cases p.1 <;> rfl

/-- After the sanitizers of a field, the body holds the sanitized value when
the body held the field or no location did, and still lacks the field
otherwise. -/
theorem body_sanitize_self (lib : ValidatorLib) (sanitizer : String → Value) (k : String)
    (req : Request) :
    (sanitize lib sanitizer k (req.instances k) req).body.get k
      = if req.body.get k = Value.undefined ∧ (req.headers.get k ≠ Value.undefined
          ∨ req.query.get k ≠ Value.undefined)
        then Value.undefined
        else sanitizer (lib.fieldString (req.body.get k)) := by
  rw [Request.instances_eq]
  by_cases hb : req.body.get k = Value.undefined <;>
  by_cases hh : req.headers.get k = Value.undefined <;>
  by_cases hq : req.query.get k = Value.undefined <;>
  simp [sanitize, Request.setIn, JObject.get_set_self, hb, hh, hq]

/-! ## Errors and sanitized fields of the chains -/

/-- Every entry a validator reports carries the field and the message of its
chain. -/
theorem mem_validate (lib : ValidatorLib) (ok : String → Bool) (param msg : String)
    (insts : List (Location × Value)) (e : FieldError)
    (he : e ∈ validate lib ok param msg insts) : e = ⟨param, msg⟩ := by
  induction insts with
  | nil => simp [validate] at he
  | cons p rest ih =>
    simp only [validate, List.mem_append] at he
    rcases he with he | he
    · by_cases hok : ok (lib.fieldString p.2) = true
      · simp [checkField, hok] at he
      · simpa [checkField, hok] using he
    · exact ih he

/-- A validator reports nothing exactly when the check passes on every
instance. -/
theorem validate_eq_nil (lib : ValidatorLib) (ok : String → Bool) (param msg : String)
    (insts : List (Location × Value)) :
    validate lib ok param msg insts = [] ↔ ∀ p ∈ insts, ok (lib.fieldString p.2) = true := by
  induction insts with
  | nil => simp [validate]
  | cons p rest ih =>
    by_cases hok : ok (lib.fieldString p.2) = true
    · simp [validate, checkField, hok, ih]
    · simp [validate, checkField, hok]

/-- A validator reports one entry per instance on which the check fails. -/
theorem validate_length (lib : ValidatorLib) (ok : String → Bool) (param msg : String)
    (insts : List (Location × Value)) :
    (validate lib ok param msg insts).length = (outcomes lib ok insts).count false := by
  induction insts with
  | nil => rfl
  | cons p rest ih =>
    by_cases hok : ok (lib.fieldString p.2) = true
    · simp only [outcomes] at ih
      simp [validate, checkField, outcomes, hok, ih]
    · simp only [outcomes] at ih
      simp [validate, checkField, outcomes, hok, ih]

/-- The entries of a validator count for its own field only. -/
theorem accepts_validate (lib : ValidatorLib) (ok : String → Bool) (param msg field : String)
    (insts : List (Location × Value)) :
    accepts (validate lib ok param msg insts) field
      = (decide (param ≠ field) || (validate lib ok param msg insts).isEmpty) := by
  induction insts with
  | nil => simp [validate, accepts]
  | cons p rest ih =>
    simp only [accepts] at ih
    by_cases hok : ok (lib.fieldString p.2) = true
    · simp only [validate, checkField, hok, if_true, List.nil_append, accepts, ih]
    · by_cases hp : param = field <;>
        simp [validate, checkField, hok, accepts, hp, ih]

/-- A list of entries is accepted for a field when each of its parts is. -/
theorem accepts_append (xs ys : List FieldError) (field : String) :
    accepts (xs ++ ys) field = (accepts xs field && accepts ys field) := by
  simp [accepts, List.all_append]

/-- The errors of the chains, each validator on the instances of its field in
the request as received. -/
theorem userValidationRules_errors (lib : ValidatorLib) (req : Request) :
    (userValidationRules lib req).1
      = validate lib (fun s => isLength s 20 (some 60)) "name" nameMsg (req.instances "name")
        ++ validate lib lib.isEmail "email" emailMsg (req.instances "email")
        ++ (validate lib (fun s => isLength s 8 (some 16)) "password" passwordMsg
            (req.instances "password")
          ++ validate lib (passwordPattern lib.modifiersOnRegExp) "password" passwordMsg
            (req.instances "password"))
        ++ validate lib (fun s => isLength s 0 (some 400)) "address" addressMsg
            (req.instances "address") := by
  simp only [userValidationRules]
  rw [instances_sanitize_ne lib _ "name" "email" (by decide),
    instances_sanitize_ne lib _ "email" "password" (by decide),
    instances_sanitize_ne lib _ "name" "password" (by decide),
    instances_sanitize_ne lib _ "email" "address" (by decide),
    instances_sanitize_ne lib _ "name" "address" (by decide)]

/-- The fields of the body the handlers read after the chains. -/
theorem userValidationRules_fields (lib : ValidatorLib) (req : Request) :
    (userValidationRules lib req).2.body.get "name"
      = (if req.body.get "name" = Value.undefined ∧ (req.headers.get "name" ≠ Value.undefined
          ∨ req.query.get "name" ≠ Value.undefined)
        then Value.undefined
        else Value.str (lib.escape (lib.trim (lib.fieldString (req.body.get "name"))))) ∧
    (userValidationRules lib req).2.body.get "email"
      = (if req.body.get "email" = Value.undefined ∧ (req.headers.get "email" ≠ Value.undefined
          ∨ req.query.get "email" ≠ Value.undefined)
        then Value.undefined
        else lib.normalizeEmail (lib.fieldString (req.body.get "email"))) ∧
    (userValidationRules lib req).2.body.get "password" = req.body.get "password" ∧
    (userValidationRules lib req).2.body.get "address"
      = (if req.body.get "address" = Value.undefined
          ∧ (req.headers.get "address" ≠ Value.undefined
            ∨ req.query.get "address" ≠ Value.undefined)
        then Value.undefined
        else Value.str (lib.escape (lib.trim (lib.fieldString (req.body.get "address"))))) ∧
    (∀ k, k ≠ "name" → k ≠ "email" → k ≠ "address" →
      (userValidationRules lib req).2.body.get k = req.body.get k) ∧
    (userValidationRules lib req).2.user = req.user := by
  simp only [userValidationRules]
  refine ⟨?_, ?_, ?_, ?_, ?_, ?_⟩
  · rw [body_sanitize_ne lib _ "address" "name" (by decide),
      body_sanitize_ne lib _ "email" "name" (by decide), body_sanitize_self]
  · rw [body_sanitize_ne lib _ "address" "email" (by decide), body_sanitize_self,
      body_sanitize_ne lib _ "name" "email" (by decide),
      headers_sanitize_ne lib _ "name" "email" (by decide),
      query_sanitize_ne lib _ "name" "email" (by decide)]
  · rw [body_sanitize_ne lib _ "address" "password" (by decide),
      body_sanitize_ne lib _ "email" "password" (by decide),
      body_sanitize_ne lib _ "name" "password" (by decide)]
  · rw [body_sanitize_self, body_sanitize_ne lib _ "email" "address" (by decide),
      body_sanitize_ne lib _ "name" "address" (by decide),
      headers_sanitize_ne lib _ "email" "address" (by decide),
      headers_sanitize_ne lib _ "name" "address" (by decide),
      query_sanitize_ne lib _ "email" "address" (by decide),
      query_sanitize_ne lib _ "name" "address" (by decide)]
  · intro k h1 h2 h3
    rw [body_sanitize_ne lib _ "address" k h3, body_sanitize_ne lib _ "email" k h2,
      body_sanitize_ne lib _ "name" k h1]
  · rw [user_sanitize, user_sanitize, user_sanitize]

/-! ## Registration followed by login -/

/-- Whenever the register route creates a user whose email the chains changed,
and no earlier user has the email as submitted, the login with the email as
submitted finds no row and is answered 400 'Invalid credentials.'. -/
theorem login_after_register_normalized (lib : ValidatorLib) (pool1 pool2 : Pool)
    (bcrypt1 bcrypt2 : Bcrypt) (jwt : Jwt) (req loginReq : Request) (db : Db) (r : Response)
    (hrun : (run (registerRoute lib pool1 bcrypt1 req) db).1 = Except.ok r)
    (hstatus : r.status = 201)
    (hsame : loginReq.body.get "email" = req.body.get "email")
    (hfree : db.usersByEmail (req.body.get "email") = [])
    (hchanged : toParam ((userValidationRules lib req).2.body.get "email")
      ≠ toParam (req.body.get "email"))
    (hpool : ∀ d st, pool2.fails d st = false) :
    (run (login pool2 bcrypt2 jwt loginReq) (run (registerRoute lib pool1 bcrypt1 req) db).2.1).1
      = Except.ok (msgResponse 400 "Invalid credentials.") := by
  cases hstep : handleValidationErrors (userValidationRules lib req).1 with
  | respond r2 =>
    have hr2 : r2.status = 400 := by
      simp only [handleValidationErrors] at hstep
      split at hstep
      · simp only [Step.respond.injEq] at hstep; rw [← hstep]
      · exact absurd hstep (by simp)
    simp only [run, registerRoute, hstep, pure] at hrun
    simp only [Except.ok.injEq] at hrun
    rw [← hrun] at hstatus
    omega
  | next =>
    have hroute : registerRoute lib pool1 bcrypt1 req
        = register pool1 bcrypt1 (userValidationRules lib req).2 := by
      simp only [registerRoute, hstep]
    rw [hroute] at hrun ⊢
    obtain ⟨salt, h, _, _, hres⟩ := register_created pool1 bcrypt1 _ db r hrun hstatus
    have hdb := congrArg Prod.fst hres
    simp only at hdb
    have hnone : (run (register pool1 bcrypt1 (userValidationRules lib req).2)
        db).2.1.usersByEmail (loginReq.body.get "email") = [] := by
      rw [hdb, hsame]
      simp only [Db.insertUser, Db.usersByEmail, List.filter_append] at hfree ⊢
      rw [hfree]
      simp [List.filter_cons, sqlTextEq, hchanged]
    exact congrArg Prod.fst (login_no_user pool2 bcrypt2 jwt loginReq _ (hpool _ _) hnone)

/-- The sample registration passes every rule, and the sanitized body holds
the lower-cased email. -/
theorem Sample.register_validation :
    userValidationRules Sample.lib (Sample.registerReq "Alice Margaret Smithson"
        "Alice@Example.com" "Secret!Pass1" "1 Main St" Value.undefined)
      = ([], ⟨none, [("address", Value.str "1 Main St"),
          ("email", Value.str "alice@example.com"),
          ("name", Value.str "Alice Margaret Smithson"), ("password", Value.str "Secret!Pass1"),
          ("role", Value.undefined)], [], []⟩) := by
  rfl

/-- C10, failing input: the registration of `Alice@Example.com` on empty
tables passes validation and is answered 201, the stored email being
`alice@example.com`; the login sent right after with the same email string and
the same password is answered 400 'Invalid credentials.'. -/
theorem login_after_register_mixed_case_email :
    run (registerRoute Sample.lib (Sample.pool 1) Sample.bcrypt
        (Sample.registerReq "Alice Margaret Smithson" "Alice@Example.com" "Secret!Pass1"
          "1 Main St" Value.undefined)) Sample.emptyDb
      = (Except.ok { status := 201, body := ResBody.json (Json.obj
          [("msg", Json.val (Value.str "User registered successfully!")),
           ("user", Json.obj [("id", Json.val (idVal 1)),
              ("name", Json.val (Value.str "Alice Margaret Smithson")),
              ("email", Json.val (Value.str "alice@example.com")),
              ("role", Json.val (Value.str "Normal User"))])]) },
          Sample.registeredDb,
          [⟨sqlSelectUserByEmail, [Value.str "alice@example.com"]⟩,
           ⟨sqlInsertUser, [Value.str "Alice Margaret Smithson", Value.str "alice@example.com",
              Value.str "hashed:Secret!Pass1", Value.str "1 Main St"]⟩]) ∧
    run (login (Sample.pool 2) Sample.bcrypt Sample.jwt
        (Sample.loginReq "Alice@Example.com" "Secret!Pass1")) Sample.registeredDb
      = (Except.ok (msgResponse 400 "Invalid credentials."), Sample.registeredDb,
          [⟨sqlSelectUserByEmail, [Value.str "Alice@Example.com"]⟩]) := by
  constructor
  · have hroute : registerRoute Sample.lib (Sample.pool 1) Sample.bcrypt
        (Sample.registerReq "Alice Margaret Smithson" "Alice@Example.com" "Secret!Pass1"
          "1 Main St" Value.undefined)
        = register (Sample.pool 1) Sample.bcrypt
            ⟨none, [("address", Value.str "1 Main St"), ("email", Value.str "alice@example.com"),
              ("name", Value.str "Alice Margaret Smithson"),
              ("password", Value.str "Secret!Pass1"), ("role", Value.undefined)], [], []⟩ := by
      simp only [registerRoute, Sample.register_validation, handleValidationErrors]
      rfl
    rw [hroute]
    exact register_success (Sample.pool 1) Sample.bcrypt _ Sample.emptyDb "salt"
      "hashed:Secret!Pass1" rfl (by decide) rfl rfl rfl
  · exact login_no_user (Sample.pool 2) Sample.bcrypt Sample.jwt
      (Sample.loginReq "Alice@Example.com" "Secret!Pass1") Sample.registeredDb rfl (by decide)

/-! ## Password change -/

/-- Whatever the outcome of `changePassword`, the tables are as before unless
the answer is 200 'Password updated successfully.'. -/
theorem changePassword_frame (pool : Pool) (bcrypt : Bcrypt) (req : Request) (db : Db)
    (hchanged : (run (changePassword pool bcrypt req) db).2.1 ≠ db) :
    (run (changePassword pool bcrypt req) db).1
      = Except.ok (msgResponse 200 "Password updated successfully.") := by
  cases huser : req.user with
  | none =>
    exact absurd (by simp [run, changePassword, Request.userField, huser, bind, Handler.bind,
      Handler.throw]) hchanged
  | some id =>
    by_cases hf1 : pool.fails db ⟨sqlSelectPassword, [id.get "id"]⟩ = true
    · exact absurd (by simp [run, changePassword, Request.userField, huser, hf1, bind,
        Handler.bind, pure, Handler.tryCatch, Pool.query]) hchanged
    · cases hrow : db.usersById (id.get "id") with
      | nil =>
        exact absurd (by simp [run, changePassword, Request.userField, huser, hf1, hrow, bind,
          Handler.bind, pure, Handler.tryCatch, Pool.query]) hchanged
      | cons user rest =>
        by_cases hpw : truthy user.password = true
        · cases hcmp : bcrypt.compare (req.body.get "currentPassword") user.password with
          | none =>
            exact absurd (by simp [run, changePassword, Request.userField, huser, hf1, hrow, hpw,
              hcmp, bind, Handler.bind, pure, Handler.tryCatch, Pool.query, Bcrypt.compareStep,
              Handler.throw]) hchanged
          | some isMatch =>
            cases isMatch with
            | false =>
              exact absurd (by simp [run, changePassword, Request.userField, huser, hf1, hrow,
                hpw, hcmp, bind, Handler.bind, pure, Handler.tryCatch, Pool.query,
                Bcrypt.compareStep]) hchanged
            | true =>
              cases hsalt : bcrypt.genSalt 10 with
              | none =>
                exact absurd (by simp [run, changePassword, Request.userField, huser, hf1, hrow,
                  hpw, hcmp, hsalt, bind, Handler.bind, pure, Handler.tryCatch, Pool.query,
                  Bcrypt.compareStep, Bcrypt.genSaltStep, Handler.throw]) hchanged
              | some salt =>
                cases hhash : bcrypt.hash (req.body.get "newPassword") salt with
                | none =>
                  exact absurd (by simp [run, changePassword, Request.userField, huser, hf1,
                    hrow, hpw, hcmp, hsalt, hhash, bind, Handler.bind, pure, Handler.tryCatch,
                    Pool.query, Bcrypt.compareStep, Bcrypt.genSaltStep, Bcrypt.hashStep,
                    Handler.throw]) hchanged
                | some h =>
                  by_cases hf2 : pool.fails db
                      ⟨sqlUpdatePassword, [Value.str h, id.get "id"]⟩ = true
                  · exact absurd (by simp [run, changePassword, Request.userField, huser, hf1,
                      hf2, hrow, hpw, hcmp, hsalt, hhash, bind, Handler.bind, pure,
                      Handler.tryCatch, Pool.query, Bcrypt.compareStep, Bcrypt.genSaltStep,
                      Bcrypt.hashStep]) hchanged
                  · simp [run, changePassword, Request.userField, huser, hf1, hf2, hrow, hpw,
                      hcmp, hsalt, hhash, bind, Handler.bind, pure, Handler.tryCatch, Pool.query,
                      Bcrypt.compareStep, Bcrypt.genSaltStep, Bcrypt.hashStep]
        · exact absurd (by simp [run, changePassword, Request.userField, huser, hf1, hrow, hpw,
            bind, Handler.bind, pure, Handler.tryCatch, Pool.query]) hchanged

/-- C11: for an authenticated request whose lookup succeeds, `changePassword`
answers 400 'Incorrect current password.' when the stored hash of the user is
present and `currentPassword` does not match it, and 404 'User not found.'
when the user id has no row; in both cases the lookup is the only statement
issued (no update) and the tables, so the stored hash, are unchanged.  More
generally the tables only change when the answer is 200. -/
theorem changePassword_rejects (pool : Pool) (bcrypt : Bcrypt) (req : Request) (id : JObject)
    (db : Db) (huser : req.user = some id)
    (hpool : pool.fails db ⟨sqlSelectPassword, [id.get "id"]⟩ = false) :
    (∀ user rest, db.usersById (id.get "id") = user :: rest → truthy user.password = true →
      bcrypt.compare (req.body.get "currentPassword") user.password = some false →
      run (changePassword pool bcrypt req) db
        = (Except.ok (msgResponse 400 "Incorrect current password."), db,
            [⟨sqlSelectPassword, [id.get "id"]⟩])) ∧
    (db.usersById (id.get "id") = [] →
      run (changePassword pool bcrypt req) db
        = (Except.ok (msgResponse 404 "User not found."), db,
            [⟨sqlSelectPassword, [id.get "id"]⟩])) ∧
    ((run (changePassword pool bcrypt req) db).2.1 ≠ db →
      (run (changePassword pool bcrypt req) db).1
        = Except.ok (msgResponse 200 "Password updated successfully.")) := by
  refine ⟨?_, ?_, changePassword_frame pool bcrypt req db⟩
  · intro user rest hrow hpw hwrong
    simp [run, changePassword, Request.userField, huser, hpool, hrow, hpw, hwrong, bind,
      Handler.bind, pure, Handler.tryCatch, Pool.query, Bcrypt.compareStep]
  · intro hrow
    simp [run, changePassword, Request.userField, huser, hpool, hrow, bind, Handler.bind, pure,
      Handler.tryCatch, Pool.query]

/-- C11 at sample requests on the tables holding Alice (id 7): a wrong
current password, and the unknown user id 9. -/
theorem changePassword_rejects_witness :
    run (changePassword (Sample.pool 1) Sample.bcrypt
        (Sample.passwordReq 7 "Wrong!Pass1" "Fresh!Pass2")) Sample.aliceDb
      = (Except.ok (msgResponse 400 "Incorrect current password."), Sample.aliceDb,
          [⟨sqlSelectPassword, [idVal 7]⟩]) ∧
    run (changePassword (Sample.pool 1) Sample.bcrypt
        (Sample.passwordReq 9 "Secret!Pass1" "Fresh!Pass2")) Sample.aliceDb
      = (Except.ok (msgResponse 404 "User not found."), Sample.aliceDb,
          [⟨sqlSelectPassword, [idVal 9]⟩]) :=
  ⟨(changePassword_rejects (Sample.pool 1) Sample.bcrypt
      (Sample.passwordReq 7 "Wrong!Pass1" "Fresh!Pass2") [("id", idVal 7)] Sample.aliceDb
      rfl rfl).1 Sample.alice []
      (by simp [Db.usersById, Sample.aliceDb, Sample.alice, sqlEq, intColumn, toParam, idVal, lit,
        JObject.get, List.lookup])
      (by decide) (by decide),
    (changePassword_rejects (Sample.pool 1) Sample.bcrypt
      (Sample.passwordReq 9 "Secret!Pass1" "Fresh!Pass2") [("id", idVal 9)] Sample.aliceDb
      rfl rfl).2.1
      (by simp [Db.usersById, Sample.aliceDb, Sample.alice, sqlEq, intColumn, toParam, idVal, lit,
        JObject.get, List.lookup])⟩

/-- Run of `changePassword` when the user has a row with a hash, the current
password matches it and no call fails: the update is issued with the hash of
the new password. -/
theorem changePassword_success (pool : Pool) (bcrypt : Bcrypt) (req : Request) (id : JObject)
    (db : Db) (user : UserRow) (rest : List UserRow) (salt h : String)
    (huser : req.user = some id)
    (hpool1 : pool.fails db ⟨sqlSelectPassword, [id.get "id"]⟩ = false)
    (hrow : db.usersById (id.get "id") = user :: rest)
    (hpw : truthy user.password = true)
    (hmatch : bcrypt.compare (req.body.get "currentPassword") user.password = some true)
    (hsalt : bcrypt.genSalt 10 = some salt)
    (hhash : bcrypt.hash (req.body.get "newPassword") salt = some h)
    (hpool2 : pool.fails db ⟨sqlUpdatePassword, [Value.str h, id.get "id"]⟩ = false) :
    run (changePassword pool bcrypt req) db
      = (Except.ok (msgResponse 200 "Password updated successfully."),
          (Db.updatePassword (Value.str h) (id.get "id") db).2,
          [⟨sqlSelectPassword, [id.get "id"]⟩,
           ⟨sqlUpdatePassword, [Value.str h, id.get "id"]⟩]) := by
  simp [run, changePassword, Request.userField, huser, hpool1, hpool2, hrow, hpw, hmatch, hsalt,
    hhash, bind, Handler.bind, pure, Handler.tryCatch, Pool.query, Bcrypt.compareStep,
    Bcrypt.genSaltStep, Bcrypt.hashStep]

/-- Rows found by email after a password update: the rows found before, with
the new password where the id is the updated one. -/
theorem usersByEmail_updatePassword (password userId email : Value) (db : Db) :
    (Db.updatePassword password userId db).2.usersByEmail email
      = (db.usersByEmail email).map fun u =>
          if sqlEq (idVal u.id) userId then { u with password := toParam password } else u := by
  simp only [Db.updatePassword, Db.usersByEmail]
  induction db.users with
  | nil => rfl
  | cons u us ih =>
    by_cases hid : sqlEq (idVal u.id) userId = true
    · by_cases he : sqlTextEq u.email email = true
      · simp [List.filter_cons, hid, he, ih]
      · simp [List.filter_cons, hid, he, ih]
    · by_cases he : sqlTextEq u.email email = true
      · simp [List.filter_cons, hid, he, ih]
      · simp [List.filter_cons, hid, he, ih]

/-- C12: after a `changePassword` call with the correct current password and a
different new password, every row with the user's id (and no other row) holds
the hash of the new password; a following login with the new password is
answered 200 with a token and a following login with the old password is
answered 400 'Invalid credentials.', assuming `bcrypt.compare` accepts exactly
the plaintext a hash was made from. -/
theorem changePassword_then_login (pool1 pool2 pool3 : Pool) (bcrypt : Bcrypt) (jwt : Jwt)
    (req loginNew loginOld : Request) (id : JObject) (db : Db) (user : UserRow)
    (rest rest2 : List UserRow) (email : Value) (old new salt h token : String)
    (huser : req.user = some id)
    (hcur : req.body.get "currentPassword" = Value.str old)
    (hnew : req.body.get "newPassword" = Value.str new)
    (hne : new ≠ old)
    (hrow : db.usersById (id.get "id") = user :: rest)
    (hpw : truthy user.password = true)
    (hmatch : bcrypt.compare (Value.str old) user.password = some true)
    (hsalt : bcrypt.genSalt 10 = some salt)
    (hhash : bcrypt.hash (Value.str new) salt = some h)
    (hlaw : ∀ (p q s o : String), bcrypt.hash (Value.str p) s = some o →
      bcrypt.compare (Value.str q) (Value.str o) = some (decide (q = p)))
    (hpool1 : ∀ d st, pool1.fails d st = false)
    (hpool2 : ∀ d st, pool2.fails d st = false)
    (hpool3 : ∀ d st, pool3.fails d st = false)
    (hemail : db.usersByEmail email = user :: rest2)
    (hloginNew : loginNew.body.get "email" = email ∧
      loginNew.body.get "password" = Value.str new)
    (hloginOld : loginOld.body.get "email" = email ∧
      loginOld.body.get "password" = Value.str old)
    (hsign : jwt.sign (loginPayload user) jwt.secret loginSignOptions
      = SignOutcome.token token) :
    (run (changePassword pool1 bcrypt req) db).1
      = Except.ok (msgResponse 200 "Password updated successfully.") ∧
    (run (changePassword pool1 bcrypt req) db).2.1
      = { db with users := db.users.map fun u =>
            if sqlEq (idVal u.id) (id.get "id") then { u with password := Value.str h }
            else u } ∧
    (run (login pool2 bcrypt jwt loginNew) (run (changePassword pool1 bcrypt req) db).2.1).1
      = Except.ok { status := 200, body := ResBody.json (Json.obj
          [("msg", Json.val (Value.str "Login successful!")),
           ("token", Json.val (Value.str token)),
           ("user", user.identity)]) } ∧
    (run (login pool3 bcrypt jwt loginOld) (run (changePassword pool1 bcrypt req) db).2.1).1
      = Except.ok (msgResponse 400 "Invalid credentials.") := by
  have hrun := changePassword_success pool1 bcrypt req id db user rest salt h huser
    (hpool1 _ _) hrow hpw (by rw [hcur]; exact hmatch) hsalt (by rw [hnew]; exact hhash)
    (hpool1 _ _)
  have hdb : (run (changePassword pool1 bcrypt req) db).2.1
      = (Db.updatePassword (Value.str h) (id.get "id") db).2 := by rw [hrun]
  have hid : sqlEq (idVal user.id) (id.get "id") = true := by
    have hmem : user ∈ db.usersById (id.get "id") := by rw [hrow]; exact List.mem_cons_self _ _
    exact (List.mem_filter.mp hmem).2
  have hfound : (Db.updatePassword (Value.str h) (id.get "id") db).2.usersByEmail email
      = { user with password := Value.str h } :: rest2.map fun u =>
          if sqlEq (idVal u.id) (id.get "id") then { u with password := toParam (Value.str h) }
          else u := by
    rw [usersByEmail_updatePassword, hemail]
    simp [hid, toParam]
  refine ⟨by rw [hrun], ?_, ?_, ?_⟩
  · rw [hdb]; simp [Db.updatePassword, toParam]
  · rw [hdb]
    have hcmp : bcrypt.compare (loginNew.body.get "password")
        ({ user with password := Value.str h } : UserRow).password = some true := by
      rw [hloginNew.2]
      simpa using hlaw new new salt h hhash
    exact congrArg Prod.fst (login_success pool2 bcrypt jwt loginNew _ _ _ token (hpool2 _ _)
      (by rw [hloginNew.1]; exact hfound) hcmp hsign)
  · rw [hdb]
    have hcmp : bcrypt.compare (loginOld.body.get "password")
        ({ user with password := Value.str h } : UserRow).password = some false := by
      rw [hloginOld.2]
      have := hlaw new old salt h hhash
      simpa [Ne.symm hne] using this
    exact congrArg Prod.fst (login_wrong_password pool3 bcrypt jwt loginOld _ _ _ (hpool3 _ _)
      (by rw [hloginOld.1]; exact hfound) hcmp)

/-- The toy hasher compares exactly: a string matches a hash when it is the
string the hash was made from. -/
theorem Sample.bcrypt_law (p q s o : String)
    (h : Sample.bcrypt.hash (Value.str p) s = some o) :
    Sample.bcrypt.compare (Value.str q) (Value.str o) = some (decide (q = p)) := by
  simp only [Sample.bcrypt, Option.some.injEq] at h ⊢
  subst h
  by_cases hqp : q = p
  · subst hqp; simp
  · have hne : ¬ ("hashed:" ++ p = "hashed:" ++ q) := by
      intro he
      apply hqp
      have := congrArg String.data he
      simp only [String.data_append, List.append_cancel_left_eq] at this
      exact (String.ext this).symm
    simp [hqp, hne]

/-- C12 at the sample user Alice, who changes `Secret!Pass1` to `Fresh!Pass2`. -/
theorem changePassword_then_login_witness :
    (run (changePassword (Sample.pool 1) Sample.bcrypt
        (Sample.passwordReq 7 "Secret!Pass1" "Fresh!Pass2")) Sample.aliceDb).1
      = Except.ok (msgResponse 200 "Password updated successfully.") ∧
    (run (changePassword (Sample.pool 1) Sample.bcrypt
        (Sample.passwordReq 7 "Secret!Pass1" "Fresh!Pass2")) Sample.aliceDb).2.1
      = { Sample.aliceDb with
          users := Sample.aliceDb.users.map
            (fun u => if sqlEq (idVal u.id) (JObject.get [("id", idVal 7)] "id")
              then { u with password := Value.str "hashed:Fresh!Pass2" } else u) } ∧
    (run (login (Sample.pool 2) Sample.bcrypt Sample.jwt
        (Sample.loginReq "alice@example.com" "Fresh!Pass2"))
        (run (changePassword (Sample.pool 1) Sample.bcrypt
          (Sample.passwordReq 7 "Secret!Pass1" "Fresh!Pass2")) Sample.aliceDb).2.1).1
      = Except.ok { status := 200, body := ResBody.json (Json.obj
          [("msg", Json.val (Value.str "Login successful!")),
           ("token", Json.val (Value.str "signed-token")),
           ("user", Sample.alice.identity)]) } ∧
    (run (login (Sample.pool 3) Sample.bcrypt Sample.jwt
        (Sample.loginReq "alice@example.com" "Secret!Pass1"))
        (run (changePassword (Sample.pool 1) Sample.bcrypt
          (Sample.passwordReq 7 "Secret!Pass1" "Fresh!Pass2")) Sample.aliceDb).2.1).1
      = Except.ok (msgResponse 400 "Invalid credentials.") :=
  changePassword_then_login (Sample.pool 1) (Sample.pool 2) (Sample.pool 3) Sample.bcrypt
    Sample.jwt (Sample.passwordReq 7 "Secret!Pass1" "Fresh!Pass2")
    (Sample.loginReq "alice@example.com" "Fresh!Pass2")
    (Sample.loginReq "alice@example.com" "Secret!Pass1") [("id", idVal 7)] Sample.aliceDb
    Sample.alice [] [] (Value.str "alice@example.com") "Secret!Pass1" "Fresh!Pass2" "salt"
    "hashed:Fresh!Pass2" "signed-token" rfl rfl rfl (by decide)
    (by simp [Db.usersById, Sample.aliceDb, Sample.alice, sqlEq, intColumn, toParam, idVal, lit,
      JObject.get, List.lookup])
    (by decide) (by decide) rfl rfl Sample.bcrypt_law (fun _ _ => rfl) (fun _ _ => rfl)
    (fun _ _ => rfl) (by decide) ⟨rfl, rfl⟩ ⟨rfl, rfl⟩ rfl

/-! ## Filters -/

/-- Matching a pattern that starts with an ordinary character. -/
theorem likeMatch_ordinary (c : Char) (ps s : List Char) (h1 : c ≠ '%') (h2 : c ≠ '_')
    (h3 : c ≠ '\\') :
    likeMatch (c :: ps) s
      = match s with
        | [] => false
        | x :: xs => x == c && likeMatch ps xs := by
  cases s with
  | nil =>
    rw [likeMatch]
    · exact h1
    · exact h2
    · intro c2 ps2 heq _; exact h3 heq
  | cons x xs =>
    rw [likeMatch]
    · exact h1
    · exact h2
    · intro c2 ps2 heq _; exact h3 heq

/-- A pattern made of ordinary characters followed by `%` matches the texts
that start with those characters. -/
theorem likeMatch_plain (f : List Char)
    (hf : ∀ c ∈ f, c ≠ '%' ∧ c ≠ '_' ∧ c ≠ '\\') :
    ∀ t : List Char, likeMatch (f ++ ['%']) t = f.isPrefixOf t := by
  induction f with
  | nil =>
    intro t
    cases t <;> simp [likeMatch, List.tails]
  | cons c f ih =>
    intro t
    obtain ⟨h1, h2, h3⟩ := hf c (List.mem_cons_self _ _)
    have ih2 := ih (fun d hd => hf d (List.mem_cons_of_mem _ hd))
    rw [List.cons_append, likeMatch_ordinary c _ t h1 h2 h3]
    cases t with
    | nil => rfl
    | cons x xs => simp [List.isPrefixOf, ih2 xs, Bool.beq_comm]

/-- For a filter without `%`, `_` and backslash (after case folding), the
`ILIKE` clause of the handlers is the case-insensitive substring test. -/
theorem ilike_plain (lower : Char → Char) (numberToString : JSNum → String) (cell : Value)
    (f : String) (hpercent : lower '%' = '%')
    (hf : ∀ c ∈ f.toList, lower c ≠ '%' ∧ lower c ≠ '_' ∧ lower c ≠ '\\') :
    ilike lower cell (likePattern numberToString (Value.str f))
      = containsIgnoreCase lower cell f := by
  cases cell with
  | str s =>
    have hpat : (likePattern numberToString (Value.str f)).toList.map lower
        = '%' :: (f.toList.map lower ++ ['%']) := by
      simp [likePattern, interpolate, hpercent]
    simp only [ilike, containsIgnoreCase, isSubstring, hpat, likeMatch]
    congr 1
    funext t
    exact likeMatch_plain _ (by
      intro c hc
      obtain ⟨d, hd, rfl⟩ := List.mem_map.mp hc
      exact hf d hd) t
  | _ => rfl

/-- C14, failing input: `GET /admin/stores?name=_` on tables holding the store
`Corner Shop`.  The name does not contain `_`, yet the store passes the
`WHERE` clause the handler builds (the pattern is `%_%`, in which `_` stands
for any character) and the answer lists it. -/
theorem listStores_underscore_filter :
    containsIgnoreCase Sample.coll.lower Sample.cornerShop.name "_" = false ∧
    adminStoreListFilter Sample.coll Sample.noDigits (Value.str "_") Value.undefined
      Value.undefined Sample.cornerShop = true ∧
    run (listStores Sample.noDigits Sample.coll (Sample.pool 1)
        (Sample.listReq [("name", Value.str "_")])) Sample.shopDb
      = (Except.ok { status := 200, body := ResBody.json (Json.arr
          [AdminStoreRow.toJson ⟨2, Value.str "Corner Shop", Value.str "shop@example.com",
            Value.str "1 Main St", Value.null, Value.null, 0⟩]) },
          Sample.shopDb,
          [⟨sqlAdminStoreListHead ++ " WHERE s.name ILIKE $1" ++ sqlAdminStoreListTail,
            [Value.str "%_%"]⟩]) := by
  refine ⟨by decide, by decide, ?_⟩
  rfl

/-! ## The admin lists -/

/-- Every row of the left table occurs as left part of a joined row. -/
theorem exists_mem_leftJoin {α β : Type} (cond : α → β → Bool) (xs : List α) (ys : List β)
    (x : α) (hx : x ∈ xs) : ∃ p ∈ leftJoin cond xs ys, p.1 = x := by
  cases hf : ys.filter (cond x) with
  | nil =>
    refine ⟨(x, none), ?_, rfl⟩
    simp only [leftJoin, List.mem_flatMap]
    exact ⟨x, hx, by rw [hf]; simp⟩
  | cons y rest =>
    refine ⟨(x, some y), ?_, rfl⟩
    simp only [leftJoin, List.mem_flatMap]
    exact ⟨x, hx, by rw [hf]; simp⟩

/-- Every row belongs to the group of its key. -/
theorem exists_group_of_mem {ρ κ : Type} [DecidableEq κ] (key : ρ → κ) (rows : List ρ)
    (r : ρ) (hr : r ∈ rows) : ∃ g ∈ groupBy key rows, g.1 = key r ∧ r ∈ g.2 := by
  refine ⟨(key r, rows.filter fun x => decide (key x = key r)), ?_, rfl, ?_⟩
  · simp only [groupBy, List.mem_map, List.mem_dedup]
    exact ⟨key r, ⟨r, hr, rfl⟩, rfl⟩
  · simp [List.mem_filter, hr]

/-- Membership in an ordered result is membership in the rows ordered. -/
theorem mem_orderByName {ρ : Type} (le : Value → Value → Bool) (name : ρ → Value)
    (rows : List ρ) (r : ρ) : r ∈ orderByName le name rows ↔ r ∈ rows :=
  (List.perm_insertionSort _ _).mem_iff

/-- For a total and transitive collation, an ordered result is sorted by
name. -/
theorem orderByName_sorted {ρ : Type} (le : Value → Value → Bool) (name : ρ → Value)
    (htotal : ∀ a b, le a b = true ∨ le b a = true)
    (htrans : ∀ a b c, le a b = true → le b c = true → le a c = true) (rows : List ρ) :
    List.Pairwise (fun a b => le (name a) (name b) = true) (orderByName le name rows) := by
  haveI : IsTotal ρ (fun a b => le (name a) (name b) = true) := ⟨fun a b => htotal _ _⟩
  haveI : IsTrans ρ (fun a b => le (name a) (name b) = true) :=
    ⟨fun a b c hab hbc => htrans _ _ _ hab hbc⟩
  exact List.sorted_insertionSort _ rows

/-- A falsy filter adds nothing to the query being built. -/
theorem pushLike_falsy (numberToString : JSNum → String) (column : String) (v : Value)
    (b : QueryBuild) (hv : truthy v = false) : pushLike numberToString column v b = b := by
  simp [pushLike, hv]

/-- A falsy role filter adds nothing to the query being built. -/
theorem pushEq_falsy (column : String) (v : Value) (b : QueryBuild) (hv : truthy v = false) :
    pushEq column v b = b := by
  simp [pushEq, hv]

/-- A missing or empty filter is falsy. -/
theorem truthy_absent (v : Value) (hv : v = Value.undefined ∨ v = Value.str "") :
    truthy v = false := by
  rcases hv with rfl | rfl <;> rfl

/-- The unfiltered user list holds a row for every user of the table, and
every row of it shows a user of the table. -/
theorem adminUserList_unfiltered (db : Db) (le : Value → Value → Bool) :
    (∀ u ∈ db.users, ∃ row ∈ db.adminUserList le (fun _ => true),
      row.id = u.id ∧ row.name = u.name ∧ row.email = u.email ∧ row.address = u.address
        ∧ row.role = u.role) ∧
    (∀ row ∈ db.adminUserList le (fun _ => true), ∃ u ∈ db.users,
      row.id = u.id ∧ row.name = u.name ∧ row.email = u.email ∧ row.address = u.address
        ∧ row.role = u.role) := by
  constructor
  · intro u hu
    obtain ⟨p1, hp1, hp1u⟩ := exists_mem_leftJoin
      (fun (u : UserRow) (s : StoreRow) => colEq (idVal u.id) s.owner_id) db.users db.stores u hu
    obtain ⟨p2, hp2, hp2p⟩ := exists_mem_leftJoin
      (fun (p : UserRow × Option StoreRow) (r : RatingRow) => storeMatches p.2 r) _ db.ratings
      p1 hp1
    have hp2f : p2 ∈ (leftJoin
        (fun (p : UserRow × Option StoreRow) (r : RatingRow) => storeMatches p.2 r)
        (leftJoin (fun (u : UserRow) (s : StoreRow) => colEq (idVal u.id) s.owner_id)
          db.users db.stores) db.ratings).filter (fun _ => true) := by
      simpa using hp2
    obtain ⟨g, hg, hkey, _⟩ := exists_group_of_mem
      (fun (p : (UserRow × Option StoreRow) × Option RatingRow) =>
        (p.1.1.id, p.1.1.name, p.1.1.email, p.1.1.address, p.1.1.role, storeNameCell p.1.2))
      _ p2 hp2f
    refine ⟨_, (mem_orderByName _ _ _ _).mpr (List.mem_map.mpr ⟨g, hg, rfl⟩), ?_⟩
    simp only [hkey, hp2p, hp1u, and_self]
  · intro row hrow
    obtain ⟨g, hg, rfl⟩ := List.mem_map.mp ((mem_orderByName _ _ _ _).mp hrow)
    obtain ⟨⟨p, hp, hkey⟩, _⟩ := mem_groupBy _ _ g hg
    have hp2 := (List.mem_filter.mp hp).1
    have hp1 := fst_mem_of_mem_leftJoin _ _ _ p hp2
    have hu := fst_mem_of_mem_leftJoin _ _ _ p.1 hp1
    refine ⟨p.1.1, hu, ?_⟩
    simp only [← hkey, and_self]

/-- The unfiltered admin store list holds a row for every store of the table,
and every row of it shows a store of the table. -/
theorem adminStoreList_unfiltered (db : Db) (le : Value → Value → Bool) :
    (∀ s ∈ db.stores, ∃ row ∈ db.adminStoreList le (fun _ => true),
      row.id = s.id ∧ row.name = s.name ∧ row.email = s.email ∧ row.address = s.address
        ∧ row.owner_id = s.owner_id) ∧
    (∀ row ∈ db.adminStoreList le (fun _ => true), ∃ s ∈ db.stores,
      row.id = s.id ∧ row.name = s.name ∧ row.email = s.email ∧ row.address = s.address
        ∧ row.owner_id = s.owner_id) := by
  constructor
  · intro s hs
    obtain ⟨p1, hp1, hp1s⟩ := exists_mem_leftJoin
      (fun (s : StoreRow) (r : RatingRow) => colEq (idVal s.id) r.store_id) db.stores db.ratings
      s hs
    obtain ⟨p2, hp2, hp2p⟩ := exists_mem_leftJoin
      (fun (p : StoreRow × Option RatingRow) (u : UserRow) => colEq p.1.owner_id (idVal u.id))
      _ db.users p1 hp1
    have hp2f : p2 ∈ (leftJoin
        (fun (p : StoreRow × Option RatingRow) (u : UserRow) => colEq p.1.owner_id (idVal u.id))
        (leftJoin (fun (s : StoreRow) (r : RatingRow) => colEq (idVal s.id) r.store_id)
          db.stores db.ratings) db.users).filter (fun _ => true) := by
      simpa using hp2
    obtain ⟨g, hg, hkey, _⟩ := exists_group_of_mem
      (fun (p : (StoreRow × Option RatingRow) × Option UserRow) =>
        (p.1.1.id, p.1.1.name, p.1.1.email, p.1.1.address, p.1.1.owner_id, nameCell p.2))
      _ p2 hp2f
    refine ⟨_, (mem_orderByName _ _ _ _).mpr (List.mem_map.mpr ⟨g, hg, rfl⟩), ?_⟩
    simp only [hkey, hp2p, hp1s, and_self]
  · intro row hrow
    obtain ⟨g, hg, rfl⟩ := List.mem_map.mp ((mem_orderByName _ _ _ _).mp hrow)
    obtain ⟨⟨p, hp, hkey⟩, _⟩ := mem_groupBy _ _ g hg
    have hp2 := (List.mem_filter.mp hp).1
    have hp1 := fst_mem_of_mem_leftJoin _ _ _ p hp2
    have hs := fst_mem_of_mem_leftJoin _ _ _ p.1 hp1
    refine ⟨p.1.1, hs, ?_⟩
    simp only [← hkey, and_self]

/-- With every filter falsy, the `WHERE` clause of the user list lets every
user through. -/
theorem userListFilter_falsy (coll : Collation) (numberToString : JSNum → String)
    (name email role : Value) (hname : truthy name = false) (hemail : truthy email = false)
    (hrole : truthy role = false) :
    userListFilter coll numberToString name email role = fun _ => true := by
  funext u
  simp [userListFilter, likeFilter, eqFilter, hname, hemail, hrole]

/-- With every filter falsy, the `WHERE` clause of the admin store list lets
every store through. -/
theorem adminStoreListFilter_falsy (coll : Collation) (numberToString : JSNum → String)
    (name email address : Value) (hname : truthy name = false) (hemail : truthy email = false)
    (haddress : truthy address = false) :
    adminStoreListFilter coll numberToString name email address = fun _ => true := by
  funext s
  simp [adminStoreListFilter, likeFilter, hname, hemail, haddress]

set_option maxRecDepth 20000 in
/-- The user list query text without filter holds no `WHERE`. -/
theorem sqlUserList_no_where :
    isSubstring "WHERE".toList (sqlUserListHead ++ sqlUserListTail).toList = false := by
  decide

set_option maxRecDepth 20000 in
/-- The admin store list query text without filter holds no `WHERE`. -/
theorem sqlAdminStoreList_no_where :
    isSubstring "WHERE".toList (sqlAdminStoreListHead ++ sqlAdminStoreListTail).toList
      = false := by
  decide

/-- C15: when the filters `name`, `email`, `role` and `address` of the request
are missing or empty, `listUsers` and `listStores` issue their query text
without a `WHERE` clause and with no parameter, and answer with the full list:
a row for every user (resp. store) of the table and no other row, ordered by
name for a total and transitive collation. -/
theorem unfiltered_admin_lists (numberToString : JSNum → String) (coll : Collation)
    (pool : Pool) (req : Request) (db : Db)
    (hname : req.query.get "name" = Value.undefined ∨ req.query.get "name" = Value.str "")
    (hemail : req.query.get "email" = Value.undefined ∨ req.query.get "email" = Value.str "")
    (hrole : req.query.get "role" = Value.undefined ∨ req.query.get "role" = Value.str "")
    (haddress : req.query.get "address" = Value.undefined
      ∨ req.query.get "address" = Value.str "")
    (hpool : ∀ d st, pool.fails d st = false)
    (htotal : ∀ a b, coll.le a b = true ∨ coll.le b a = true)
    (htrans : ∀ a b c, coll.le a b = true → coll.le b c = true → coll.le a c = true) :
    (run (listUsers numberToString coll pool req) db
      = (Except.ok { status := 200, body := ResBody.json (Json.arr
          ((db.adminUserList coll.le (fun _ => true)).map AdminUserRow.toJson)) }, db,
          [⟨sqlUserListHead ++ sqlUserListTail, []⟩]) ∧
      isSubstring "WHERE".toList (sqlUserListHead ++ sqlUserListTail).toList = false ∧
      (∀ u ∈ db.users, ∃ row ∈ db.adminUserList coll.le (fun _ => true),
        row.id = u.id ∧ row.name = u.name ∧ row.email = u.email ∧ row.address = u.address
          ∧ row.role = u.role) ∧
      (∀ row ∈ db.adminUserList coll.le (fun _ => true), ∃ u ∈ db.users,
        row.id = u.id ∧ row.name = u.name ∧ row.email = u.email ∧ row.address = u.address
          ∧ row.role = u.role) ∧
      List.Pairwise (fun a b : AdminUserRow => coll.le a.name b.name = true)
        (db.adminUserList coll.le (fun _ => true))) ∧
    (run (listStores numberToString coll pool req) db
      = (Except.ok { status := 200, body := ResBody.json (Json.arr
          ((db.adminStoreList coll.le (fun _ => true)).map AdminStoreRow.toJson)) }, db,
          [⟨sqlAdminStoreListHead ++ sqlAdminStoreListTail, []⟩]) ∧
      isSubstring "WHERE".toList (sqlAdminStoreListHead ++ sqlAdminStoreListTail).toList
        = false ∧
      (∀ s ∈ db.stores, ∃ row ∈ db.adminStoreList coll.le (fun _ => true),
        row.id = s.id ∧ row.name = s.name ∧ row.email = s.email ∧ row.address = s.address
          ∧ row.owner_id = s.owner_id) ∧
      (∀ row ∈ db.adminStoreList coll.le (fun _ => true), ∃ s ∈ db.stores,
        row.id = s.id ∧ row.name = s.name ∧ row.email = s.email ∧ row.address = s.address
          ∧ row.owner_id = s.owner_id) ∧
      List.Pairwise (fun a b : AdminStoreRow => coll.le a.name b.name = true)
        (db.adminStoreList coll.le (fun _ => true))) := by
  have tn := truthy_absent _ hname
  have te := truthy_absent _ hemail
  have tr := truthy_absent _ hrole
  have ta := truthy_absent _ haddress
  refine ⟨⟨?_, sqlUserList_no_where, (adminUserList_unfiltered db coll.le).1,
      (adminUserList_unfiltered db coll.le).2, orderByName_sorted _ _ htotal htrans _⟩,
    ⟨?_, sqlAdminStoreList_no_where, (adminStoreList_unfiltered db coll.le).1,
      (adminStoreList_unfiltered db coll.le).2, orderByName_sorted _ _ htotal htrans _⟩⟩
  · simp [run, listUsers, pushLike_falsy, pushEq_falsy, tn, te, tr, whereText,
      userListFilter_falsy, hpool, bind, Handler.bind, pure, Handler.tryCatch, Pool.query]
  · simp [run, listStores, pushLike_falsy, tn, te, ta, whereText,
      adminStoreListFilter_falsy, hpool, bind, Handler.bind, pure, Handler.tryCatch, Pool.query]

/-- The toy collation is total. -/
theorem Sample.coll_total (a b : Value) :
    Sample.coll.le a b = true ∨ Sample.coll.le b a = true := by
  cases a <;> cases b <;> simp [Sample.coll, le_total]

/-- The toy collation is transitive. -/
theorem Sample.coll_trans (a b c : Value) (hab : Sample.coll.le a b = true)
    (hbc : Sample.coll.le b c = true) : Sample.coll.le a c = true := by
  cases a <;> cases b <;> cases c <;>
    first
    | rfl
    | (simp [Sample.coll] at hab; done)
    | (simp [Sample.coll] at hbc; done)
    | (simp only [Sample.coll, decide_eq_true_eq] at hab hbc ⊢; exact le_trans hab hbc)

/-- C15 at the sample request without query string, on the tables holding the
store `Corner Shop`. -/
theorem unfiltered_admin_lists_witness :
    run (listStores Sample.noDigits Sample.coll (Sample.pool 1) (Sample.listReq []))
        Sample.shopDb
      = (Except.ok { status := 200, body := ResBody.json (Json.arr
          ((Sample.shopDb.adminStoreList Sample.coll.le (fun _ => true)).map
            AdminStoreRow.toJson)) }, Sample.shopDb,
          [⟨sqlAdminStoreListHead ++ sqlAdminStoreListTail, []⟩]) ∧
    (∀ s ∈ Sample.shopDb.stores,
      ∃ row ∈ Sample.shopDb.adminStoreList Sample.coll.le (fun _ => true),
        row.id = s.id ∧ row.name = s.name ∧ row.email = s.email ∧ row.address = s.address
          ∧ row.owner_id = s.owner_id) :=
  ⟨(unfiltered_admin_lists Sample.noDigits Sample.coll (Sample.pool 1) (Sample.listReq [])
      Sample.shopDb (Or.inl rfl) (Or.inl rfl) (Or.inl rfl) (Or.inl rfl) (fun _ _ => rfl)
      Sample.coll_total Sample.coll_trans).2.1,
    (unfiltered_admin_lists Sample.noDigits Sample.coll (Sample.pool 1) (Sample.listReq [])
      Sample.shopDb (Or.inl rfl) (Or.inl rfl) (Or.inl rfl) (Or.inl rfl) (fun _ _ => rfl)
      Sample.coll_total Sample.coll_trans).2.2.2.1⟩

/-! ## The owner dashboard -/

/-- Run of the owner dashboard when no statement fails and a store is owned. -/
theorem ownerDashboard_found (pool : Pool) (req : Request) (id : JObject) (db : Db)
    (store : StoreRow) (rest : List StoreRow) (huser : req.user = some id)
    (hpool : ∀ d st, pool.fails d st = false)
    (hsel : db.stores.filter (fun s => sqlEq s.owner_id (id.get "id")) = store :: rest) :
    run (ownerDashboard pool req) db
      = (Except.ok { status := 200, body := ResBody.json (Json.obj
          [("storeName", Json.val store.name),
           ("averageRating", Json.val (lit (db.averageFor (idVal store.id)))),
           ("raters", Json.arr ((db.raters (idVal store.id)).map RaterRow.toJson))]) }, db,
          [⟨sqlSelectOwnedStore, [id.get "id"]⟩, ⟨sqlSelectAverage, [idVal store.id]⟩,
           ⟨sqlSelectRaters, [idVal store.id]⟩]) := by
  simp [run, ownerDashboard, Request.userField, huser, hpool, hsel, bind, Handler.bind, pure,
    Handler.tryCatch, Pool.query]

/-- Run of the owner dashboard when no statement fails and no store is
owned. -/
theorem ownerDashboard_not_found (pool : Pool) (req : Request) (id : JObject) (db : Db)
    (huser : req.user = some id) (hpool : ∀ d st, pool.fails d st = false)
    (hsel : db.stores.filter (fun s => sqlEq s.owner_id (id.get "id")) = []) :
    run (ownerDashboard pool req) db
      = (Except.ok (msgResponse 404 "You do not own a store."), db,
          [⟨sqlSelectOwnedStore, [id.get "id"]⟩]) := by
  simp [run, ownerDashboard, Request.userField, huser, hpool, hsel, bind, Handler.bind, pure,
    Handler.tryCatch, Pool.query]

/-- A list of one-element lists flattens to the list of the elements. -/
theorem flatMap_singleton {α β : Type} (l : List α) (f : α → List β) (g : α → β)
    (h : ∀ a ∈ l, f a = [g a]) : l.flatMap f = l.map g := by
  induction l with
  | nil => rfl
  | cons a l ih =>
    simp only [List.flatMap_cons, List.map_cons, h a (List.mem_cons_self _ _)]
    rw [ih (fun b hb => h b (List.mem_cons_of_mem _ hb))]
    rfl

/-- The raters of a store are listed most recent first. -/
theorem raters_sorted (db : Db) (storeId : Value) :
    List.Pairwise (fun a b : RaterRow => b.created_at ≤ a.created_at) (db.raters storeId) := by
  haveI : IsTotal RaterRow (fun a b => b.created_at ≤ a.created_at) :=
    ⟨fun a b => Nat.le_total _ _⟩
  haveI : IsTrans RaterRow (fun a b => b.created_at ≤ a.created_at) :=
    ⟨fun a b c hab hbc => Nat.le_trans hbc hab⟩
  exact List.sorted_insertionSort _ _

/-- When every rating of the store has exactly one user row for its
`user_id`, the raters are, up to order, one entry per rating with the name and
email of that user. -/
theorem raters_perm (db : Db) (storeId : Value) (rater : RatingRow → UserRow)
    (h : ∀ r ∈ db.ratingsOf storeId,
      db.users.filter (fun u => colEq r.user_id (idVal u.id)) = [rater r]) :
    (db.raters storeId).Perm ((db.ratingsOf storeId).map fun r =>
      ⟨(rater r).name, (rater r).email, r.rating, r.created_at⟩) := by
  refine (List.perm_insertionSort _ _).trans ?_
  rw [flatMap_singleton (db.ratingsOf storeId) _
    (fun r => (⟨(rater r).name, (rater r).email, r.rating, r.created_at⟩ : RaterRow))]
  intro r hr
  rw [h r hr]
  rfl

/-- C16: for an authenticated request and a pool that rejects nothing, the
owner dashboard answers 404 'You do not own a store.' exactly when no store
has the requester's id as `owner_id`; otherwise it answers with the name of
the first such store, the average `averageFor` gives for it and its raters,
which are listed most recent first and are one `{ name, email, rating }` entry
per rating of the store, taken from the user with the rating's `user_id`
(when each rating has exactly one such user). -/
theorem ownerDashboard_spec (pool : Pool) (req : Request) (id : JObject) (db : Db)
    (huser : req.user = some id) (hpool : ∀ d st, pool.fails d st = false) :
    ((run (ownerDashboard pool req) db).1
        = Except.ok (msgResponse 404 "You do not own a store.") ↔
      db.stores.filter (fun s => sqlEq s.owner_id (id.get "id")) = []) ∧
    (∀ store rest,
      db.stores.filter (fun s => sqlEq s.owner_id (id.get "id")) = store :: rest →
      (run (ownerDashboard pool req) db).1
        = Except.ok { status := 200, body := ResBody.json (Json.obj
            [("storeName", Json.val store.name),
             ("averageRating", Json.val (lit (db.averageFor (idVal store.id)))),
             ("raters", Json.arr ((db.raters (idVal store.id)).map RaterRow.toJson))]) } ∧
      List.Pairwise (fun a b : RaterRow => b.created_at ≤ a.created_at)
        (db.raters (idVal store.id)) ∧
      ∀ rater : RatingRow → UserRow,
        (∀ r ∈ db.ratingsOf (idVal store.id),
          db.users.filter (fun u => colEq r.user_id (idVal u.id)) = [rater r]) →
        (db.raters (idVal store.id)).Perm ((db.ratingsOf (idVal store.id)).map fun r =>
          ⟨(rater r).name, (rater r).email, r.rating, r.created_at⟩)) := by
  constructor
  · constructor
    · intro h404
      cases hsel : db.stores.filter (fun s => sqlEq s.owner_id (id.get "id")) with
      | nil => rfl
      | cons store rest =>
        have h := congrArg Prod.fst (ownerDashboard_found pool req id db store rest huser hpool hsel)
        rw [h404] at h
        simp only [Except.ok.injEq] at h
        have hs := congrArg Response.status h
        simp [msgResponse] at hs
    · intro hsel
      exact congrArg Prod.fst (ownerDashboard_not_found pool req id db huser hpool hsel)
  · intro store rest hsel
    exact ⟨congrArg Prod.fst (ownerDashboard_found pool req id db store rest huser hpool hsel),
      raters_sorted db _, fun rater h => raters_perm db _ rater h⟩

/-- C16 at the sample dashboard of Alice, owner of `Corner Shop`, and of Bob,
who owns no store. -/
theorem ownerDashboard_spec_witness :
    (run (ownerDashboard (Sample.pool 1) (Sample.asUser 7)) Sample.ownedDb).1
      = Except.ok { status := 200, body := ResBody.json (Json.obj
          [("storeName", Json.val (Value.str "Corner Shop")),
           ("averageRating", Json.val (lit (Sample.ownedDb.averageFor (idVal 2)))),
           ("raters", Json.arr ((Sample.ownedDb.raters (idVal 2)).map RaterRow.toJson))]) } ∧
    (run (ownerDashboard (Sample.pool 1) (Sample.asUser 8)) Sample.ownedDb).1
      = Except.ok (msgResponse 404 "You do not own a store.") :=
  ⟨((ownerDashboard_spec (Sample.pool 1) (Sample.asUser 7) [("id", idVal 7)] Sample.ownedDb
      rfl (fun _ _ => rfl)).2 ⟨2, Value.str "Corner Shop", Value.str "shop@example.com",
        Value.str "1 Main St", idVal 7⟩ []
      (by simp [Sample.ownedDb, sqlEq, intColumn, toParam, idVal, lit, JObject.get, List.lookup])).1,
    (ownerDashboard_spec (Sample.pool 1) (Sample.asUser 8) [("id", idVal 8)] Sample.ownedDb
      rfl (fun _ _ => rfl)).1.mpr
      (by simp [Sample.ownedDb, sqlEq, intColumn, toParam, idVal, lit, JObject.get, List.lookup])⟩

/-! ## The store list -/

/-- Rows built from the groups of `GROUP BY`: when the keys of the joined rows
are the keys `k x` of the rows `x` of a table `xs`, and these are distinct,
there is, up to order, one group per row of `xs`. -/
theorem groupBy_map_perm {ρ κ α β : Type} [DecidableEq κ] (key : ρ → κ) (rows : List ρ)
    (xs : List α) (k : α → κ) (mk : κ × List ρ → β)
    (hsub : ∀ r ∈ rows, ∃ x ∈ xs, key r = k x)
    (hsup : ∀ x ∈ xs, ∃ r ∈ rows, key r = k x)
    (hnodup : (xs.map k).Nodup) :
    ((groupBy key rows).map mk).Perm
      (xs.map fun x => mk (k x, rows.filter fun r => decide (key r = k x))) := by
  have hkeys : ((rows.map key).dedup).Perm (xs.map k) := by
    rw [List.perm_ext_iff_of_nodup (List.nodup_dedup _) hnodup]
    intro a
    simp only [List.mem_dedup, List.mem_map]
    constructor
    · rintro ⟨r, hr, rfl⟩
      obtain ⟨x, hx, hk⟩ := hsub r hr
      exact ⟨x, hx, hk.symm⟩
    · rintro ⟨x, hx, rfl⟩
      obtain ⟨r, hr, hk⟩ := hsup x hx
      exact ⟨r, hr, hk⟩
  have h := hkeys.map (fun c => mk (c, rows.filter fun r => decide (key r = c)))
  simpa [groupBy, List.map_map, Function.comp_def] using h

/-- In a table with distinct ids, the rows that share the grouping key of a
row `x` of the table are `x` alone. -/
theorem filter_key_eq_self {α κ : Type} [DecidableEq κ] (rowId : α → Nat) (xs : List α)
    (hids : (xs.map rowId).Nodup) (key : α → κ)
    (hkey : ∀ a b : α, key a = key b → rowId a = rowId b) (x : α) (hx : x ∈ xs) :
    xs.filter (fun a => decide (key a = key x)) = [x] := by
  induction xs with
  | nil => simp at hx
  | cons y ys ih =>
    simp only [List.map_cons, List.nodup_cons, List.mem_map, not_exists, not_and] at hids
    rcases List.mem_cons.mp hx with rfl | hmem
    · have hrest : ys.filter (fun a => decide (key a = key x)) = [] := by
        apply List.filter_eq_nil_iff.mpr
        intro a ha hka
        exact hids.1 a ha (hkey a x (by simpa using hka))
      simp [List.filter_cons, hrest]
    · have hy : ¬ key y = key x := fun hk => hids.1 x hmem (hkey y x hk).symm
      simp [List.filter_cons, hy, ih hids.2 hmem]

/-- With distinct store ids, the group of a store that passes the `WHERE`
clause holds the joined rows of that store alone. -/
theorem storeRatings_group (db : Db) (keep : StoreRow → Bool)
    (hids : (db.stores.map fun s => s.id).Nodup) (s : StoreRow)
    (hs : s ∈ db.stores.filter keep) :
    (db.storeRatings keep).filter
        (fun p => decide ((p.1.id, p.1.name, p.1.address) = (s.id, s.name, s.address)))
      = leftJoin (fun s r => colEq (idVal s.id) r.store_id) [s] db.ratings := by
  have hjoin : db.storeRatings keep
      = leftJoin (fun s r => colEq (idVal s.id) r.store_id) (db.stores.filter keep)
          db.ratings := filter_leftJoin _ keep db.stores db.ratings
  have hnd : ((db.stores.filter keep).map fun s => s.id).Nodup :=
    List.Nodup.sublist (List.Sublist.map _ (List.filter_sublist _)) hids
  have hsingle := filter_key_eq_self (fun s : StoreRow => s.id) (db.stores.filter keep) hnd
    (fun s => (s.id, s.name, s.address)) (fun a b hab => congrArg Prod.fst hab) s hs
  have hfil := filter_leftJoin
    (fun (s : StoreRow) (r : RatingRow) => colEq (idVal s.id) r.store_id)
    (fun a => decide ((a.id, a.name, a.address) = (s.id, s.name, s.address)))
    (db.stores.filter keep) db.ratings
  rw [hjoin, hfil, hsingle]

/-- The scalar subquery of the store list when the user has at most one
rating of the store: that rating, or `NULL`. -/
theorem userRating_of_le_one (db : Db) (userId : Value) (storeId : Nat)
    (h : (db.selectRating userId (idVal storeId)).length ≤ 1) :
    db.userRating userId storeId
      = some (match db.selectRating userId (idVal storeId) with
        | [] => Value.null
        | r :: _ => r.rating) := by
  simp only [Db.userRating]
  cases hsel : db.selectRating userId (idVal storeId) with
  | nil => rfl
  | cons r rest =>
    cases rest with
    | nil => rfl
    | cons r2 rest2 => rw [hsel] at h; simp at h

/-- The store list query with distinct store ids, for a user with at most one
rating per store: it succeeds and holds, up to order, one row per store that
passes the `WHERE` clause, with the store's average and the user's rating. -/
theorem storeList_rows (db : Db) (le : Value → Value → Bool) (keep : StoreRow → Bool)
    (userId : Value) (hids : (db.stores.map fun s => s.id).Nodup)
    (hone : ∀ s ∈ db.stores, (db.selectRating userId (idVal s.id)).length ≤ 1) :
    ∃ rows, db.storeList le keep userId = some rows ∧
      rows.Perm ((db.stores.filter keep).map fun s =>
        ⟨s.id, s.name, s.address, db.averageFor (idVal s.id),
          match db.selectRating userId (idVal s.id) with
          | [] => Value.null
          | r :: _ => r.rating⟩) := by
  have hjoin : db.storeRatings keep
      = leftJoin (fun s r => colEq (idVal s.id) r.store_id) (db.stores.filter keep)
          db.ratings := filter_leftJoin _ keep db.stores db.ratings
  have hsub : ∀ p ∈ db.storeRatings keep, ∃ s ∈ db.stores.filter keep,
      (p.1.id, p.1.name, p.1.address) = (s.id, s.name, s.address) := by
    intro p hp
    rw [hjoin] at hp
    exact ⟨p.1, fst_mem_of_mem_leftJoin _ _ _ p hp, rfl⟩
  have hsup : ∀ s ∈ db.stores.filter keep, ∃ p ∈ db.storeRatings keep,
      (p.1.id, p.1.name, p.1.address) = (s.id, s.name, s.address) := by
    intro s hs
    obtain ⟨p, hp, hps⟩ := exists_mem_leftJoin
      (fun (s : StoreRow) (r : RatingRow) => colEq (idVal s.id) r.store_id) _ db.ratings s hs
    rw [← hjoin] at hp
    exact ⟨p, hp, by rw [hps]⟩
  have hall : (db.storeListGroups keep).all
      (fun g => (db.userRating userId g.1.1).isSome) = true := by
    rw [List.all_eq_true]
    intro g hg
    obtain ⟨⟨p, hp, hkey⟩, _⟩ := mem_groupBy _ _ g hg
    obtain ⟨s, hs, hps⟩ := hsub p hp
    have hid : g.1.1 = s.id := by rw [← hkey, hps]
    rw [hid, userRating_of_le_one db userId s.id (hone s (List.mem_filter.mp hs).1)]
    rfl
  have hsome : db.storeList le keep userId
      = some (orderByName le (fun row => row.name)
          ((db.storeListGroups keep).map fun g =>
            ({ id := g.1.1, name := g.1.2.1, address := g.1.2.2,
               average_rating := avgRating (g.2.map fun p => ratingCell p.2),
               user_rating := (db.userRating userId g.1.1).getD Value.null } :
              StoreListRow))) := by
    simp only [Db.storeList, hall, if_true]
  refine ⟨_, hsome, ?_⟩
  refine (List.perm_insertionSort _ _).trans ?_
  have hnodup : ((db.stores.filter keep).map
      fun s : StoreRow => (s.id, s.name, s.address)).Nodup := by
    apply List.Nodup.of_map Prod.fst
    rw [List.map_map]
    exact List.Nodup.sublist (List.Sublist.map _ (List.filter_sublist _)) hids
  refine (groupBy_map_perm _ (db.storeRatings keep) (db.stores.filter keep)
    (fun s : StoreRow => (s.id, s.name, s.address)) _ hsub hsup hnodup).trans ?_
  apply List.Perm.of_eq
  apply List.map_congr_left
  intro s hs
  simp only [storeRatings_group db keep hids s hs, avgRating_leftJoin_single,
    userRating_of_le_one db userId s.id (hone s (List.mem_filter.mp hs).1), Option.getD_some]
  simp only [Db.averageFor, Db.ratingsOf, colEq_idVal]

/-- For a total and transitive collation, the rows of the store list are
sorted by name. -/
theorem storeList_sorted (db : Db) (le : Value → Value → Bool) (keep : StoreRow → Bool)
    (userId : Value) (rows : List StoreListRow)
    (htotal : ∀ a b, le a b = true ∨ le b a = true)
    (htrans : ∀ a b c, le a b = true → le b c = true → le a c = true)
    (h : db.storeList le keep userId = some rows) :
    List.Pairwise (fun a b : StoreListRow => le a.name b.name = true) rows := by
  simp only [Db.storeList] at h
  split at h
  · simp only [Option.some.injEq] at h
    subst h
    exact orderByName_sorted le _ htotal htrans _
  · exact absurd h (by simp)

/-- C13: with distinct store ids and at most one rating of the requesting user
per store, `listStoresForUser` answers 200 with rows that are, up to order,
exactly one row per store passing the filters, each with the store's id, name
and address, the average `averageFor` gives over all its ratings, and as
`user_rating` the requesting user's rating of the store or `null` when there
is none; the rows are sorted by store name (for a total and transitive
collation). -/
theorem listStoresForUser_spec (numberToString : JSNum → String) (coll : Collation)
    (pool : Pool) (req : Request) (id : JObject) (db : Db)
    (huser : req.user = some id) (hpool : ∀ d st, pool.fails d st = false)
    (hids : (db.stores.map fun s => s.id).Nodup)
    (hone : ∀ s ∈ db.stores, (db.selectRating (id.get "id") (idVal s.id)).length ≤ 1)
    (htotal : ∀ a b, coll.le a b = true ∨ coll.le b a = true)
    (htrans : ∀ a b c, coll.le a b = true → coll.le b c = true → coll.le a c = true) :
    ∃ rows : List StoreListRow,
      (run (listStoresForUser numberToString coll pool req) db).1
        = Except.ok
            { status := 200, body := ResBody.json (Json.arr (rows.map StoreListRow.toJson)) } ∧
      (run (listStoresForUser numberToString coll pool req) db).2.1 = db ∧
      rows.Perm ((db.stores.filter (storeListFilter coll numberToString
          (req.query.get "name") (req.query.get "address"))).map fun s =>
        ⟨s.id, s.name, s.address, db.averageFor (idVal s.id),
          match db.selectRating (id.get "id") (idVal s.id) with
          | [] => Value.null
          | r :: _ => r.rating⟩) ∧
      List.Pairwise (fun a b : StoreListRow => coll.le a.name b.name = true) rows := by
  obtain ⟨rows, hrows, hperm⟩ := storeList_rows db coll.le
    (storeListFilter coll numberToString (req.query.get "name") (req.query.get "address"))
    (id.get "id") hids hone
  refine ⟨rows, ?_, ?_, hperm, storeList_sorted db coll.le _ _ rows htotal htrans hrows⟩
  · simp [run, listStoresForUser, Request.userField, huser, hpool, hrows, bind, Handler.bind,
      pure, Handler.tryCatch, Pool.queryOpt]
  · simp [run, listStoresForUser, Request.userField, huser, hpool, hrows, bind, Handler.bind,
      pure, Handler.tryCatch, Pool.queryOpt]

/-- C13 at the sample store list Bob (id 8) asks for, without filter, on the
tables where he rated `Corner Shop`. -/
theorem listStoresForUser_spec_witness :
    ∃ rows : List StoreListRow,
      (run (listStoresForUser Sample.noDigits Sample.coll (Sample.pool 1) (Sample.asUser 8))
          Sample.ownedDb).1
        = Except.ok
            { status := 200, body := ResBody.json (Json.arr (rows.map StoreListRow.toJson)) } ∧
      (run (listStoresForUser Sample.noDigits Sample.coll (Sample.pool 1) (Sample.asUser 8))
          Sample.ownedDb).2.1 = Sample.ownedDb ∧
      rows.Perm ((Sample.ownedDb.stores.filter (storeListFilter Sample.coll Sample.noDigits
          ((Sample.asUser 8).query.get "name") ((Sample.asUser 8).query.get "address"))).map
        fun s =>
          ⟨s.id, s.name, s.address, Sample.ownedDb.averageFor (idVal s.id),
            match Sample.ownedDb.selectRating (JObject.get [("id", idVal 8)] "id") (idVal s.id)
              with
            | [] => Value.null
            | r :: _ => r.rating⟩) ∧
      List.Pairwise (fun a b : StoreListRow => Sample.coll.le a.name b.name = true) rows :=
  listStoresForUser_spec Sample.noDigits Sample.coll (Sample.pool 1) (Sample.asUser 8)
    [("id", idVal 8)] Sample.ownedDb rfl (fun _ _ => rfl)
    (by simp [Sample.ownedDb])
    (by
      intro s hs
      simp only [Sample.ownedDb, List.mem_singleton] at hs
      subst hs
      simp [Db.selectRating, Sample.ownedDb, RatingRow.isFor, sqlEq, intColumn, toParam, idVal, lit,
        JObject.get, List.lookup])
    Sample.coll_total Sample.coll_trans

/-! ## The user list -/

/-- Joined rows of one left row with at most one match: a single row, with the
match if there is one. -/
theorem leftJoin_single_le_one {α β : Type} (cond : α → β → Bool) (x : α) (ys : List β)
    (h : (ys.filter (cond x)).length ≤ 1) :
    leftJoin cond [x] ys = [(x, (ys.filter (cond x)).head?)] := by
  simp only [leftJoin, List.flatMap_cons, List.flatMap_nil, List.append_nil]
  cases hf : ys.filter (cond x) with
  | nil => rfl
  | cons y rest =>
    cases rest with
    | nil => rfl
    | cons y2 rest2 => rw [hf] at h; simp at h

/-- Right part of a joined row whose left row has at most one match. -/
theorem snd_of_mem_leftJoin {α β : Type} (cond : α → β → Bool) (xs : List α) (ys : List β)
    (p : α × Option β) (hp : p ∈ leftJoin cond xs ys)
    (h : (ys.filter (cond p.1)).length ≤ 1) : p.2 = (ys.filter (cond p.1)).head? := by
  simp only [leftJoin, List.mem_flatMap] at hp
  obtain ⟨x, _, hp⟩ := hp
  cases hf : ys.filter (cond x) with
  | nil =>
    rw [hf] at hp
    simp only [List.mem_singleton] at hp
    subst hp
    simp [hf]
  | cons y rest =>
    rw [hf] at hp
    simp only [List.mem_map] at hp
    obtain ⟨b, hb, rfl⟩ := hp
    simp only at h ⊢
    rw [hf] at h ⊢
    cases rest with
    | nil => simp at hb; simp [hb]
    | cons y2 rest2 => simp at h

/-- The average over the rating cells joined to a user row through its store:
0 without store, else the average of the store. -/
theorem avgRating_of_owned (db : Db) (u : UserRow) (s : Option StoreRow) :
    avgRating ((leftJoin (fun (p : UserRow × Option StoreRow) (r : RatingRow) =>
        storeMatches p.2 r) [(u, s)] db.ratings).map fun p => ratingCell p.2)
      = match s with
        | none => 0
        | some store => db.averageFor (idVal store.id) := by
  rw [avgRating_leftJoin_single]
  cases s with
  | none => simp [storeMatches, avgRating, sqlAvg]
  | some store => simp only [storeMatches, Db.averageFor, Db.ratingsOf, colEq_idVal]

/-- The user list query with distinct user ids, when every user owns at most
one store: up to order, one row per user that passes the `WHERE` clause, with
the name and the average of the owned store, or `NULL` and 0 without store. -/
theorem adminUserList_rows (db : Db) (le : Value → Value → Bool) (keep : UserRow → Bool)
    (hids : (db.users.map fun u => u.id).Nodup)
    (hone : ∀ u ∈ db.users,
      (db.stores.filter fun s => colEq (idVal u.id) s.owner_id).length ≤ 1) :
    (db.adminUserList le keep).Perm ((db.users.filter keep).map fun u =>
      match (db.stores.filter fun s => colEq (idVal u.id) s.owner_id).head? with
      | none => ⟨u.id, u.name, u.email, u.address, u.role, Value.null, 0⟩
      | some s => ⟨u.id, u.name, u.email, u.address, u.role, s.name,
          db.averageFor (idVal s.id)⟩) := by
  let c1 : UserRow → StoreRow → Bool := fun u s => colEq (idVal u.id) s.owner_id
  let c2 : UserRow × Option StoreRow → RatingRow → Bool := fun p r => storeMatches p.2 r
  let owned : UserRow → Option StoreRow := fun u => (db.stores.filter (c1 u)).head?
  let k : UserRow → Nat × Value × Value × Value × Value × Value := fun u =>
    (u.id, u.name, u.email, u.address, u.role, storeNameCell (owned u))
  let key6 : (UserRow × Option StoreRow) × Option RatingRow
      → Nat × Value × Value × Value × Value × Value := fun p =>
    (p.1.1.id, p.1.1.name, p.1.1.email, p.1.1.address, p.1.1.role, storeNameCell p.1.2)
  have hJ1 : (leftJoin c1 db.users db.stores).filter (fun a => keep a.1)
      = leftJoin c1 (db.users.filter keep) db.stores := filter_leftJoin c1 keep _ _
  have hrows : (leftJoin c2 (leftJoin c1 db.users db.stores) db.ratings).filter
        (fun p => keep p.1.1)
      = leftJoin c2 (leftJoin c1 (db.users.filter keep) db.stores) db.ratings := by
    rw [← hJ1]
    exact filter_leftJoin c2 (fun a => keep a.1) _ _
  have hq : ∀ q ∈ leftJoin c1 (db.users.filter keep) db.stores,
      q.1 ∈ db.users.filter keep ∧ q.2 = owned q.1 := by
    intro q hq
    have hmem := fst_mem_of_mem_leftJoin c1 _ _ q hq
    exact ⟨hmem, snd_of_mem_leftJoin c1 _ _ q hq (hone q.1 (List.mem_filter.mp hmem).1)⟩
  have hsub : ∀ p ∈ leftJoin c2 (leftJoin c1 (db.users.filter keep) db.stores) db.ratings,
      ∃ u ∈ db.users.filter keep, key6 p = k u := by
    intro p hp
    have hp1 := fst_mem_of_mem_leftJoin c2 _ _ p hp
    obtain ⟨hu, hown⟩ := hq p.1 hp1
    exact ⟨p.1.1, hu, by simp only [key6, k, hown]⟩
  have hsup : ∀ u ∈ db.users.filter keep,
      ∃ p ∈ leftJoin c2 (leftJoin c1 (db.users.filter keep) db.stores) db.ratings,
        key6 p = k u := by
    intro u hu
    obtain ⟨q, hq1, hqu⟩ := exists_mem_leftJoin c1 _ db.stores u hu
    obtain ⟨p, hp, hpq⟩ := exists_mem_leftJoin c2 _ db.ratings q hq1
    refine ⟨p, hp, ?_⟩
    have hown := (hq q hq1).2
    simp only [key6, k, hpq, hown, hqu]
  have hnd : ((db.users.filter keep).map fun u => u.id).Nodup :=
    List.Nodup.sublist (List.Sublist.map _ (List.filter_sublist _)) hids
  have hnodup : ((db.users.filter keep).map k).Nodup := by
    apply List.Nodup.of_map Prod.fst
    rw [List.map_map]
    exact hnd
  have hgroup : ∀ u ∈ db.users.filter keep,
      (leftJoin c2 (leftJoin c1 (db.users.filter keep) db.stores) db.ratings).filter
          (fun p => decide (key6 p = k u))
        = leftJoin c2 [(u, owned u)] db.ratings := by
    intro u hu
    have h1 := filter_leftJoin c2
      (fun a : UserRow × Option StoreRow =>
        decide ((a.1.id, a.1.name, a.1.email, a.1.address, a.1.role, storeNameCell a.2) = k u))
      (leftJoin c1 (db.users.filter keep) db.stores) db.ratings
    have h2 : (leftJoin c1 (db.users.filter keep) db.stores).filter
          (fun a : UserRow × Option StoreRow =>
            decide ((a.1.id, a.1.name, a.1.email, a.1.address, a.1.role, storeNameCell a.2)
              = k u))
        = (leftJoin c1 (db.users.filter keep) db.stores).filter
          (fun a => (fun x : UserRow => decide (k x = k u)) a.1) := by
      apply List.filter_congr
      intro a ha
      simp only [k, (hq a ha).2]
    have h3 := filter_leftJoin c1 (fun x : UserRow => decide (k x = k u))
      (db.users.filter keep) db.stores
    have h4 := filter_key_eq_self (fun u : UserRow => u.id) (db.users.filter keep) hnd k
      (fun a b hab => congrArg Prod.fst hab) u hu
    have h5 := leftJoin_single_le_one c1 u db.stores (hone u (List.mem_filter.mp hu).1)
    rw [h2, h3, h4, h5] at h1
    exact h1
  refine (List.perm_insertionSort _ _).trans ?_
  simp only [Db.adminUserGroups]
  rw [hrows]
  refine (groupBy_map_perm key6 _ (db.users.filter keep) k _ hsub hsup hnodup).trans ?_
  apply List.Perm.of_eq
  apply List.map_congr_left
  intro u hu
  simp only [hgroup u hu]
  simp only [k, owned, c1]
  cases (db.stores.filter fun s => colEq (idVal u.id) s.owner_id).head? with
  | none =>
    exact congrArg
      (fun x => (⟨u.id, u.name, u.email, u.address, u.role, Value.null, x⟩ : AdminUserRow))
      (avgRating_of_owned db u none)
  | some s =>
    exact congrArg
      (fun x => (⟨u.id, u.name, u.email, u.address, u.role, s.name, x⟩ : AdminUserRow))
      (avgRating_of_owned db u (some s))

/-- C17: with distinct user ids and at most one store per owner, `listUsers`
answers 200 with rows that are, up to order, one row per user passing the
filters, carrying as `store_name` the name of the store the user owns (`NULL`
without store) and as `store_rating` the average `averageFor` gives for that
store (0 without store; `averageFor` is 0 without ratings); the rows are
sorted by user name (for a total and transitive collation); a non-empty role
filter lets through exactly the users whose role is that very string. -/
theorem listUsers_spec (numberToString : JSNum → String) (coll : Collation) (pool : Pool)
    (req : Request) (db : Db) (hpool : ∀ d st, pool.fails d st = false)
    (hids : (db.users.map fun u => u.id).Nodup)
    (hone : ∀ u ∈ db.users,
      (db.stores.filter fun s => colEq (idVal u.id) s.owner_id).length ≤ 1)
    (htotal : ∀ a b, coll.le a b = true ∨ coll.le b a = true)
    (htrans : ∀ a b c, coll.le a b = true → coll.le b c = true → coll.le a c = true) :
    (run (listUsers numberToString coll pool req) db).1
      = Except.ok { status := 200, body := ResBody.json (Json.arr
          ((db.adminUserList coll.le (userListFilter coll numberToString
            (req.query.get "name") (req.query.get "email") (req.query.get "role"))).map
            AdminUserRow.toJson)) } ∧
    (db.adminUserList coll.le (userListFilter coll numberToString
        (req.query.get "name") (req.query.get "email") (req.query.get "role"))).Perm
      ((db.users.filter (userListFilter coll numberToString
        (req.query.get "name") (req.query.get "email") (req.query.get "role"))).map fun u =>
        match (db.stores.filter fun s => colEq (idVal u.id) s.owner_id).head? with
        | none => ⟨u.id, u.name, u.email, u.address, u.role, Value.null, 0⟩
        | some s => ⟨u.id, u.name, u.email, u.address, u.role, s.name,
            db.averageFor (idVal s.id)⟩) ∧
    List.Pairwise (fun a b : AdminUserRow => coll.le a.name b.name = true)
      (db.adminUserList coll.le (userListFilter coll numberToString
        (req.query.get "name") (req.query.get "email") (req.query.get "role"))) ∧
    (∀ r : String, req.query.get "role" = Value.str r → r ≠ "" → ∀ u : UserRow,
      userListFilter coll numberToString (req.query.get "name") (req.query.get "email")
          (req.query.get "role") u
        = (likeFilter coll numberToString u.name (req.query.get "name")
          && likeFilter coll numberToString u.email (req.query.get "email")
          && decide (u.role = Value.str r))) := by
  refine ⟨?_, adminUserList_rows db coll.le _ hids hone,
    orderByName_sorted _ _ htotal htrans _, ?_⟩
  · simp [run, listUsers, hpool, bind, Handler.bind, pure, Handler.tryCatch, Pool.query]
  · intro r hr hne u
    simp only [userListFilter, eqFilter, hr, truthy, sqlTextEq, toParam]
    by_cases h : u.role = Value.str r
    · simp [h, hne]
    · simp [h, hne]

/-- C17 at the sample list filtered by the role `Store Owner`, on the tables
where Alice owns `Corner Shop`. -/
theorem listUsers_spec_witness :
    (Sample.ownedDb.adminUserList Sample.coll.le (userListFilter Sample.coll Sample.noDigits
        ((Sample.listReq [("role", Value.str "Store Owner")]).query.get "name")
        ((Sample.listReq [("role", Value.str "Store Owner")]).query.get "email")
        ((Sample.listReq [("role", Value.str "Store Owner")]).query.get "role"))).Perm
      ((Sample.ownedDb.users.filter (userListFilter Sample.coll Sample.noDigits
        ((Sample.listReq [("role", Value.str "Store Owner")]).query.get "name")
        ((Sample.listReq [("role", Value.str "Store Owner")]).query.get "email")
        ((Sample.listReq [("role", Value.str "Store Owner")]).query.get "role"))).map fun u =>
        match (Sample.ownedDb.stores.filter fun s => colEq (idVal u.id) s.owner_id).head? with
        | none => ⟨u.id, u.name, u.email, u.address, u.role, Value.null, 0⟩
        | some s => ⟨u.id, u.name, u.email, u.address, u.role, s.name,
            Sample.ownedDb.averageFor (idVal s.id)⟩) :=
  (listUsers_spec Sample.noDigits Sample.coll (Sample.pool 1)
    (Sample.listReq [("role", Value.str "Store Owner")]) Sample.ownedDb (fun _ _ => rfl)
    (by simp [Sample.ownedDb, Sample.alice, Sample.bob])
    (fun u _ => (List.length_filter_le _ _).trans (by simp [Sample.ownedDb]))
    Sample.coll_total Sample.coll_trans).2.1

/-! ## Creating users and stores -/

/-- C18: on a pool that rejects nothing, `createUser` answers 400 with the
lookup as only statement and unchanged tables when the email already belongs
to a user.  Otherwise (salt and hash being given) it answers 201 and appends
one user row with the hash as password and the requested role.  When the role
is exactly 'Store Owner' and `store_id` is truthy it then issues the owner
update, after which the store rows whose id is the integer that `store_id`
denotes (sent as a number or, as the client's form does, as its decimal text)
have the new user's id as `owner_id` and every other store row is as before;
in every other case no update is issued and the stores table is unchanged. -/
theorem createUser_spec (pool : Pool) (bcrypt : Bcrypt) (req : Request) (db : Db)
    (salt h : String) (hpool : ∀ d st, pool.fails d st = false)
    (hsalt : bcrypt.genSalt 10 = some salt)
    (hhash : bcrypt.hash (req.body.get "password") salt = some h) :
    (db.usersByEmail (req.body.get "email") ≠ [] →
      run (createUser pool bcrypt req) db
        = (Except.ok (msgResponse 400 "User with this email already exists."), db,
            [⟨sqlSelectUserByEmail, [req.body.get "email"]⟩])) ∧
    (db.usersByEmail (req.body.get "email") = [] →
      (run (createUser pool bcrypt req) db).1
        = Except.ok { status := 201, body := ResBody.json (UserRow.returning
            ⟨db.nextUserId, toParam (req.body.get "name"), toParam (req.body.get "email"),
              Value.str h, toParam (req.body.get "address"),
              toParam (req.body.get "role")⟩) } ∧
      (run (createUser pool bcrypt req) db).2.1.users
        = db.users ++ [⟨db.nextUserId, toParam (req.body.get "name"),
            toParam (req.body.get "email"), Value.str h, toParam (req.body.get "address"),
            toParam (req.body.get "role")⟩] ∧
      (run (createUser pool bcrypt req) db).2.1.ratings = db.ratings ∧
      ((req.body.get "role" = Value.str "Store Owner" ∧
          truthy (req.body.get "store_id") = true) →
        (run (createUser pool bcrypt req) db).2.1.stores
          = db.stores.map (fun s =>
              if sqlEq (idVal s.id) (req.body.get "store_id")
              then { s with owner_id := idVal db.nextUserId } else s) ∧
        (∀ k : Nat, intColumn (req.body.get "store_id") = idVal k →
          (run (createUser pool bcrypt req) db).2.1.stores
            = db.stores.map (fun s =>
                if s.id = k then { s with owner_id := idVal db.nextUserId } else s)) ∧
        (run (createUser pool bcrypt req) db).2.2
          = [⟨sqlSelectUserByEmail, [req.body.get "email"]⟩,
             ⟨sqlInsertUserWithRole, [req.body.get "name", req.body.get "email", Value.str h,
                req.body.get "address", req.body.get "role"]⟩,
             ⟨sqlUpdateStoreOwner, [idVal db.nextUserId, req.body.get "store_id"]⟩]) ∧
      (¬ (req.body.get "role" = Value.str "Store Owner" ∧
          truthy (req.body.get "store_id") = true) →
        (run (createUser pool bcrypt req) db).2.1.stores = db.stores ∧
        (run (createUser pool bcrypt req) db).2.2
          = [⟨sqlSelectUserByEmail, [req.body.get "email"]⟩,
             ⟨sqlInsertUserWithRole, [req.body.get "name", req.body.get "email", Value.str h,
                req.body.get "address", req.body.get "role"]⟩])) := by
  constructor
  · intro htaken
    have hlen : 0 < (db.usersByEmail (req.body.get "email")).length :=
      List.length_pos.mpr htaken
    simp [run, createUser, hpool, hlen, bind, Handler.bind, pure, Handler.tryCatch, Pool.query]
  · intro hfree
    by_cases hc : req.body.get "role" = Value.str "Store Owner" ∧
        truthy (req.body.get "store_id") = true
    · obtain ⟨hrole, hstore⟩ := hc
      have hrun : run (createUser pool bcrypt req) db
          = (Except.ok { status := 201, body := ResBody.json (UserRow.returning
              ⟨db.nextUserId, toParam (req.body.get "name"), toParam (req.body.get "email"),
                Value.str h, toParam (req.body.get "address"), Value.str "Store Owner"⟩) },
            { db with
              users := db.users ++ [⟨db.nextUserId, toParam (req.body.get "name"),
                toParam (req.body.get "email"), Value.str h, toParam (req.body.get "address"),
                Value.str "Store Owner"⟩],
              nextUserId := db.nextUserId + 1,
              stores := db.stores.map (fun s =>
                if sqlEq (idVal s.id) (req.body.get "store_id")
                then { s with owner_id := idVal db.nextUserId } else s) },
            [⟨sqlSelectUserByEmail, [req.body.get "email"]⟩,
             ⟨sqlInsertUserWithRole, [req.body.get "name", req.body.get "email", Value.str h,
                req.body.get "address", Value.str "Store Owner"]⟩,
             ⟨sqlUpdateStoreOwner, [idVal db.nextUserId, req.body.get "store_id"]⟩]) := by
        simp [run, createUser, hpool, hfree, hsalt, hhash, hrole, hstore, bind, Handler.bind,
          pure, Handler.tryCatch, Pool.query, Bcrypt.genSaltStep, Bcrypt.hashStep,
          Db.insertUserWithRole, Db.updateStoreOwner, firstUserJson, toParam,
          intColumn_idVal]
      rw [hrun, hrole]
      refine ⟨by simp [toParam], by simp [toParam], rfl, ?_, ?_⟩
      · intro _
        refine ⟨rfl, ?_, rfl⟩
        intro k hk
        simp only [sqlEq_denotes _ k _ hk, decide_eq_true_eq]
      · intro hn
        exact absurd ⟨rfl, hstore⟩ hn
    · have hcond : (decide (req.body.get "role" = Value.str "Store Owner")
          && truthy (req.body.get "store_id")) = false := by
        by_cases hrole : req.body.get "role" = Value.str "Store Owner"
        · have : truthy (req.body.get "store_id") = false := by
            cases ht : truthy (req.body.get "store_id") with
            | false => rfl
            | true => exact absurd ⟨hrole, ht⟩ hc
          simp [this]
        · simp [hrole]
      simp [run, createUser, hpool, hfree, hsalt, hhash, hc, hcond, bind, Handler.bind,
        pure, Handler.tryCatch, Pool.query, Bcrypt.genSaltStep, Bcrypt.hashStep,
        Db.insertUserWithRole, firstUserJson, toParam]

/-- C18 at the sample creation of a store owner for the store `Corner Shop`
(id 2), the store id being sent as the text '2' as the form of the client
sends it, on tables without users: the store gets the new user (id 1) as
owner. -/
theorem createUser_spec_witness :
    (run (createUser (Sample.pool 1) Sample.bcrypt
        (Sample.createUserReq "Carol Denise Whitfield" "carol@example.com" "Secret!Pass1"
          "3 High St" (Value.str "Store Owner") (Value.str "2"))) Sample.shopDb).2.1.stores
      = Sample.shopDb.stores.map (fun s =>
          if s.id = 2 then { s with owner_id := idVal Sample.shopDb.nextUserId } else s) ∧
    Sample.shopDb.stores.map (fun s =>
          if s.id = 2 then { s with owner_id := idVal Sample.shopDb.nextUserId } else s)
      = [{ Sample.cornerShop with owner_id := idVal 1 }] ∧
    Sample.cornerShop.owner_id ≠ idVal 1 :=
  ⟨(((createUser_spec (Sample.pool 1) Sample.bcrypt
      (Sample.createUserReq "Carol Denise Whitfield" "carol@example.com" "Secret!Pass1"
        "3 High St" (Value.str "Store Owner") (Value.str "2")) Sample.shopDb "salt"
      "hashed:Secret!Pass1" (fun _ _ => rfl) rfl rfl).2 rfl).2.2.2.1
    ⟨rfl, by simp [Sample.createUserReq, JObject.get, List.lookup, truthy]⟩).2.1 2
      (by decide), by decide, by decide⟩

/-- Run of `createStore` when the email is free and no statement fails. -/
theorem createStore_success (pool : Pool) (req : Request) (db : Db)
    (hpool : ∀ d st, pool.fails d st = false)
    (hfree : db.storesByEmail (req.body.get "email") = []) :
    run (createStore pool req) db
      = (Except.ok { status := 201, body := ResBody.json (StoreRow.toJson
          ⟨db.nextStoreId, toParam (req.body.get "name"), toParam (req.body.get "email"),
            toParam (req.body.get "address"), intColumn (req.body.get "owner_id")⟩) },
          { db with
            stores := db.stores ++ [⟨db.nextStoreId, toParam (req.body.get "name"),
              toParam (req.body.get "email"), toParam (req.body.get "address"),
              intColumn (req.body.get "owner_id")⟩],
            nextStoreId := db.nextStoreId + 1,
            users := if truthy (req.body.get "owner_id") then
                db.users.map (fun u =>
                  if sqlEq (idVal u.id) (req.body.get "owner_id")
                  then { u with role := Value.str "Store Owner" } else u)
              else db.users },
          if truthy (req.body.get "owner_id") then
            [⟨sqlSelectStoreByEmail, [req.body.get "email"]⟩,
             ⟨sqlInsertStore, [req.body.get "name", req.body.get "email",
                req.body.get "address", req.body.get "owner_id"]⟩,
             ⟨sqlPromoteOwner, [req.body.get "owner_id"]⟩]
          else
            [⟨sqlSelectStoreByEmail, [req.body.get "email"]⟩,
             ⟨sqlInsertStore, [req.body.get "name", req.body.get "email",
                req.body.get "address", req.body.get "owner_id"]⟩]) := by
  by_cases ht : truthy (req.body.get "owner_id") = true
  · simp [run, createStore, hpool, hfree, ht, bind, Handler.bind, pure, Handler.tryCatch,
      Pool.query, Db.insertStore, Db.promoteOwner, firstStoreJson]
  · simp [run, createStore, hpool, hfree, ht, bind, Handler.bind, pure, Handler.tryCatch,
      Pool.query, Db.insertStore, firstStoreJson]

/-- C19: on a pool that rejects nothing, `createStore` answers 400 with the
lookup as only statement and unchanged tables when a store with the email
exists.  Otherwise it answers 201 and appends one store row whose `owner_id`
is the integer that the supplied `owner_id` denotes (sent as a number or, as
the client's form does, as its decimal text); when `owner_id` is truthy it
then issues the role update, after which the user rows with that id have the
role 'Store Owner', their other fields and every other user row being as
before; when `owner_id` is not truthy no update is issued and the users table
is unchanged. -/
theorem createStore_spec (pool : Pool) (req : Request) (db : Db)
    (hpool : ∀ d st, pool.fails d st = false) :
    (db.storesByEmail (req.body.get "email") ≠ [] →
      run (createStore pool req) db
        = (Except.ok (msgResponse 400 "Store with this email already exists."), db,
            [⟨sqlSelectStoreByEmail, [req.body.get "email"]⟩])) ∧
    (db.storesByEmail (req.body.get "email") = [] →
      (run (createStore pool req) db).1
        = Except.ok { status := 201, body := ResBody.json (StoreRow.toJson
            ⟨db.nextStoreId, toParam (req.body.get "name"), toParam (req.body.get "email"),
              toParam (req.body.get "address"), intColumn (req.body.get "owner_id")⟩) } ∧
      (run (createStore pool req) db).2.1.stores
        = db.stores ++ [⟨db.nextStoreId, toParam (req.body.get "name"),
            toParam (req.body.get "email"), toParam (req.body.get "address"),
            intColumn (req.body.get "owner_id")⟩] ∧
      (run (createStore pool req) db).2.1.ratings = db.ratings ∧
      (truthy (req.body.get "owner_id") = true →
        (run (createStore pool req) db).2.1.users
          = db.users.map (fun u =>
              if sqlEq (idVal u.id) (req.body.get "owner_id")
              then { u with role := Value.str "Store Owner" } else u) ∧
        (∀ k : Nat, intColumn (req.body.get "owner_id") = idVal k →
          (run (createStore pool req) db).2.1.users
            = db.users.map (fun u =>
                if u.id = k then { u with role := Value.str "Store Owner" } else u) ∧
          (run (createStore pool req) db).2.1.stores
            = db.stores ++ [⟨db.nextStoreId, toParam (req.body.get "name"),
                toParam (req.body.get "email"), toParam (req.body.get "address"),
                idVal k⟩]) ∧
        (run (createStore pool req) db).2.2
          = [⟨sqlSelectStoreByEmail, [req.body.get "email"]⟩,
             ⟨sqlInsertStore, [req.body.get "name", req.body.get "email",
                req.body.get "address", req.body.get "owner_id"]⟩,
             ⟨"UPDATE users SET role = 'Store Owner' WHERE id = $1",
                [req.body.get "owner_id"]⟩]) ∧
      (truthy (req.body.get "owner_id") = false →
        (run (createStore pool req) db).2.1.users = db.users ∧
        (run (createStore pool req) db).2.2
          = [⟨sqlSelectStoreByEmail, [req.body.get "email"]⟩,
             ⟨sqlInsertStore, [req.body.get "name", req.body.get "email",
                req.body.get "address", req.body.get "owner_id"]⟩])) := by
  constructor
  · intro htaken
    have hlen : 0 < (db.storesByEmail (req.body.get "email")).length :=
      List.length_pos.mpr htaken
    simp [run, createStore, hpool, hlen, bind, Handler.bind, pure, Handler.tryCatch, Pool.query]
  · intro hfree
    have hrun := createStore_success pool req db hpool hfree
    refine ⟨by rw [hrun], by rw [hrun], by rw [hrun], ?_, ?_⟩
    · intro ht
      rw [hrun]
      refine ⟨by simp [ht], ?_, by simp [ht, sqlPromoteOwner]⟩
      intro k hk
      simp only [ht, if_true, sqlEq_denotes _ k _ hk, decide_eq_true_eq, hk]
      exact ⟨trivial, trivial⟩
    · intro ht
      rw [hrun]
      simp [ht]

/-- C19 at the sample creation of a store owned by Bob (id 8, a normal user),
the owner id being sent as the text '8' as the form of the client sends it, on
the tables holding Alice and Bob: Bob becomes a store owner, Alice is as
before, and the new store row has the integer 8 as owner. -/
theorem createStore_spec_witness :
    ((run (createStore (Sample.pool 1)
        (Sample.createStoreReq "Harbour Books" "books@example.com" "5 Quay Rd"
          (Value.str "8"))) Sample.ownedDb).2.1.users
      = Sample.ownedDb.users.map (fun u =>
          if u.id = 8 then { u with role := Value.str "Store Owner" } else u) ∧
    (run (createStore (Sample.pool 1)
        (Sample.createStoreReq "Harbour Books" "books@example.com" "5 Quay Rd"
          (Value.str "8"))) Sample.ownedDb).2.1.stores
      = Sample.ownedDb.stores ++ [⟨Sample.ownedDb.nextStoreId,
          toParam ((Sample.createStoreReq "Harbour Books" "books@example.com" "5 Quay Rd"
            (Value.str "8")).body.get "name"),
          toParam ((Sample.createStoreReq "Harbour Books" "books@example.com" "5 Quay Rd"
            (Value.str "8")).body.get "email"),
          toParam ((Sample.createStoreReq "Harbour Books" "books@example.com" "5 Quay Rd"
            (Value.str "8")).body.get "address"), idVal 8⟩]) ∧
    Sample.ownedDb.users.map (fun u =>
          if u.id = 8 then { u with role := Value.str "Store Owner" } else u)
      = [Sample.alice, { Sample.bob with role := Value.str "Store Owner" }] ∧
    Sample.bob.role = Value.str "Normal User" :=
  ⟨(((createStore_spec (Sample.pool 1)
      (Sample.createStoreReq "Harbour Books" "books@example.com" "5 Quay Rd" (Value.str "8"))
      Sample.ownedDb (fun _ _ => rfl)).2 (by decide)).2.2.2.1
    (by simp [Sample.createStoreReq, JObject.get, List.lookup, truthy])).2.1 8 (by decide),
    by decide, by decide⟩

/-! ## A store created with an owner, then the user list -/

/-- A left row and a right row that satisfy the join condition give a joined
row. -/
theorem mem_leftJoin_some {α β : Type} (cond : α → β → Bool) (xs : List α) (ys : List β)
    (x : α) (y : β) (hx : x ∈ xs) (hy : y ∈ ys) (hc : cond x y = true) :
    (x, some y) ∈ leftJoin cond xs ys := by
  simp only [leftJoin, List.mem_flatMap]
  refine ⟨x, hx, ?_⟩
  have hmem : y ∈ ys.filter (cond x) := List.mem_filter.mpr ⟨hy, hc⟩
  cases hf : ys.filter (cond x) with
  | nil => rw [hf] at hmem; simp at hmem
  | cons z rest =>
    rw [hf] at hmem
    exact List.mem_map.mpr ⟨y, hmem, rfl⟩

/-- A user row joined with a store it owns shows in the unfiltered user list
with the name of that store. -/
theorem adminUserList_shows_owned (db : Db) (le : Value → Value → Bool) (u : UserRow)
    (s : StoreRow) (hu : u ∈ db.users) (hs : s ∈ db.stores)
    (hown : colEq (idVal u.id) s.owner_id = true) :
    ∃ row ∈ db.adminUserList le (fun _ => true),
      row.id = u.id ∧ row.name = u.name ∧ row.email = u.email ∧ row.address = u.address
        ∧ row.role = u.role ∧ row.store_name = s.name := by
  have hq := mem_leftJoin_some
    (fun (u : UserRow) (s : StoreRow) => colEq (idVal u.id) s.owner_id) db.users db.stores
    u s hu hs hown
  obtain ⟨p, hp, hpq⟩ := exists_mem_leftJoin
    (fun (p : UserRow × Option StoreRow) (r : RatingRow) => storeMatches p.2 r) _ db.ratings
    (u, some s) hq
  have hpf : p ∈ (leftJoin
      (fun (p : UserRow × Option StoreRow) (r : RatingRow) => storeMatches p.2 r)
      (leftJoin (fun (u : UserRow) (s : StoreRow) => colEq (idVal u.id) s.owner_id)
        db.users db.stores) db.ratings).filter (fun _ => true) := by
    simpa using hp
  obtain ⟨g, hg, hkey, _⟩ := exists_group_of_mem
    (fun (p : (UserRow × Option StoreRow) × Option RatingRow) =>
      (p.1.1.id, p.1.1.name, p.1.1.email, p.1.1.address, p.1.1.role, storeNameCell p.1.2))
    _ p hpf
  refine ⟨_, (mem_orderByName _ _ _ _).mpr (List.mem_map.mpr ⟨g, hg, rfl⟩), ?_⟩
  simp only [hkey, hpq, storeNameCell, and_self]

/-- Run of `listUsers` without filter on a pool that rejects nothing. -/
theorem listUsers_unfiltered_run (numberToString : JSNum → String) (coll : Collation)
    (pool : Pool) (req : Request) (db : Db) (hpool : ∀ d st, pool.fails d st = false)
    (hname : truthy (req.query.get "name") = false)
    (hemail : truthy (req.query.get "email") = false)
    (hrole : truthy (req.query.get "role") = false) :
    run (listUsers numberToString coll pool req) db
      = (Except.ok { status := 200, body := ResBody.json (Json.arr
          ((db.adminUserList coll.le (fun _ => true)).map AdminUserRow.toJson)) }, db,
          [⟨sqlUserListHead ++ sqlUserListTail, []⟩]) := by
  simp [run, listUsers, pushLike_falsy, pushEq_falsy, hname, hemail, hrole, whereText,
    userListFilter_falsy, hpool, bind, Handler.bind, pure, Handler.tryCatch, Pool.query]

/-- C20: for a user `u1` of the table (with an id from a sequence that starts
at 1) who owns no store, and a store email not yet used, a `createStore` call
with `owner_id` the id of `u1` is answered 201; afterwards the new store is
the only store `u1` owns, and an unfiltered `listUsers` answers 200 with a row
for `u1` whose role is 'Store Owner' and whose `store_name` is the name of the
store just created. -/
theorem createStore_then_listUsers (numberToString : JSNum → String) (coll : Collation)
    (pool1 pool2 : Pool) (req listReq : Request) (db : Db) (u1 : UserRow)
    (hpool1 : ∀ d st, pool1.fails d st = false) (hpool2 : ∀ d st, pool2.fails d st = false)
    (hu1 : u1 ∈ db.users) (hpos : 0 < u1.id)
    (howns : db.stores.filter (fun s => colEq (idVal u1.id) s.owner_id) = [])
    (hfree : db.storesByEmail (req.body.get "email") = [])
    (howner : req.body.get "owner_id" = idVal u1.id)
    (hname : truthy (listReq.query.get "name") = false)
    (hemail : truthy (listReq.query.get "email") = false)
    (hrole : truthy (listReq.query.get "role") = false) :
    (∃ r, (run (createStore pool1 req) db).1 = Except.ok r ∧ r.status = 201) ∧
    (run (createStore pool1 req) db).2.1.stores.filter
        (fun s => colEq (idVal u1.id) s.owner_id)
      = [⟨db.nextStoreId, toParam (req.body.get "name"), toParam (req.body.get "email"),
          toParam (req.body.get "address"), idVal u1.id⟩] ∧
    ∃ rows : List AdminUserRow,
      (run (listUsers numberToString coll pool2 listReq) (run (createStore pool1 req) db).2.1).1
        = Except.ok
            { status := 200, body := ResBody.json (Json.arr (rows.map AdminUserRow.toJson)) } ∧
      ∃ row ∈ rows, row.id = u1.id ∧ row.name = u1.name ∧ row.email = u1.email ∧
        row.address = u1.address ∧ row.role = Value.str "Store Owner" ∧
        row.store_name = toParam (req.body.get "name") := by
  have hidne : idVal u1.id ≠ Value.null := by simp [idVal, lit]
  have htruthy : truthy (idVal u1.id) = true := by
    simp only [truthy, idVal, lit, ne_eq, decide_eq_true_eq]
    exact_mod_cast (Nat.pos_iff_ne_zero.mp hpos)
  have hself : sqlEq (idVal u1.id) (idVal u1.id) = true := by
    simp [sqlEq, intColumn, toParam, idVal, lit]
  have hcol : colEq (idVal u1.id) (idVal u1.id) = true := by
    simp [colEq, idVal, lit]
  have hrun := createStore_success pool1 req db hpool1 hfree
  have hdb := congrArg (fun r => r.2.1) hrun
  simp only [howner, htruthy, if_true] at hdb
  rw [intColumn_idVal] at hdb
  refine ⟨⟨_, congrArg Prod.fst hrun, rfl⟩, ?_, ?_⟩
  · rw [hdb]
    simp only [List.filter_append, howns, List.nil_append]
    simp [List.filter_cons, hcol]
  · refine ⟨_, congrArg Prod.fst (listUsers_unfiltered_run numberToString coll pool2 listReq _
      hpool2 hname hemail hrole), ?_⟩
    have hu1' : ({ u1 with role := Value.str "Store Owner" } : UserRow)
        ∈ (run (createStore pool1 req) db).2.1.users := by
      rw [hdb]
      refine List.mem_map.mpr ⟨u1, hu1, ?_⟩
      simp [hself]
    have hs' : (⟨db.nextStoreId, toParam (req.body.get "name"),
        toParam (req.body.get "email"), toParam (req.body.get "address"),
        idVal u1.id⟩ : StoreRow) ∈ (run (createStore pool1 req) db).2.1.stores := by
      rw [hdb]
      simp
    obtain ⟨row, hrow, h1, h2, h3, h4, h5, h6⟩ := adminUserList_shows_owned
      (run (createStore pool1 req) db).2.1 coll.le _ _ hu1' hs' hcol
    exact ⟨row, hrow, h1, h2, h3, h4, h5, h6⟩

/-- C20 at the sample creation of the store `Harbour Books` for Bob (id 8), a
normal user who owns no store, followed by the user list without filter: the
list shows Bob as store owner of `Harbour Books`. -/
theorem createStore_then_listUsers_witness :
    (∃ rows : List AdminUserRow,
      (run (listUsers Sample.noDigits Sample.coll (Sample.pool 2) (Sample.listReq []))
          (run (createStore (Sample.pool 1) (Sample.createStoreReq "Harbour Books"
            "books@example.com" "5 Quay Rd" (idVal 8))) Sample.ownedDb).2.1).1
        = Except.ok
            { status := 200, body := ResBody.json (Json.arr (rows.map AdminUserRow.toJson)) } ∧
      ∃ row ∈ rows, row.id = Sample.bob.id ∧ row.name = Sample.bob.name ∧
        row.email = Sample.bob.email ∧ row.address = Sample.bob.address ∧
        row.role = Value.str "Store Owner" ∧
        row.store_name = toParam ((Sample.createStoreReq "Harbour Books" "books@example.com"
          "5 Quay Rd" (idVal 8)).body.get "name")) ∧
    Sample.bob.role = Value.str "Normal User" :=
  ⟨(createStore_then_listUsers Sample.noDigits Sample.coll (Sample.pool 1) (Sample.pool 2)
    (Sample.createStoreReq "Harbour Books" "books@example.com" "5 Quay Rd" (idVal 8))
    (Sample.listReq []) Sample.ownedDb Sample.bob (fun _ _ => rfl) (fun _ _ => rfl)
    (by simp [Sample.ownedDb]) (by decide) (by decide) (by decide) rfl rfl rfl rfl).2.2,
    rfl⟩

/-! ## The validation chains -/

/-- A string without variation selector has as many counted characters as it
has code points. -/
theorem validatorLength_eq_length (s : String)
    (hvs : ∀ c ∈ s.toList, isVariationSelector c = false) : validatorLength s = s.length := by
  have hnone : s.toList.filter isVariationSelector = [] := by
    rw [List.filter_eq_nil_iff]
    intro c hc
    simp [hvs c hc]
  simp only [validatorLength, hnone, List.length_nil, Nat.sub_zero]

/-- The counted characters of a string are its code points that are no
variation selectors. -/
theorem validatorLength_eq_filter (s : String) :
    validatorLength s = (s.toList.filter (fun c => !isVariationSelector c)).length := by
  have h : s.toList.length = (s.toList.filter isVariationSelector).length
      + (s.toList.filter (fun c => !isVariationSelector c)).length :=
    List.length_eq_length_filter_add isVariationSelector
  have hlen : s.length = s.toList.length := rfl
  simp only [validatorLength, hlen]
  omega

/-- The password chain accepts exactly when both of its validators pass on
every instance of the password. -/
theorem accepts_password (lib : ValidatorLib) (req : Request) :
    accepts (userValidationRules lib req).1 "password" = true
      ↔ ∀ p ∈ req.instances "password",
          isLength (lib.fieldString p.2) 8 (some 16) = true
            ∧ passwordPattern lib.modifiersOnRegExp (lib.fieldString p.2) = true := by
  rw [userValidationRules_errors]
  simp only [accepts_append, accepts_validate, Bool.and_eq_true, Bool.or_eq_true,
    decide_eq_true_eq, List.isEmpty_iff, validate_eq_nil]
  constructor
  · rintro ⟨⟨_, h | h, h2 | h2⟩, _⟩
    all_goals first
      | exact absurd h (by decide)
      | exact absurd h2 (by decide)
      | exact fun p hp => ⟨h p hp, h2 p hp⟩
  · intro h
    exact ⟨⟨⟨Or.inl (by decide), Or.inl (by decide)⟩,
      Or.inr fun p hp => (h p hp).1, Or.inr fun p hp => (h p hp).2⟩, Or.inl (by decide)⟩

/-- The name chain accepts exactly when the length validator passes on every
instance of the name. -/
theorem accepts_name (lib : ValidatorLib) (req : Request) :
    accepts (userValidationRules lib req).1 "name" = true
      ↔ ∀ p ∈ req.instances "name", isLength (lib.fieldString p.2) 20 (some 60) = true := by
  rw [userValidationRules_errors]
  simp only [accepts_append, accepts_validate, Bool.and_eq_true, Bool.or_eq_true,
    decide_eq_true_eq, List.isEmpty_iff, validate_eq_nil]
  constructor
  · rintro ⟨⟨⟨h | h, _⟩, _⟩, _⟩
    · exact absurd h (by decide)
    · exact h
  · intro h
    exact ⟨⟨⟨Or.inr h, Or.inl (by decide)⟩, Or.inl (by decide), Or.inl (by decide)⟩,
      Or.inl (by decide)⟩

/-- The address chain accepts exactly when the length validator passes on
every instance of the address. -/
theorem accepts_address (lib : ValidatorLib) (req : Request) :
    accepts (userValidationRules lib req).1 "address" = true
      ↔ ∀ p ∈ req.instances "address",
          isLength (lib.fieldString p.2) 0 (some 400) = true := by
  rw [userValidationRules_errors]
  simp only [accepts_append, accepts_validate, Bool.and_eq_true, Bool.or_eq_true,
    decide_eq_true_eq, List.isEmpty_iff, validate_eq_nil]
  constructor
  · rintro ⟨_, h | h⟩
    · exact absurd h (by decide)
    · exact h
  · intro h
    exact ⟨⟨⟨Or.inl (by decide), Or.inl (by decide)⟩, Or.inl (by decide), Or.inl (by decide)⟩,
      Or.inr h⟩

/-- With a library that leaves the modifiers of `matches` aside for a pattern
that is a regular expression object, the password chain accepts a password
submitted in the body only, written on one line and without variation
selector, exactly when the stated rule holds. -/
theorem accepts_password_case_sensitive (lib : ValidatorLib) (req : Request) (s : String)
    (hlib : lib.modifiersOnRegExp = false) (hpw : req.body.get "password" = Value.str s)
    (hheaders : req.headers.get "password" = Value.undefined)
    (hquery : req.query.get "password" = Value.undefined)
    (hline : ∀ c ∈ s.toList, isLineTerminator c = false)
    (hvs : ∀ c ∈ s.toList, isVariationSelector c = false) :
    accepts (userValidationRules lib req).1 "password" = passwordRuleStated s := by
  have hall : s.toList.all (fun c => !isLineTerminator c) = true := by
    rw [List.all_eq_true]
    intro c hc
    simp [hline c hc]
  have hspecial : s.toList.any isSpecial
      = s.toList.any (fun c => decide (c ∈ ['!', '@', '#', '$', '&', '*'])) := by
    congr 1
    funext c
    simp [isSpecial, Bool.or_assoc]
  have hupper : s.toList.any (matchesUpper false)
      = s.toList.any (fun c => decide ('A' ≤ c) && decide (c ≤ 'Z')) := by
    congr 1
    funext c
    simp [matchesUpper]
  have hiff := accepts_password lib req
  rw [Request.instances_body_only req "password" hheaders hquery, hpw] at hiff
  simp only [List.mem_singleton, forall_eq, ValidatorLib.fieldString, passwordPattern, hall,
    hlib, hspecial, hupper, isLength, validatorLength_eq_length s hvs, Bool.true_and,
    Bool.and_eq_true, decide_eq_true_eq] at hiff
  rw [Bool.eq_iff_iff, hiff]
  simp only [passwordRuleStated, Bool.and_eq_true, decide_eq_true_eq, and_assoc, true_and]

/-- C21, failing inputs.  The password `secret!pass` holds no uppercase
letter, so the stated rule rejects it; the password chain accepts it (in a
request that holds the password in the body only) with every library that
applies the modifier `"i"` of `matches`, and the registration route then stores
the user.  The password `Secret!\nPass` meets the stated rule and is reported
by the chain with every library, the `.` of the pattern matching no line
terminator. -/
theorem register_accepts_lowercase_password (lib : ValidatorLib) (user : Option JObject)
    (body query headers : JObject) :
    passwordRuleStated "secret!pass" = false ∧
    accepts (userValidationRules { lib with modifiersOnRegExp := true }
      ⟨user, body.set "password" (Value.str "secret!pass"), [], []⟩).1 "password" = true ∧
    (run (registerRoute Sample.libModifiers (Sample.pool 1) Sample.bcrypt
        (Sample.registerReq "Alice Margaret Smithson" "alice@example.com" "secret!pass"
          "1 Main St" Value.undefined)) Sample.emptyDb).2.1.users
      = [⟨1, Value.str "Alice Margaret Smithson", Value.str "alice@example.com",
          Value.str "hashed:secret!pass", Value.str "1 Main St", Value.str "Normal User"⟩] ∧
    passwordRuleStated "Secret!\nPass" = true ∧
    accepts (userValidationRules lib
      ⟨user, body.set "password" (Value.str "Secret!\nPass"), query, headers⟩).1 "password"
      = false := by
  refine ⟨by decide, ?_, by rfl, by decide, ?_⟩
  · rw [accepts_password, Request.instances_body_only _ "password" (by rfl) (by rfl)]
    simp only [List.mem_singleton, forall_eq, JObject.get_set_self, ValidatorLib.fieldString]
    decide
  · rw [Bool.eq_false_iff, ne_eq, accepts_password]
    intro h
    have hmem : (Location.body, Value.str "Secret!\nPass")
        ∈ Request.instances
          ⟨user, body.set "password" (Value.str "Secret!\nPass"), query, headers⟩
          "password" := by
      rw [Request.instances_eq]
      simp [JObject.get_set_self]
    have hbad := (h _ hmem).2
    simp only [ValidatorLib.fieldString] at hbad
    revert hbad
    cases lib.modifiersOnRegExp <;> decide

/-- When the chains report nothing, both routes hand the sanitized request to
their handler. -/
theorem routes_next (lib : ValidatorLib) (pool : Pool) (bcrypt : Bcrypt) (req : Request)
    (hnone : (userValidationRules lib req).1 = []) :
    registerRoute lib pool bcrypt req = register pool bcrypt (userValidationRules lib req).2 ∧
    createUserRoute lib pool bcrypt req
      = createUser pool bcrypt (userValidationRules lib req).2 := by
  simp [registerRoute, createUserRoute, handleValidationErrors, hnone]

/-- When the chains report something, both routes answer 400 with the entries
and run no handler: no statement is issued and the tables stay as they are. -/
theorem routes_respond (lib : ValidatorLib) (pool : Pool) (bcrypt : Bcrypt) (req : Request)
    (db : Db) (hsome : (userValidationRules lib req).1 ≠ []) :
    run (registerRoute lib pool bcrypt req) db
      = (Except.ok { status := 400, body := ResBody.json (Json.obj [("errors",
          Json.arr ((userValidationRules lib req).1.map FieldError.toJson))]) }, db, []) ∧
    run (createUserRoute lib pool bcrypt req) db
      = (Except.ok { status := 400, body := ResBody.json (Json.obj [("errors",
          Json.arr ((userValidationRules lib req).1.map FieldError.toJson))]) }, db, []) := by
  have hne : (userValidationRules lib req).1.isEmpty = false := by
    cases h : (userValidationRules lib req).1 with
    | nil => exact absurd h hsome
    | cons e es => rfl
  simp [run, registerRoute, createUserRoute, handleValidationErrors, hne, pure]

/-- C22, counterexample.  With sanitizers that trim and escape as
`validator.js` does, the name `Al` behind eighteen blanks has 20 characters
and is accepted, and the registration stores `Al`, which has 2; the name of
twenty `<` is accepted as well and is stored with 80 characters. -/
theorem register_stores_sanitized_name :
    accepts (userValidationRules Sample.libSanitizing (Sample.registerReq "                  Al"
      "alice@example.com" "Secret!Pass1" "1 Main St" Value.undefined)).1 "name" = true ∧
    (run (registerRoute Sample.libSanitizing (Sample.pool 1) Sample.bcrypt
        (Sample.registerReq "                  Al" "alice@example.com" "Secret!Pass1"
          "1 Main St" Value.undefined)) Sample.emptyDb).2.1.users
      = [⟨1, Value.str "Al", Value.str "alice@example.com", Value.str "hashed:Secret!Pass1",
          Value.str "1 Main St", Value.str "Normal User"⟩] ∧
    ¬ (20 ≤ "Al".length) ∧
    accepts (userValidationRules Sample.libSanitizing (Sample.registerReq "<<<<<<<<<<<<<<<<<<<<"
      "bob@example.com" "Secret!Pass1" "2 Side St" Value.undefined)).1 "name" = true ∧
    (∃ stored : String,
      (run (registerRoute Sample.libSanitizing (Sample.pool 1) Sample.bcrypt
          (Sample.registerReq "<<<<<<<<<<<<<<<<<<<<" "bob@example.com" "Secret!Pass1"
            "2 Side St" Value.undefined)) Sample.emptyDb).2.1.users
        = [⟨1, Value.str stored, Value.str "bob@example.com", Value.str "hashed:Secret!Pass1",
            Value.str "2 Side St", Value.str "Normal User"⟩] ∧
      stored.length = 80 ∧ ¬ (stored.length ≤ 60)) := by
  refine ⟨by decide, by rfl, by decide, by decide, ?_⟩
  exact ⟨Sample.escape "<<<<<<<<<<<<<<<<<<<<", by rfl, by decide, by decide⟩

/-- C22, amended: for a request whose checked fields hold no array or object
and whose body holds the name and the address as strings, the name chain
accepts exactly when every submitted instance of the name (the one of the
body, of a header, of the query string) has 20 to 60 characters and the
address chain exactly when every submitted instance of the address has at most
400, a variation selector not being counted as a character; with the field in
the body only this is the condition on the submitted name and address.  What
reaches the handler is the submitted value trimmed, then escaped, and a
registration answered 201 has stored exactly these; they meet the bounds
whenever the sanitizers leave the submitted value as it is. -/
theorem name_address_rules (lib : ValidatorLib) (pool : Pool) (bcrypt : Bcrypt) (req : Request)
    (db : Db) (n a : String) (hn : req.body.get "name" = Value.str n)
    (ha : req.body.get "address" = Value.str a) :
    req.plainFields = true →
    (accepts (userValidationRules lib req).1 "name" = true
      ↔ ∀ p ∈ req.instances "name", 20 ≤ validatorLength (lib.fieldString p.2)
          ∧ validatorLength (lib.fieldString p.2) ≤ 60) ∧
    (accepts (userValidationRules lib req).1 "address" = true
      ↔ ∀ p ∈ req.instances "address", validatorLength (lib.fieldString p.2) ≤ 400) ∧
    (Location.body, Value.str n) ∈ req.instances "name" ∧
    (Location.body, Value.str a) ∈ req.instances "address" ∧
    (req.headers.get "name" = Value.undefined → req.query.get "name" = Value.undefined →
      (accepts (userValidationRules lib req).1 "name" = true
        ↔ 20 ≤ validatorLength n ∧ validatorLength n ≤ 60)) ∧
    (req.headers.get "address" = Value.undefined → req.query.get "address" = Value.undefined →
      (accepts (userValidationRules lib req).1 "address" = true ↔ validatorLength a ≤ 400)) ∧
    (∀ s : String, validatorLength s
      = (s.toList.filter (fun c => !isVariationSelector c)).length) ∧
    (userValidationRules lib req).2.body.get "name" = Value.str (lib.escape (lib.trim n)) ∧
    (userValidationRules lib req).2.body.get "address"
      = Value.str (lib.escape (lib.trim a)) ∧
    (∀ r, (run (registerRoute lib pool bcrypt req) db).1 = Except.ok r → r.status = 201 →
      ∃ u, (run (registerRoute lib pool bcrypt req) db).2.1.users = db.users ++ [u] ∧
        u.name = Value.str (lib.escape (lib.trim n)) ∧
        u.address = Value.str (lib.escape (lib.trim a))) ∧
    (accepts (userValidationRules lib req).1 "name" = true → lib.escape (lib.trim n) = n →
      20 ≤ validatorLength (lib.escape (lib.trim n))
        ∧ validatorLength (lib.escape (lib.trim n)) ≤ 60) ∧
    (accepts (userValidationRules lib req).1 "address" = true →
      lib.escape (lib.trim a) = a → validatorLength (lib.escape (lib.trim a)) ≤ 400) := by
  intro _
  have hname : accepts (userValidationRules lib req).1 "name" = true
      ↔ ∀ p ∈ req.instances "name", 20 ≤ validatorLength (lib.fieldString p.2)
          ∧ validatorLength (lib.fieldString p.2) ≤ 60 := by
    rw [accepts_name]
    simp [isLength]
  have haddr : accepts (userValidationRules lib req).1 "address" = true
      ↔ ∀ p ∈ req.instances "address", validatorLength (lib.fieldString p.2) ≤ 400 := by
    rw [accepts_address]
    simp [isLength]
  have hmemn : (Location.body, Value.str n) ∈ req.instances "name" := by
    rw [Request.instances_eq, hn]
    simp
  have hmema : (Location.body, Value.str a) ∈ req.instances "address" := by
    rw [Request.instances_eq, ha]
    simp
  obtain ⟨hsn, _, _, hsa, _, _⟩ := userValidationRules_fields lib req
  rw [hn] at hsn
  rw [ha] at hsa
  simp only [ValidatorLib.fieldString, reduceCtorEq, false_and, if_false] at hsn hsa
  refine ⟨hname, haddr, hmemn, hmema, ?_, ?_, validatorLength_eq_filter, hsn, hsa, ?_, ?_, ?_⟩
  · intro hh hq
    rw [hname, Request.instances_body_only req "name" hh hq, hn]
    simp [ValidatorLib.fieldString]
  · intro hh hq
    rw [haddr, Request.instances_body_only req "address" hh hq, ha]
    simp [ValidatorLib.fieldString]
  · intro r hrun hstatus
    by_cases hnone : (userValidationRules lib req).1 = []
    · rw [(routes_next lib pool bcrypt req hnone).1] at hrun ⊢
      obtain ⟨salt, h, _, _, hstate⟩ := register_created pool bcrypt _ db r hrun hstatus
      have hdb := congrArg Prod.fst hstate
      simp only [hsn, hsa] at hdb
      refine ⟨⟨db.nextUserId, Value.str (lib.escape (lib.trim n)),
        toParam ((userValidationRules lib req).2.body.get "email"), Value.str h,
        Value.str (lib.escape (lib.trim a)), defaultRole⟩, ?_, rfl, rfl⟩
      rw [hdb]
      rfl
    · rw [(routes_respond lib pool bcrypt req db hnone).1] at hrun
      injection hrun with hr
      rw [← hr] at hstatus
      simp at hstatus
  · intro hacc hsame
    rw [hsame]
    simpa [ValidatorLib.fieldString] using hname.mp hacc _ hmemn
  · intro hacc hsame
    rw [hsame]
    simpa [ValidatorLib.fieldString] using haddr.mp hacc _ hmema

/-- C22, amended, at two sample registrations with sanitizers that trim and
escape: the name `Alice Margaret Smit` followed by the variation selector
U+FE0F has 20 code points and 19 counted characters and is not accepted; the
name `Alice Margaret Smithson` reaches the handler as it was submitted. -/
theorem name_address_rules_witness :
    ((accepts (userValidationRules Sample.libSanitizing (Sample.registerReq
        "Alice Margaret Smit\uFE0F" "alice@example.com" "Secret!Pass1" "1 Main St"
        Value.undefined)).1 "name" = true
      ↔ 20 ≤ validatorLength "Alice Margaret Smit\uFE0F"
          ∧ validatorLength "Alice Margaret Smit\uFE0F" ≤ 60) ∧
    validatorLength "Alice Margaret Smit\uFE0F" = 19 ∧
    "Alice Margaret Smit\uFE0F".length = 20) ∧
    (userValidationRules Sample.libSanitizing (Sample.registerReq
        "Alice Margaret Smithson" "alice@example.com" "Secret!Pass1" "1 Main St"
        Value.undefined)).2.body.get "name"
      = Value.str (Sample.libSanitizing.escape
          (Sample.libSanitizing.trim "Alice Margaret Smithson")) :=
  ⟨⟨(name_address_rules Sample.libSanitizing (Sample.pool 1) Sample.bcrypt
      (Sample.registerReq "Alice Margaret Smit\uFE0F" "alice@example.com" "Secret!Pass1"
        "1 Main St" Value.undefined) Sample.emptyDb "Alice Margaret Smit\uFE0F" "1 Main St"
      rfl rfl (by decide)).2.2.2.2.1 rfl rfl, by decide, by decide⟩,
    (name_address_rules Sample.libSanitizing (Sample.pool 1) Sample.bcrypt
      (Sample.registerReq "Alice Margaret Smithson" "alice@example.com" "Secret!Pass1"
        "1 Main St" Value.undefined) Sample.emptyDb "Alice Margaret Smithson" "1 Main St"
      rfl rfl (by decide)).2.2.2.2.2.2.2.1⟩

/-- The error list holds one entry per validator and instance on which the
validator fails. -/
theorem userValidationRules_count (lib : ValidatorLib) (req : Request) :
    (userValidationRules lib req).1.length = (validatorOutcomes lib req).count false := by
  rw [userValidationRules_errors]
  simp only [List.length_append, validate_length, validatorOutcomes, List.count_append]
  omega

/-- C23: `handleValidationErrors` answers 400 with one `{ param, msg }` entry
per reported error and does not go on exactly when the error list is not
empty, and goes on to the next handler, answering nothing, exactly when it is
empty.  For a request whose checked fields hold no array or object, the error
list of `userValidationRules` holds one entry per validator and submitted
instance of its field (in the body, a header or the query string) on which
the validator fails, so it is empty exactly when every validator passes on
every instance.  In the routes `POST /auth/register` and `POST /admin/users` a
failing validator thus gives the 400 answer with no statement issued and the
tables unchanged, and otherwise the handler runs on the sanitized request. -/
theorem handleValidationErrors_spec (lib : ValidatorLib) (pool : Pool) (bcrypt : Bcrypt)
    (req : Request) (db : Db) :
    (∀ errors : List FieldError, errors ≠ [] ↔
      handleValidationErrors errors = Step.respond { status := 400, body := ResBody.json (Json.obj
        [("errors", Json.arr (errors.map FieldError.toJson))]) }) ∧
    (∀ errors : List FieldError, errors = [] ↔ handleValidationErrors errors = Step.next) ∧
    (∀ e : FieldError, e.toJson
      = Json.obj [("param", Json.val (Value.str e.param)), ("msg", Json.val (Value.str e.msg))]) ∧
    (req.plainFields = true →
      (userValidationRules lib req).1.length = (validatorOutcomes lib req).count false ∧
      ((userValidationRules lib req).1 ≠ [] ↔ false ∈ validatorOutcomes lib req) ∧
      (false ∈ validatorOutcomes lib req →
        run (registerRoute lib pool bcrypt req) db
          = (Except.ok { status := 400, body := ResBody.json (Json.obj [("errors",
              Json.arr ((userValidationRules lib req).1.map FieldError.toJson))]) }, db, []) ∧
        run (createUserRoute lib pool bcrypt req) db
          = (Except.ok { status := 400, body := ResBody.json (Json.obj [("errors",
              Json.arr ((userValidationRules lib req).1.map FieldError.toJson))]) }, db, [])) ∧
      (false ∉ validatorOutcomes lib req →
        registerRoute lib pool bcrypt req
          = register pool bcrypt (userValidationRules lib req).2 ∧
        createUserRoute lib pool bcrypt req
          = createUser pool bcrypt (userValidationRules lib req).2)) := by
  have hiff : (userValidationRules lib req).1 ≠ [] ↔ false ∈ validatorOutcomes lib req := by
    rw [← List.count_pos_iff, ← userValidationRules_count, List.length_pos]
  refine ⟨?_, ?_, fun _ => rfl, fun _ => ⟨userValidationRules_count lib req, hiff, ?_, ?_⟩⟩
  · intro errors
    cases errors with
    | nil => simp [handleValidationErrors]
    | cons e es => simp [handleValidationErrors]
  · intro errors
    cases errors with
    | nil => simp [handleValidationErrors]
    | cons e es => simp [handleValidationErrors]
  · intro hfail
    exact routes_respond lib pool bcrypt req db (hiff.mpr hfail)
  · intro hpass
    exact routes_next lib pool bcrypt req (by
      by_contra hne
      exact hpass (hiff.mp hne))

/-- C23 at two sample registrations.  With the name `Al` and the password
`abc` in the body, the name validator and both password validators fail: the
answer is 400 with three entries and nothing is issued.  With a body that
passes every rule and the password `abc` in the query string, both password
validators fail on the instance of the query string: the answer is 400 with
two entries and nothing is issued. -/
theorem handleValidationErrors_spec_witness :
    run (registerRoute Sample.lib (Sample.pool 1) Sample.bcrypt
        (Sample.registerReq "Al" "alice@example.com" "abc" "1 Main St" Value.undefined))
        Sample.emptyDb
      = (Except.ok { status := 400, body := ResBody.json (Json.obj [("errors", Json.arr
          [Json.obj [("param", Json.val (Value.str "name")),
             ("msg", Json.val (Value.str "Name must be between 20 and 60 characters."))],
           Json.obj [("param", Json.val (Value.str "password")),
             ("msg", Json.val (Value.str passwordMsg))],
           Json.obj [("param", Json.val (Value.str "password")),
             ("msg", Json.val (Value.str passwordMsg))]])]) }, Sample.emptyDb, []) ∧
    run (registerRoute Sample.lib (Sample.pool 1) Sample.bcrypt
        (Sample.withQuery (Sample.registerReq "Alice Margaret Smithson" "alice@example.com"
          "Secret!Pass1" "1 Main St" Value.undefined) [("password", Value.str "abc")]))
        Sample.emptyDb
      = (Except.ok { status := 400, body := ResBody.json (Json.obj [("errors", Json.arr
          [Json.obj [("param", Json.val (Value.str "password")),
             ("msg", Json.val (Value.str passwordMsg))],
           Json.obj [("param", Json.val (Value.str "password")),
             ("msg", Json.val (Value.str passwordMsg))]])]) }, Sample.emptyDb, []) :=
  ⟨(((handleValidationErrors_spec Sample.lib (Sample.pool 1) Sample.bcrypt
      (Sample.registerReq "Al" "alice@example.com" "abc" "1 Main St" Value.undefined)
      Sample.emptyDb).2.2.2 (by decide)).2.2.1 (by decide)).1,
    (((handleValidationErrors_spec Sample.lib (Sample.pool 1) Sample.bcrypt
      (Sample.withQuery (Sample.registerReq "Alice Margaret Smithson" "alice@example.com"
        "Secret!Pass1" "1 Main St" Value.undefined) [("password", Value.str "abc")])
      Sample.emptyDb).2.2.2 (by decide)).2.2.1 (by decide)).1⟩

/-! ## Failures inside the handlers -/

/-- A `try` block whose `catch` answers always ends with an answer. -/
theorem tryCatch_answers {α : Type} (body : Handler α) (r : α) (st : HState) :
    ∃ a, (Handler.tryCatch body (fun _ => pure r) st).1 = Except.ok a := by
  unfold Handler.tryCatch
  rcases h : body st with ⟨o, st2⟩
  cases o with
  | ok a => exact ⟨a, rfl⟩
  | error e => exact ⟨r, rfl⟩

/-- A `try` block whose body throws ends with the answer of its `catch`. -/
theorem tryCatch_caught {α : Type} (body : Handler α) (r : α) (st : HState) (e : Thrown)
    (hthrow : (body st).1 = Except.error e) :
    (Handler.tryCatch body (fun _ => pure r) st).1 = Except.ok r := by
  unfold Handler.tryCatch
  rcases h : body st with ⟨o, st2⟩
  rw [h] at hthrow
  cases o with
  | ok a => cases hthrow
  | error e2 => rfl

/-- Nothing escapes `register`. -/
theorem register_never_escapes (pool : Pool) (bcrypt : Bcrypt) (req : Request) (db : Db) :
    ∃ r, (run (register pool bcrypt req) db).1 = Except.ok r :=
  tryCatch_answers _ serverError ⟨db, []⟩

/-- Nothing escapes admin `createUser`. -/
theorem createUser_never_escapes (pool : Pool) (bcrypt : Bcrypt) (req : Request) (db : Db) :
    ∃ r, (run (createUser pool bcrypt req) db).1 = Except.ok r :=
  tryCatch_answers _ serverError ⟨db, []⟩

/-- Nothing escapes admin `createStore`. -/
theorem createStore_never_escapes (pool : Pool) (req : Request) (db : Db) :
    ∃ r, (run (createStore pool req) db).1 = Except.ok r :=
  tryCatch_answers _ serverError ⟨db, []⟩

/-- Nothing escapes the admin lists and counts. -/
theorem admin_lists_never_escape (numberToString : JSNum → String) (coll : Collation)
    (pool : Pool) (req : Request) (db : Db) :
    (∃ r, (run (listUsers numberToString coll pool req) db).1 = Except.ok r) ∧
    (∃ r, (run (listStores numberToString coll pool req) db).1 = Except.ok r) ∧
    (∃ r, (run (adminStats pool) db).1 = Except.ok r) :=
  ⟨tryCatch_answers _ serverError ⟨db, []⟩, tryCatch_answers _ serverError ⟨db, []⟩,
    tryCatch_answers _ serverError ⟨db, []⟩⟩
/-- With the identity attached, nothing escapes `changePassword`. -/
theorem changePassword_never_escapes (pool : Pool) (bcrypt : Bcrypt) (req : Request) (db : Db)
    (id : JObject) (hid : req.user = some id) :
    ∃ r, (run (changePassword pool bcrypt req) db).1 = Except.ok r := by
  simp only [run, changePassword, Request.userField, hid, bind, Handler.bind, pure]
  exact tryCatch_answers _ serverError ⟨db, []⟩

/-- With the identity attached, nothing escapes the store list and the owner
dashboard. -/
theorem store_routes_never_escape (numberToString : JSNum → String) (coll : Collation)
    (pool : Pool) (req : Request) (db : Db) (id : JObject) (hid : req.user = some id) :
    (∃ r, (run (listStoresForUser numberToString coll pool req) db).1 = Except.ok r) ∧
    (∃ r, (run (ownerDashboard pool req) db).1 = Except.ok r) := by
  constructor
  · simp only [run, listStoresForUser, Request.userField, hid, bind, Handler.bind, pure]
    exact tryCatch_answers _ serverError ⟨db, []⟩
  · simp only [run, ownerDashboard, Request.userField, hid, bind, Handler.bind, pure]
    exact tryCatch_answers _ serverError ⟨db, []⟩

/-- With the identity attached, nothing escapes `submitRating`. -/
theorem submitRating_never_escapes (stringToNumber : String → JSNum) (pool : Pool)
    (req : Request) (db : Db) (id : JObject) (hid : req.user = some id) :
    ∃ r, (run (submitRating stringToNumber pool req) db).1 = Except.ok r := by
  by_cases hrange : (jsLt stringToNumber (req.body.get "rating") (lit 1)
      || jsGt stringToNumber (req.body.get "rating") (lit 5)) = true
  · exact ⟨msgResponse 400 "Rating must be between 1 and 5", by
      simp [run, submitRating, Request.userField, hid, hrange, bind, Handler.bind, pure]⟩
  · simp only [run, submitRating, Request.userField, hid, hrange, bind, Handler.bind, pure]
    exact tryCatch_answers _ serverError ⟨db, []⟩
/-- What escapes `login`: nothing but the signing error the token callback
rethrows after `jwt.sign` has returned, which needs a found user and a
matching password. -/
theorem login_escapes_iff (pool : Pool) (bcrypt : Bcrypt) (jwt : Jwt) (req : Request) (db : Db)
    (e : Thrown) :
    (run (login pool bcrypt jwt req) db).1 = Except.error e ↔
      e = Thrown.signing ∧
      pool.fails db ⟨sqlSelectUserByEmail, [req.body.get "email"]⟩ = false ∧
      ∃ user rest, db.usersByEmail (req.body.get "email") = user :: rest ∧
        bcrypt.compare (req.body.get "password") user.password = some true ∧
        jwt.sign (loginPayload user) jwt.secret loginSignOptions = SignOutcome.errorLater := by
  cases hf : pool.fails db ⟨sqlSelectUserByEmail, [req.body.get "email"]⟩ with
  | true =>
    simp [run, login, hf, bind, Handler.bind, pure, Handler.tryCatch, Pool.query]
  | false =>
    cases hrows : db.usersByEmail (req.body.get "email") with
    | nil =>
      simp [run, login, hf, hrows, bind, Handler.bind, pure, Handler.tryCatch, Pool.query]
    | cons user rest =>
      cases hcmp : bcrypt.compare (req.body.get "password") user.password with
      | none =>
        simp [run, login, hf, hrows, hcmp, bind, Handler.bind, pure, Handler.tryCatch,
          Pool.query, Bcrypt.compareStep, Handler.throw]
      | some b =>
        cases b with
        | false =>
          simp [run, login, hf, hrows, hcmp, bind, Handler.bind, pure, Handler.tryCatch,
            Pool.query, Bcrypt.compareStep]
        | true =>
          cases hsign : jwt.sign (loginPayload user) jwt.secret loginSignOptions with
          | token t =>
            simp [run, login, hf, hrows, hcmp, hsign, bind, Handler.bind, pure,
              Handler.tryCatch, Pool.query, Bcrypt.compareStep]
          | errorNow =>
            simp [run, login, hf, hrows, hcmp, hsign, bind, Handler.bind, pure,
              Handler.tryCatch, Pool.query, Bcrypt.compareStep, Handler.throw]
          | errorLater =>
            simp [run, login, hf, hrows, hcmp, hsign, bind, Handler.bind, pure,
              Handler.tryCatch, Pool.query, Bcrypt.compareStep, Handler.throw]
            exact eq_comm

/-- C24, failing input: the login of Alice with her password, while the signer
hands the token callback an error after `jwt.sign` has returned.  The callback
rethrows the error outside the `try` block: the run ends without an answer and
the signing error escapes.  In general a `login` run lets an error escape
exactly in this situation; every other handler ends with an answer whatever
the pool and `bcrypt` do (the handlers that read `req.user.id`, once the
identity is attached). -/
theorem login_signing_error_escapes :
    run (login (Sample.pool 1) Sample.bcrypt Sample.jwtLate
        (Sample.loginReq "alice@example.com" "Secret!Pass1")) Sample.aliceDb
      = (Except.error Thrown.signing, Sample.aliceDb,
          [⟨sqlSelectUserByEmail, [Value.str "alice@example.com"]⟩]) ∧
    (∀ (pool : Pool) (bcrypt : Bcrypt) (jwt : Jwt) (req : Request) (db : Db) (e : Thrown),
      (run (login pool bcrypt jwt req) db).1 = Except.error e ↔
        e = Thrown.signing ∧
        pool.fails db ⟨sqlSelectUserByEmail, [req.body.get "email"]⟩ = false ∧
        ∃ user rest, db.usersByEmail (req.body.get "email") = user :: rest ∧
          bcrypt.compare (req.body.get "password") user.password = some true ∧
          jwt.sign (loginPayload user) jwt.secret loginSignOptions
            = SignOutcome.errorLater) ∧
    (∀ (pool : Pool) (bcrypt : Bcrypt) (req : Request) (db : Db),
      (∃ r, (run (register pool bcrypt req) db).1 = Except.ok r) ∧
      (∃ r, (run (createUser pool bcrypt req) db).1 = Except.ok r) ∧
      (∃ r, (run (createStore pool req) db).1 = Except.ok r) ∧
      (∃ r, (run (adminStats pool) db).1 = Except.ok r)) ∧
    (∀ (numberToString : JSNum → String) (coll : Collation) (pool : Pool) (req : Request)
        (db : Db),
      (∃ r, (run (listUsers numberToString coll pool req) db).1 = Except.ok r) ∧
      (∃ r, (run (listStores numberToString coll pool req) db).1 = Except.ok r)) ∧
    (∀ (stringToNumber : String → JSNum) (numberToString : JSNum → String) (coll : Collation)
        (pool : Pool) (bcrypt : Bcrypt) (id body query headers : JObject) (db : Db),
      (∃ r, (run (submitRating stringToNumber pool ⟨some id, body, query, headers⟩) db).1
        = Except.ok r) ∧
      (∃ r, (run (changePassword pool bcrypt ⟨some id, body, query, headers⟩) db).1
        = Except.ok r) ∧
      (∃ r, (run (listStoresForUser numberToString coll pool
          ⟨some id, body, query, headers⟩) db).1 = Except.ok r) ∧
      (∃ r, (run (ownerDashboard pool ⟨some id, body, query, headers⟩) db).1
        = Except.ok r)) := by
  refine ⟨by rfl, login_escapes_iff, ?_, ?_, ?_⟩
  · intro pool bcrypt req db
    exact ⟨register_never_escapes pool bcrypt req db, createUser_never_escapes pool bcrypt req db,
      createStore_never_escapes pool req db,
      (admin_lists_never_escape (fun _ => "") ⟨fun _ _ => true, id⟩ pool req db).2.2⟩
  · intro numberToString coll pool req db
    exact ⟨(admin_lists_never_escape numberToString coll pool req db).1,
      (admin_lists_never_escape numberToString coll pool req db).2.1⟩
  · intro stringToNumber numberToString coll pool bcrypt id body query headers db
    exact ⟨submitRating_never_escapes stringToNumber pool _ db id rfl,
      changePassword_never_escapes pool bcrypt _ db id rfl,
      (store_routes_never_escape numberToString coll pool _ db id rfl).1,
      (store_routes_never_escape numberToString coll pool _ db id rfl).2⟩

/-! ## The updates behind the admin inserts -/

/-- C25: in `createStore` with a truthy `owner_id`, when the lookup and the
insert succeed and the role update is rejected, the answer is 500 while the
new store row is in the `stores` table and the `users` table is as before; in
`createUser` with the role 'Store Owner' and a truthy `store_id`, when the
lookup, the hashing and the insert succeed and the owner update is rejected,
the answer is 500 while the new user row is in the `users` table and the
`stores` table is as before. -/
theorem admin_creates_not_atomic (poolS poolU : Pool) (bcrypt : Bcrypt) (reqS reqU : Request)
    (dbS dbU : Db) (salt h : String)
    (hlookupS : poolS.fails dbS ⟨sqlSelectStoreByEmail, [reqS.body.get "email"]⟩ = false)
    (hfreeS : dbS.storesByEmail (reqS.body.get "email") = [])
    (hinsertS : poolS.fails dbS ⟨sqlInsertStore, [reqS.body.get "name", reqS.body.get "email",
      reqS.body.get "address", reqS.body.get "owner_id"]⟩ = false)
    (hownerS : truthy (reqS.body.get "owner_id") = true)
    (hupdateS : poolS.fails (Db.insertStore (reqS.body.get "name") (reqS.body.get "email")
        (reqS.body.get "address") (reqS.body.get "owner_id") dbS).2
      ⟨sqlPromoteOwner, [reqS.body.get "owner_id"]⟩ = true)
    (hlookupU : poolU.fails dbU ⟨sqlSelectUserByEmail, [reqU.body.get "email"]⟩ = false)
    (hfreeU : dbU.usersByEmail (reqU.body.get "email") = [])
    (hsalt : bcrypt.genSalt 10 = some salt)
    (hhash : bcrypt.hash (reqU.body.get "password") salt = some h)
    (hinsertU : poolU.fails dbU ⟨sqlInsertUserWithRole, [reqU.body.get "name",
      reqU.body.get "email", Value.str h, reqU.body.get "address", reqU.body.get "role"]⟩ = false)
    (hroleU : reqU.body.get "role" = Value.str "Store Owner")
    (hstoreU : truthy (reqU.body.get "store_id") = true)
    (hupdateU : poolU.fails (Db.insertUserWithRole (reqU.body.get "name") (reqU.body.get "email")
        (Value.str h) (reqU.body.get "address") (reqU.body.get "role") dbU).2
      ⟨sqlUpdateStoreOwner, [idVal dbU.nextUserId, reqU.body.get "store_id"]⟩ = true) :
    (run (createStore poolS reqS) dbS).1 = Except.ok serverError ∧
    (run (createStore poolS reqS) dbS).2.1.stores
      = dbS.stores ++ [⟨dbS.nextStoreId, toParam (reqS.body.get "name"),
          toParam (reqS.body.get "email"), toParam (reqS.body.get "address"),
          intColumn (reqS.body.get "owner_id")⟩] ∧
    (run (createStore poolS reqS) dbS).2.1.users = dbS.users ∧
    (run (createStore poolS reqS) dbS).2.2
      = [⟨sqlSelectStoreByEmail, [reqS.body.get "email"]⟩,
         ⟨sqlInsertStore, [reqS.body.get "name", reqS.body.get "email",
            reqS.body.get "address", reqS.body.get "owner_id"]⟩,
         ⟨sqlPromoteOwner, [reqS.body.get "owner_id"]⟩] ∧
    (run (createUser poolU bcrypt reqU) dbU).1 = Except.ok serverError ∧
    (run (createUser poolU bcrypt reqU) dbU).2.1.users
      = dbU.users ++ [⟨dbU.nextUserId, toParam (reqU.body.get "name"),
          toParam (reqU.body.get "email"), Value.str h, toParam (reqU.body.get "address"),
          Value.str "Store Owner"⟩] ∧
    (run (createUser poolU bcrypt reqU) dbU).2.1.stores = dbU.stores ∧
    (run (createUser poolU bcrypt reqU) dbU).2.2
      = [⟨sqlSelectUserByEmail, [reqU.body.get "email"]⟩,
         ⟨sqlInsertUserWithRole, [reqU.body.get "name", reqU.body.get "email", Value.str h,
            reqU.body.get "address", reqU.body.get "role"]⟩,
         ⟨sqlUpdateStoreOwner, [idVal dbU.nextUserId, reqU.body.get "store_id"]⟩] := by
  have hS : run (createStore poolS reqS) dbS
      = (Except.ok serverError,
          (Db.insertStore (reqS.body.get "name") (reqS.body.get "email")
            (reqS.body.get "address") (reqS.body.get "owner_id") dbS).2,
          [⟨sqlSelectStoreByEmail, [reqS.body.get "email"]⟩,
           ⟨sqlInsertStore, [reqS.body.get "name", reqS.body.get "email",
              reqS.body.get "address", reqS.body.get "owner_id"]⟩,
           ⟨sqlPromoteOwner, [reqS.body.get "owner_id"]⟩]) := by
    simp [run, createStore, hlookupS, hfreeS, hinsertS, hownerS, hupdateS, bind, Handler.bind,
      pure, Handler.tryCatch, Pool.query]
  have hU : run (createUser poolU bcrypt reqU) dbU
      = (Except.ok serverError,
          (Db.insertUserWithRole (reqU.body.get "name") (reqU.body.get "email")
            (Value.str h) (reqU.body.get "address") (reqU.body.get "role") dbU).2,
          [⟨sqlSelectUserByEmail, [reqU.body.get "email"]⟩,
           ⟨sqlInsertUserWithRole, [reqU.body.get "name", reqU.body.get "email", Value.str h,
              reqU.body.get "address", reqU.body.get "role"]⟩,
           ⟨sqlUpdateStoreOwner, [idVal dbU.nextUserId, reqU.body.get "store_id"]⟩]) := by
    have hins := hinsertU
    have hupd := hupdateU
    simp only [Db.insertUserWithRole, hroleU, toParam] at hins hupd
    simp [run, createUser, hlookupU, hfreeU, hsalt, hhash, hins, hstoreU, hupd,
      bind, Handler.bind, pure, Handler.tryCatch, Pool.query, Bcrypt.genSaltStep,
      Bcrypt.hashStep, Db.insertUserWithRole, hroleU, toParam]
  rw [hS, hU]
  simp [Db.insertStore, Db.insertUserWithRole, hroleU, toParam]
/-- C25 at the sample creation of `Harbour Books` for Alice on a pool that
rejects the role update, and of the store owner Carol for `Corner Shop` on a
pool that rejects the owner update: both answers are 500, the store and the
user are in their tables. -/
theorem admin_creates_not_atomic_witness :
    (run (createStore (Sample.poolRejecting sqlPromoteOwner)
        (Sample.createStoreReq "Harbour Books" "books@example.com" "5 Quay Rd" (idVal 7)))
        Sample.aliceDb).1 = Except.ok serverError ∧
    (run (createStore (Sample.poolRejecting sqlPromoteOwner)
        (Sample.createStoreReq "Harbour Books" "books@example.com" "5 Quay Rd" (idVal 7)))
        Sample.aliceDb).2.1.stores
      = [⟨1, Value.str "Harbour Books", Value.str "books@example.com", Value.str "5 Quay Rd",
          idVal 7⟩] ∧
    (run (createUser (Sample.poolRejecting sqlUpdateStoreOwner) Sample.bcrypt
        (Sample.createUserReq "Carol Denise Whitfield" "carol@example.com" "Secret!Pass1"
          "3 High St" (Value.str "Store Owner") (idVal 2))) Sample.shopDb).1
      = Except.ok serverError ∧
    (run (createUser (Sample.poolRejecting sqlUpdateStoreOwner) Sample.bcrypt
        (Sample.createUserReq "Carol Denise Whitfield" "carol@example.com" "Secret!Pass1"
          "3 High St" (Value.str "Store Owner") (idVal 2))) Sample.shopDb).2.1.users
      = [⟨1, Value.str "Carol Denise Whitfield", Value.str "carol@example.com",
          Value.str "hashed:Secret!Pass1", Value.str "3 High St", Value.str "Store Owner"⟩] :=
  have h := admin_creates_not_atomic (Sample.poolRejecting sqlPromoteOwner)
    (Sample.poolRejecting sqlUpdateStoreOwner) Sample.bcrypt
    (Sample.createStoreReq "Harbour Books" "books@example.com" "5 Quay Rd" (idVal 7))
    (Sample.createUserReq "Carol Denise Whitfield" "carol@example.com" "Secret!Pass1"
      "3 High St" (Value.str "Store Owner") (idVal 2))
    Sample.aliceDb Sample.shopDb "salt" "hashed:Secret!Pass1"
    (by decide) rfl (by decide)
    (by simp [Sample.createStoreReq, JObject.get, List.lookup, truthy, idVal, lit])
    (by decide) (by decide) rfl rfl rfl (by decide) rfl
    (by simp [Sample.createUserReq, JObject.get, List.lookup, truthy, idVal, lit])
    (by decide)
  ⟨h.1, h.2.1, h.2.2.2.2.1, h.2.2.2.2.2.1⟩

/-! ## The view of a client session -/

/-- The standardized role of a role that is a string or falsy. -/
theorem standardizedRole_defined (toLowerCase : String → String) (role : Value)
    (hrole : (∃ s, role = Value.str s) ∨ truthy role = false) :
    ∃ r, standardizedRole toLowerCase role = some r := by
  rcases hrole with ⟨s, hs⟩ | hfalsy
  · subst hs
    by_cases h : truthy (Value.str s) = true <;> simp [standardizedRole, h]
  · simp [standardizedRole, hfalsy]

/-- For a logged-in session whose role standardizes to `r`, `renderView` is
the `switch` on `r`. -/
theorem renderView_switch (toLowerCase : String → String) (token : Value) (user : JObject)
    (view r : String) (htoken : truthy token = true)
    (hr : standardizedRole toLowerCase (user.get "role") = some r) :
    renderView toLowerCase token (some user) view
      = if r = "normal_user" then some View.normalUserDashboard
        else if r = "store_owner" then some View.storeOwnerDashboard
        else if r = "system_administrator" then some View.adminDashboard
        else some (View.unknownRole (user.get "role")) := by
  simp [renderView, htoken, hr]

/-- C26: for a logged-in session (truthy token, a `user` object) whose role is
a string or falsy (missing, `null`, empty), `renderView` shows the Normal
User, Store Owner or System Administrator dashboard exactly when the role,
trimmed, lower-cased and with every space replaced by an underscore, is
`normal_user`, `store_owner` or `system_administrator`, and the 'Unknown role'
message exactly for every other standardized role.  With a `toLowerCase` that
lower-cases ASCII texts letter by letter, the server roles 'Normal User',
'Store Owner' and 'System Administrator' reach their own dashboards and a
missing role gets the 'Unknown role' message. -/
theorem renderView_spec (toLowerCase : String → String) (token : Value) (user : JObject)
    (view : String) (htoken : truthy token = true)
    (hrole : (∃ s, user.get "role" = Value.str s) ∨ truthy (user.get "role") = false)
    (hascii : ∀ s : String, (∀ c ∈ s.toList, c.toNat < 128) →
      toLowerCase s = String.mk (s.toList.map Char.toLower)) :
    (∃ r, standardizedRole toLowerCase (user.get "role") = some r ∧
      (renderView toLowerCase token (some user) view = some View.normalUserDashboard
        ↔ r = "normal_user") ∧
      (renderView toLowerCase token (some user) view = some View.storeOwnerDashboard
        ↔ r = "store_owner") ∧
      (renderView toLowerCase token (some user) view = some View.adminDashboard
        ↔ r = "system_administrator") ∧
      (renderView toLowerCase token (some user) view = some (View.unknownRole (user.get "role"))
        ↔ r ≠ "normal_user" ∧ r ≠ "store_owner" ∧ r ≠ "system_administrator")) ∧
    (user.get "role" = defaultRole →
      renderView toLowerCase token (some user) view = some View.normalUserDashboard) ∧
    (user.get "role" = Value.str "Store Owner" →
      renderView toLowerCase token (some user) view = some View.storeOwnerDashboard) ∧
    (user.get "role" = Value.str "System Administrator" →
      renderView toLowerCase token (some user) view = some View.adminDashboard) ∧
    (user.get "role" = Value.undefined →
      renderView toLowerCase token (some user) view = some (View.unknownRole Value.undefined)) := by
  refine ⟨?_, ?_, ?_, ?_, ?_⟩
  · obtain ⟨r, hr⟩ := standardizedRole_defined toLowerCase (user.get "role") hrole
    refine ⟨r, hr, ?_, ?_, ?_, ?_⟩
    all_goals rw [renderView_switch toLowerCase token user view r htoken hr]
    · by_cases h1 : r = "normal_user"
      · simp [h1]
      · by_cases h2 : r = "store_owner"
        · simp [h2]
        · by_cases h3 : r = "system_administrator" <;> simp [h1, h2, h3]
    · by_cases h1 : r = "normal_user"
      · simp [h1]
      · by_cases h2 : r = "store_owner"
        · simp [h2]
        · by_cases h3 : r = "system_administrator" <;> simp [h1, h2, h3]
    · by_cases h1 : r = "normal_user"
      · simp [h1]
      · by_cases h2 : r = "store_owner"
        · simp [h2]
        · by_cases h3 : r = "system_administrator" <;> simp [h1, h2, h3]
    · by_cases h1 : r = "normal_user"
      · simp [h1]
      · by_cases h2 : r = "store_owner"
        · simp [h2]
        · by_cases h3 : r = "system_administrator" <;> simp [h1, h2, h3]
  · intro h
    have hlow := hascii (jsTrim "Normal User") (by decide)
    rw [renderView_switch toLowerCase token user view "normal_user" htoken
      (by rw [h]; simp only [standardizedRole, defaultRole]; rw [if_pos (by decide)]
          simp only [hlow]; decide)]
    rfl
  · intro h
    have hlow := hascii (jsTrim "Store Owner") (by decide)
    rw [renderView_switch toLowerCase token user view "store_owner" htoken
      (by rw [h]; simp only [standardizedRole]; rw [if_pos (by decide)]
          simp only [hlow]; decide)]
    rfl
  · intro h
    have hlow := hascii (jsTrim "System Administrator") (by decide)
    rw [renderView_switch toLowerCase token user view "system_administrator" htoken
      (by rw [h]; simp only [standardizedRole]; rw [if_pos (by decide)]
          simp only [hlow]; decide)]
    rfl
  · intro h
    have hlow := hascii (jsTrim "") (by decide)
    rw [renderView_switch toLowerCase token user view "" htoken
      (by rw [h]; simp only [standardizedRole]; rw [if_neg (by decide)]
          simp only [hlow]; decide), h]
    rfl
/-- C26 at the sample session of a store owner. -/
theorem renderView_spec_witness :
    renderView Sample.toLowerCase (Value.str "signed-token")
      (some (Sample.session (Value.str "Store Owner"))) "login"
      = some View.storeOwnerDashboard :=
  (renderView_spec Sample.toLowerCase (Value.str "signed-token")
    (Sample.session (Value.str "Store Owner")) "login" (by decide)
    (Or.inl ⟨"Store Owner", rfl⟩) (fun _ _ => rfl)).2.2.1 rfl

/-! ## Whose rating a call writes -/

/-- The tables and statements a `submitRating` run of an identified request
can leave: nothing issued, the lookup alone, or the lookup with the update or
the insert of the identity's own pair, rejected or carried out. -/
theorem submitRating_outcomes (stringToNumber : String → JSNum) (pool : Pool) (req : Request)
    (id : JObject) (db : Db) (huser : req.user = some id) :
    (run (submitRating stringToNumber pool req) db).2 = (db, []) ∨
    (run (submitRating stringToNumber pool req) db).2
      = (db, [⟨sqlSelectRating, [id.get "id", req.body.get "store_id"]⟩]) ∨
    (run (submitRating stringToNumber pool req) db).2
      = (db, [⟨sqlSelectRating, [id.get "id", req.body.get "store_id"]⟩,
          ⟨sqlUpdateRating, [req.body.get "rating", id.get "id", req.body.get "store_id"]⟩]) ∨
    (run (submitRating stringToNumber pool req) db).2
      = ((Db.updateRating pool.now (req.body.get "rating") (id.get "id")
            (req.body.get "store_id") db).2,
          [⟨sqlSelectRating, [id.get "id", req.body.get "store_id"]⟩,
           ⟨sqlUpdateRating, [req.body.get "rating", id.get "id", req.body.get "store_id"]⟩]) ∨
    (run (submitRating stringToNumber pool req) db).2
      = (db, [⟨sqlSelectRating, [id.get "id", req.body.get "store_id"]⟩,
          ⟨sqlInsertRating, [id.get "id", req.body.get "store_id", req.body.get "rating"]⟩]) ∨
    (run (submitRating stringToNumber pool req) db).2
      = ((Db.insertRating pool.now (id.get "id") (req.body.get "store_id")
            (req.body.get "rating") db).2,
          [⟨sqlSelectRating, [id.get "id", req.body.get "store_id"]⟩,
           ⟨sqlInsertRating, [id.get "id", req.body.get "store_id", req.body.get "rating"]⟩]) := by
  by_cases hc : (jsLt stringToNumber (req.body.get "rating") (lit 1)
      || jsGt stringToNumber (req.body.get "rating") (lit 5)) = true
  · left
    simp [run, submitRating, Request.userField, huser, hc, bind, Handler.bind, pure]
  · by_cases hf1 : pool.fails db ⟨sqlSelectRating, [id.get "id", req.body.get "store_id"]⟩ = true
    · right; left
      simp [run, submitRating, Request.userField, huser, hc, hf1, bind, Handler.bind, pure,
        Handler.tryCatch, Pool.query]
    · by_cases hlen : 0 < (db.selectRating (id.get "id") (req.body.get "store_id")).length
      · by_cases hf2 : pool.fails db ⟨sqlUpdateRating,
            [req.body.get "rating", id.get "id", req.body.get "store_id"]⟩ = true
        · right; right; left
          simp [run, submitRating, Request.userField, huser, hc, hf1, hf2, hlen, bind,
            Handler.bind, pure, Handler.tryCatch, Pool.query]
        · right; right; right; left
          simp [run, submitRating, Request.userField, huser, hc, hf1, hf2, hlen, bind,
            Handler.bind, pure, Handler.tryCatch, Pool.query]
      · by_cases hf2 : pool.fails db ⟨sqlInsertRating,
            [id.get "id", req.body.get "store_id", req.body.get "rating"]⟩ = true
        · right; right; right; right; left
          simp [run, submitRating, Request.userField, huser, hc, hf1, hf2, hlen, bind,
            Handler.bind, pure, Handler.tryCatch, Pool.query]
        · right; right; right; right; right
          simp [run, submitRating, Request.userField, huser, hc, hf1, hf2, hlen, bind,
            Handler.bind, pure, Handler.tryCatch, Pool.query]

/-- The update statement leaves every rating of another user as it is. -/
theorem updateRating_others (now : Nat) (v u s : Value) (db : Db) :
    (Db.updateRating now v u s db).2.ratings.filter (fun r => decide (r.user_id ≠ intColumn u))
      = db.ratings.filter (fun r => decide (r.user_id ≠ intColumn u)) := by
  simp only [Db.updateRating]
  induction db.ratings with
  | nil => rfl
  | cons r rs ih =>
    by_cases h : r.isFor u s = true
    · have hu : r.user_id = intColumn u := by
        simp only [RatingRow.isFor, Bool.and_eq_true, sqlEq_iff] at h
        exact h.1.1
      simp only [List.map_cons, List.filter_cons, h, hu, if_true, ne_eq, not_true_eq_false,
        decide_False, ih]
      simp
    · simp only [List.map_cons, List.filter_cons, h, if_false, ih]
      simp

/-- The insert statement leaves every rating of another user as it is. -/
theorem insertRating_others (now : Nat) (u s v : Value) (db : Db) :
    (Db.insertRating now u s v db).2.ratings.filter (fun r => decide (r.user_id ≠ intColumn u))
      = db.ratings.filter (fun r => decide (r.user_id ≠ intColumn u)) := by
  simp [Db.insertRating, List.filter_append, List.filter_cons]

/-- C27: two `submitRating` requests with the same `req.user` and the same
`store_id` and `rating` fields run alike (same answer, same tables, same
statements), whatever else their bodies and query strings hold.  With the
identity attached, every statement of the run carries the identity's id as
the user id, the ratings whose `user_id` is not that id are after the run what
they were before, and the `users` and `stores` tables are unchanged. -/
theorem submitRating_uses_identity (stringToNumber : String → JSNum) (pool : Pool)
    (req1 req2 : Request) (db : Db) (huser : req1.user = req2.user)
    (hstore : req1.body.get "store_id" = req2.body.get "store_id")
    (hrating : req1.body.get "rating" = req2.body.get "rating") :
    run (submitRating stringToNumber pool req1) db
      = run (submitRating stringToNumber pool req2) db ∧
    (∀ id, req1.user = some id →
      (∀ stmt ∈ (run (submitRating stringToNumber pool req1) db).2.2,
        stmt = ⟨sqlSelectRating, [id.get "id", req1.body.get "store_id"]⟩ ∨
        stmt = ⟨sqlUpdateRating,
          [req1.body.get "rating", id.get "id", req1.body.get "store_id"]⟩ ∨
        stmt = ⟨sqlInsertRating,
          [id.get "id", req1.body.get "store_id", req1.body.get "rating"]⟩) ∧
      (run (submitRating stringToNumber pool req1) db).2.1.ratings.filter
          (fun r => decide (r.user_id ≠ intColumn (id.get "id")))
        = db.ratings.filter (fun r => decide (r.user_id ≠ intColumn (id.get "id"))) ∧
      (run (submitRating stringToNumber pool req1) db).2.1.users = db.users ∧
      (run (submitRating stringToNumber pool req1) db).2.1.stores = db.stores) := by
  constructor
  · have heq : submitRating stringToNumber pool req1 = submitRating stringToNumber pool req2 := by
      simp only [submitRating, Request.userField, huser, hstore, hrating]
    rw [heq]
  · intro id hid
    rcases submitRating_outcomes stringToNumber pool req1 id db hid with h | h | h | h | h | h
    all_goals
      have hdb := congrArg Prod.fst h
      have hlog := congrArg Prod.snd h
      simp only at hdb hlog
      rw [hdb, hlog]
    · simp
    · simp
    · simp
    · refine ⟨by simp, updateRating_others _ _ _ _ _, rfl, rfl⟩
    · simp
    · refine ⟨by simp, insertRating_others _ _ _ _ _, rfl, rfl⟩

/-- C27 at the sample call of user 1 rating store 2 with 4, once with the
plain body and once with a body that names user 3 in `user_id`: both run
alike, and the ratings of the other users stay as they were. -/
theorem submitRating_uses_identity_witness :
    run (submitRating Sample.noNumber (Sample.pool 20) (Sample.rate 1 (idVal 2) (lit 4)))
        Sample.ratedDb
      = run (submitRating Sample.noNumber (Sample.pool 20)
          (Sample.rateFor 1 (idVal 3) (idVal 2) (lit 4))) Sample.ratedDb ∧
    (run (submitRating Sample.noNumber (Sample.pool 20) (Sample.rate 1 (idVal 2) (lit 4)))
        Sample.ratedDb).2.1.ratings.filter (fun r => decide (r.user_id ≠ intColumn (idVal 1)))
      = Sample.ratedDb.ratings.filter (fun r => decide (r.user_id ≠ intColumn (idVal 1))) :=
  have h := submitRating_uses_identity Sample.noNumber (Sample.pool 20)
    (Sample.rate 1 (idVal 2) (lit 4)) (Sample.rateFor 1 (idVal 3) (idVal 2) (lit 4))
    Sample.ratedDb rfl rfl rfl
  ⟨h.1, (h.2 [("id", idVal 1)] rfl).2.1⟩

/-! ## Placeholders of the list queries -/

set_option maxRecDepth 100000 in
/-- The text of the user list holds the placeholders `$1` to `$n` in this
order, `n` being the number of parameters. -/
theorem userList_placeholders (numberToString : JSNum → String) (name email role : Value) :
    placeholders (sqlUserListHead ++ whereText (userListBuild numberToString name email role)
        ++ sqlUserListTail).toList
      = List.range' 1 (userListBuild numberToString name email role).params.length := by
  cases h1 : truthy name <;> cases h2 : truthy email <;> cases h3 : truthy role <;>
    simp only [userListBuild, pushLike, pushEq, h1, h2, h3, whereText, List.length_append,
      List.length_cons, List.length_nil, List.nil_append, if_true, if_false, Bool.false_eq_true,
      gt_iff_lt, Nat.lt_irrefl, Nat.zero_add, Nat.reduceAdd, Nat.zero_lt_succ, Nat.lt_add_one,
      Nat.zero_lt_one, Nat.ofNat_pos, List.cons_append] <;>
    decide

set_option maxRecDepth 100000 in
/-- The text of the admin store list holds the placeholders `$1` to `$n` in
this order, `n` being the number of parameters. -/
theorem adminStoreList_placeholders (numberToString : JSNum → String)
    (name email address : Value) :
    placeholders (sqlAdminStoreListHead
        ++ whereText (adminStoreListBuild numberToString name email address)
        ++ sqlAdminStoreListTail).toList
      = List.range' 1 (adminStoreListBuild numberToString name email address).params.length := by
  cases h1 : truthy name <;> cases h2 : truthy email <;> cases h3 : truthy address <;>
    simp only [adminStoreListBuild, pushLike, h1, h2, h3, whereText, List.length_append,
      List.length_cons, List.length_nil, List.nil_append, if_true, if_false, Bool.false_eq_true,
      gt_iff_lt, Nat.lt_irrefl, Nat.zero_add, Nat.reduceAdd, Nat.zero_lt_succ, Nat.lt_add_one,
      Nat.zero_lt_one, Nat.ofNat_pos, List.cons_append] <;>
    decide

set_option maxRecDepth 100000 in
/-- The text of the store list holds the placeholders `$1` to `$n` in this
order, `n` being the number of parameters. -/
theorem storeList_placeholders (numberToString : JSNum → String) (userId name address : Value) :
    placeholders (sqlStoreListHead ++ whereText (storeListBuild numberToString userId name address)
        ++ sqlStoreListTail).toList
      = List.range' 1 (storeListBuild numberToString userId name address).params.length := by
  cases h1 : truthy name <;> cases h2 : truthy address <;>
    simp only [storeListBuild, pushLike, h1, h2, whereText, List.length_append,
      List.length_cons, List.length_nil, List.nil_append, if_true, if_false, Bool.false_eq_true,
      gt_iff_lt, Nat.lt_irrefl, Nat.zero_add, Nat.reduceAdd, Nat.zero_lt_succ, Nat.lt_add_one,
      Nat.zero_lt_one, Nat.ofNat_pos, List.cons_append] <;>
    decide

/-- The statement each list handler hands to `pool.query`: the text around the
`WHERE` clause of its builder, with the builder's parameters. -/
theorem list_statements (numberToString : JSNum → String) (coll : Collation) (pool : Pool)
    (req : Request) (db : Db) :
    (run (listUsers numberToString coll pool req) db).2.2
      = [⟨sqlUserListHead ++ whereText (userListBuild numberToString (req.query.get "name")
            (req.query.get "email") (req.query.get "role")) ++ sqlUserListTail,
          (userListBuild numberToString (req.query.get "name") (req.query.get "email")
            (req.query.get "role")).params⟩] ∧
    (run (listStores numberToString coll pool req) db).2.2
      = [⟨sqlAdminStoreListHead ++ whereText (adminStoreListBuild numberToString
            (req.query.get "name") (req.query.get "email") (req.query.get "address"))
            ++ sqlAdminStoreListTail,
          (adminStoreListBuild numberToString (req.query.get "name") (req.query.get "email")
            (req.query.get "address")).params⟩] ∧
    (∀ id, req.user = some id →
      (run (listStoresForUser numberToString coll pool req) db).2.2
        = [⟨sqlStoreListHead ++ whereText (storeListBuild numberToString (id.get "id")
              (req.query.get "name") (req.query.get "address")) ++ sqlStoreListTail,
            (storeListBuild numberToString (id.get "id") (req.query.get "name")
              (req.query.get "address")).params⟩]) := by
  refine ⟨?_, ?_, ?_⟩
  · cases hf : pool.fails db ⟨sqlUserListHead ++ whereText (userListBuild numberToString
        (req.query.get "name") (req.query.get "email") (req.query.get "role"))
        ++ sqlUserListTail, (userListBuild numberToString (req.query.get "name")
        (req.query.get "email") (req.query.get "role")).params⟩ <;>
      simp only [userListBuild] at hf <;>
      simp [run, listUsers, userListBuild, hf, bind, Handler.bind, pure, Handler.tryCatch,
        Pool.query]
  · cases hf : pool.fails db ⟨sqlAdminStoreListHead ++ whereText (adminStoreListBuild
        numberToString (req.query.get "name") (req.query.get "email")
        (req.query.get "address")) ++ sqlAdminStoreListTail,
        (adminStoreListBuild numberToString (req.query.get "name") (req.query.get "email")
        (req.query.get "address")).params⟩ <;>
      simp only [adminStoreListBuild] at hf <;>
      simp [run, listStores, adminStoreListBuild, hf, bind, Handler.bind, pure,
        Handler.tryCatch, Pool.query]
  · intro id hid
    cases hf : pool.fails db ⟨sqlStoreListHead ++ whereText (storeListBuild numberToString
        (id.get "id") (req.query.get "name") (req.query.get "address")) ++ sqlStoreListTail,
        (storeListBuild numberToString (id.get "id") (req.query.get "name")
        (req.query.get "address")).params⟩ <;>
      simp only [storeListBuild] at hf <;>
      cases hq : db.storeList coll.le (storeListFilter coll numberToString
        (req.query.get "name") (req.query.get "address")) (id.get "id") <;>
      simp [run, listStoresForUser, storeListBuild, Request.userField, hid, hf, hq, bind,
        Handler.bind, pure, Handler.tryCatch, Pool.queryOpt]
/-- Where the clauses of the user list point: the clause of a truthy filter
names the placeholder whose number is the position, counted from 1, of that
filter's parameter; there is one clause and one parameter per truthy filter. -/
theorem userListBuild_positions (numberToString : JSNum → String) (name email role : Value) :
    (truthy name = true → ∃ k, 1 ≤ k ∧
      "u.name ILIKE $" ++ toString k ∈ (userListBuild numberToString name email role).clauses ∧
      (userListBuild numberToString name email role).params.get? (k - 1)
        = some (Value.str ("%" ++ interpolate numberToString name ++ "%"))) ∧
    (truthy email = true → ∃ k, 1 ≤ k ∧
      "u.email ILIKE $" ++ toString k ∈ (userListBuild numberToString name email role).clauses ∧
      (userListBuild numberToString name email role).params.get? (k - 1)
        = some (Value.str ("%" ++ interpolate numberToString email ++ "%"))) ∧
    (truthy role = true → ∃ k, 1 ≤ k ∧
      "u.role = $" ++ toString k ∈ (userListBuild numberToString name email role).clauses ∧
      (userListBuild numberToString name email role).params.get? (k - 1) = some role) ∧
    (userListBuild numberToString name email role).clauses.length
      = ([name, email, role].filter truthy).length ∧
    (userListBuild numberToString name email role).params.length
      = (userListBuild numberToString name email role).clauses.length := by
  refine ⟨fun h1 => ⟨1, le_refl 1, ?_, ?_⟩,
    fun h2 => ⟨(if truthy name then 1 else 0) + 1, Nat.le_add_left 1 _, ?_, ?_⟩,
    fun h3 => ⟨(if truthy name then 1 else 0) + (if truthy email then 1 else 0) + 1,
      Nat.le_add_left 1 _, ?_, ?_⟩, ?_, ?_⟩
  all_goals
    cases h1 : truthy name <;> cases h2 : truthy email <;> cases h3 : truthy role <;>
      simp_all [userListBuild, pushLike, pushEq, likePattern]
/-- Where the clauses of the admin store list point. -/
theorem adminStoreListBuild_positions (numberToString : JSNum → String)
    (name email address : Value) :
    (truthy name = true → ∃ k, 1 ≤ k ∧
      "s.name ILIKE $" ++ toString k
        ∈ (adminStoreListBuild numberToString name email address).clauses ∧
      (adminStoreListBuild numberToString name email address).params.get? (k - 1)
        = some (Value.str ("%" ++ interpolate numberToString name ++ "%"))) ∧
    (truthy email = true → ∃ k, 1 ≤ k ∧
      "s.email ILIKE $" ++ toString k
        ∈ (adminStoreListBuild numberToString name email address).clauses ∧
      (adminStoreListBuild numberToString name email address).params.get? (k - 1)
        = some (Value.str ("%" ++ interpolate numberToString email ++ "%"))) ∧
    (truthy address = true → ∃ k, 1 ≤ k ∧
      "s.address ILIKE $" ++ toString k
        ∈ (adminStoreListBuild numberToString name email address).clauses ∧
      (adminStoreListBuild numberToString name email address).params.get? (k - 1)
        = some (Value.str ("%" ++ interpolate numberToString address ++ "%"))) ∧
    (adminStoreListBuild numberToString name email address).clauses.length
      = ([name, email, address].filter truthy).length ∧
    (adminStoreListBuild numberToString name email address).params.length
      = (adminStoreListBuild numberToString name email address).clauses.length := by
  refine ⟨fun h1 => ⟨1, le_refl 1, ?_, ?_⟩,
    fun h2 => ⟨(if truthy name then 1 else 0) + 1, Nat.le_add_left 1 _, ?_, ?_⟩,
    fun h3 => ⟨(if truthy name then 1 else 0) + (if truthy email then 1 else 0) + 1,
      Nat.le_add_left 1 _, ?_, ?_⟩, ?_, ?_⟩
  all_goals
    cases h1 : truthy name <;> cases h2 : truthy email <;> cases h3 : truthy address <;>
      simp_all [adminStoreListBuild, pushLike, likePattern]

/-- Where the clauses of the store list point: the first parameter is the
requesting user's id, and the clause of a truthy filter names a placeholder
from `$2` on. -/
theorem storeListBuild_positions (numberToString : JSNum → String)
    (userId name address : Value) :
    (storeListBuild numberToString userId name address).params.get? 0 = some userId ∧
    (truthy name = true → ∃ k, 2 ≤ k ∧
      "s.name ILIKE $" ++ toString k
        ∈ (storeListBuild numberToString userId name address).clauses ∧
      (storeListBuild numberToString userId name address).params.get? (k - 1)
        = some (Value.str ("%" ++ interpolate numberToString name ++ "%"))) ∧
    (truthy address = true → ∃ k, 2 ≤ k ∧
      "s.address ILIKE $" ++ toString k
        ∈ (storeListBuild numberToString userId name address).clauses ∧
      (storeListBuild numberToString userId name address).params.get? (k - 1)
        = some (Value.str ("%" ++ interpolate numberToString address ++ "%"))) ∧
    (storeListBuild numberToString userId name address).clauses.length
      = ([name, address].filter truthy).length ∧
    (storeListBuild numberToString userId name address).params.length
      = (storeListBuild numberToString userId name address).clauses.length + 1 := by
  refine ⟨?_, fun h1 => ⟨2, le_refl 2, ?_, ?_⟩,
    fun h2 => ⟨(if truthy name then 1 else 0) + 2, Nat.le_add_left 2 _, ?_, ?_⟩, ?_, ?_⟩
  all_goals
    cases h1 : truthy name <;> cases h2 : truthy address <;>
      simp_all [storeListBuild, pushLike, likePattern]
/-- A list that counts from 1 holds as many different numbers as it is long. -/
theorem dedup_range_length (ps : List Nat) (n : Nat) (h : ps = List.range' 1 n) :
    ps.dedup.length = n := by
  rw [h, List.Nodup.dedup (List.nodup_range' 1 n), List.length_range']

/-- C28: each list handler hands `pool.query` the text around the `WHERE`
clause of its builder together with the builder's parameters; the clauses are
joined by `AND` behind `WHERE`, which is left out when there is none.  For
every combination of filters, the clause of a truthy filter names the
placeholder `$k` with `k` the position, counted from 1, of that filter's own
parameter, there is one clause per truthy filter and one parameter per clause
(in `GET /stores` one more, the requesting user's id, which is `$1`, the
filters starting at `$2`), and the text holds exactly the placeholders `$1` to
`$n` for `n` parameters, so as many different placeholders as parameters. -/
theorem list_queries_placeholders (numberToString : JSNum → String) (coll : Collation)
    (pool : Pool) (req : Request) (id : JObject) (db : Db) (hid : req.user = some id) :
    ((run (listUsers numberToString coll pool req) db).2.2
        = [⟨sqlUserListHead ++ whereText (userListBuild numberToString (req.query.get "name")
              (req.query.get "email") (req.query.get "role")) ++ sqlUserListTail,
            (userListBuild numberToString (req.query.get "name") (req.query.get "email")
              (req.query.get "role")).params⟩] ∧
      (run (listStores numberToString coll pool req) db).2.2
        = [⟨sqlAdminStoreListHead ++ whereText (adminStoreListBuild numberToString
              (req.query.get "name") (req.query.get "email") (req.query.get "address"))
              ++ sqlAdminStoreListTail,
            (adminStoreListBuild numberToString (req.query.get "name") (req.query.get "email")
              (req.query.get "address")).params⟩] ∧
      (run (listStoresForUser numberToString coll pool req) db).2.2
        = [⟨sqlStoreListHead ++ whereText (storeListBuild numberToString (id.get "id")
              (req.query.get "name") (req.query.get "address")) ++ sqlStoreListTail,
            (storeListBuild numberToString (id.get "id") (req.query.get "name")
              (req.query.get "address")).params⟩]) ∧
    (∀ b : QueryBuild, (b.clauses = [] → whereText b = "") ∧
      (b.clauses ≠ [] → whereText b = " WHERE " ++ " AND ".intercalate b.clauses)) ∧
    (∀ name email role : Value,
      (truthy name = true → ∃ k, 1 ≤ k ∧
        "u.name ILIKE $" ++ toString k ∈ (userListBuild numberToString name email role).clauses ∧
        (userListBuild numberToString name email role).params.get? (k - 1)
          = some (Value.str ("%" ++ interpolate numberToString name ++ "%"))) ∧
      (truthy email = true → ∃ k, 1 ≤ k ∧
        "u.email ILIKE $" ++ toString k
          ∈ (userListBuild numberToString name email role).clauses ∧
        (userListBuild numberToString name email role).params.get? (k - 1)
          = some (Value.str ("%" ++ interpolate numberToString email ++ "%"))) ∧
      (truthy role = true → ∃ k, 1 ≤ k ∧
        "u.role = $" ++ toString k ∈ (userListBuild numberToString name email role).clauses ∧
        (userListBuild numberToString name email role).params.get? (k - 1) = some role) ∧
      (userListBuild numberToString name email role).clauses.length
        = ([name, email, role].filter truthy).length ∧
      (userListBuild numberToString name email role).params.length
        = (userListBuild numberToString name email role).clauses.length) ∧
    (∀ name email address : Value,
      (truthy name = true → ∃ k, 1 ≤ k ∧
        "s.name ILIKE $" ++ toString k
          ∈ (adminStoreListBuild numberToString name email address).clauses ∧
        (adminStoreListBuild numberToString name email address).params.get? (k - 1)
          = some (Value.str ("%" ++ interpolate numberToString name ++ "%"))) ∧
      (truthy email = true → ∃ k, 1 ≤ k ∧
        "s.email ILIKE $" ++ toString k
          ∈ (adminStoreListBuild numberToString name email address).clauses ∧
        (adminStoreListBuild numberToString name email address).params.get? (k - 1)
          = some (Value.str ("%" ++ interpolate numberToString email ++ "%"))) ∧
      (truthy address = true → ∃ k, 1 ≤ k ∧
        "s.address ILIKE $" ++ toString k
          ∈ (adminStoreListBuild numberToString name email address).clauses ∧
        (adminStoreListBuild numberToString name email address).params.get? (k - 1)
          = some (Value.str ("%" ++ interpolate numberToString address ++ "%"))) ∧
      (adminStoreListBuild numberToString name email address).clauses.length
        = ([name, email, address].filter truthy).length ∧
      (adminStoreListBuild numberToString name email address).params.length
        = (adminStoreListBuild numberToString name email address).clauses.length) ∧
    (∀ userId name address : Value,
      (storeListBuild numberToString userId name address).params.get? 0 = some userId ∧
      (truthy name = true → ∃ k, 2 ≤ k ∧
        "s.name ILIKE $" ++ toString k
          ∈ (storeListBuild numberToString userId name address).clauses ∧
        (storeListBuild numberToString userId name address).params.get? (k - 1)
          = some (Value.str ("%" ++ interpolate numberToString name ++ "%"))) ∧
      (truthy address = true → ∃ k, 2 ≤ k ∧
        "s.address ILIKE $" ++ toString k
          ∈ (storeListBuild numberToString userId name address).clauses ∧
        (storeListBuild numberToString userId name address).params.get? (k - 1)
          = some (Value.str ("%" ++ interpolate numberToString address ++ "%"))) ∧
      (storeListBuild numberToString userId name address).clauses.length
        = ([name, address].filter truthy).length ∧
      (storeListBuild numberToString userId name address).params.length
        = (storeListBuild numberToString userId name address).clauses.length + 1) ∧
    (∀ name email role : Value,
      placeholders (sqlUserListHead ++ whereText (userListBuild numberToString name email role)
          ++ sqlUserListTail).toList
        = List.range' 1 (userListBuild numberToString name email role).params.length ∧
      (placeholders (sqlUserListHead ++ whereText (userListBuild numberToString name email role)
          ++ sqlUserListTail).toList).dedup.length
        = (userListBuild numberToString name email role).params.length) ∧
    (∀ name email address : Value,
      placeholders (sqlAdminStoreListHead
          ++ whereText (adminStoreListBuild numberToString name email address)
          ++ sqlAdminStoreListTail).toList
        = List.range' 1 (adminStoreListBuild numberToString name email address).params.length ∧
      (placeholders (sqlAdminStoreListHead
          ++ whereText (adminStoreListBuild numberToString name email address)
          ++ sqlAdminStoreListTail).toList).dedup.length
        = (adminStoreListBuild numberToString name email address).params.length) ∧
    (∀ userId name address : Value,
      placeholders (sqlStoreListHead
          ++ whereText (storeListBuild numberToString userId name address)
          ++ sqlStoreListTail).toList
        = List.range' 1 (storeListBuild numberToString userId name address).params.length ∧
      (placeholders (sqlStoreListHead
          ++ whereText (storeListBuild numberToString userId name address)
          ++ sqlStoreListTail).toList).dedup.length
        = (storeListBuild numberToString userId name address).params.length) := by
  have hst := list_statements numberToString coll pool req db
  refine ⟨⟨hst.1, hst.2.1, hst.2.2 id hid⟩, ?_, userListBuild_positions numberToString,
    adminStoreListBuild_positions numberToString, storeListBuild_positions numberToString,
    fun name email role => ⟨userList_placeholders numberToString name email role,
      dedup_range_length _ _ (userList_placeholders numberToString name email role)⟩,
    fun name email address => ⟨adminStoreList_placeholders numberToString name email address,
      dedup_range_length _ _ (adminStoreList_placeholders numberToString name email address)⟩,
    fun userId name address => ⟨storeList_placeholders numberToString userId name address,
      dedup_range_length _ _ (storeList_placeholders numberToString userId name address)⟩⟩
  intro b
  constructor
  · intro h
    simp [whereText, h]
  · intro h
    have hpos : b.clauses.length > 0 := List.length_pos.mpr h
    simp [whereText, hpos]

/-- C28 at the sample search of Bob (id 8) for stores named `corner` at an
address with `main`: the parameters are his id and the two patterns, the
clauses name `$2` and `$3`. -/
theorem list_queries_placeholders_witness :
    (run (listStoresForUser Sample.noDigits Sample.coll (Sample.pool 1)
        (Sample.searchAs 8 [("name", Value.str "corner"), ("address", Value.str "main")]))
        Sample.ownedDb).2.2
      = [⟨sqlStoreListHead ++ " WHERE s.name ILIKE $2 AND s.address ILIKE $3"
            ++ sqlStoreListTail,
          [idVal 8, Value.str "%corner%", Value.str "%main%"]⟩] :=
  (list_queries_placeholders Sample.noDigits Sample.coll (Sample.pool 1)
    (Sample.searchAs 8 [("name", Value.str "corner"), ("address", Value.str "main")])
    [("id", idVal 8)] Sample.ownedDb rfl).1.2.2

/-! ## The rating request of the client -/

/-- C29, failing input: user 1, who rated store 2 with 3, clicks star 5 of
store 2.  The body the client posts holds the store id under `storeId`, so the
`store_id` the handler reads is `undefined` whatever store was clicked: the
lookup and the insert carry no store id, a row without store is written and
the rating of store 2 stays 3. -/
theorem handleRateStore_store_id_missing :
    (∀ storeId rating : Value,
      (handleRateStoreBody storeId rating).get "store_id" = Value.undefined ∧
      (handleRateStoreBody storeId rating).get "rating" = rating) ∧
    (run (submitRating Sample.noNumber (Sample.pool 20)
        ⟨some [("id", idVal 1)], handleRateStoreBody (idVal 2) (lit 5), [], []⟩) Sample.ratedDb).2.2
      = [⟨sqlSelectRating, [idVal 1, Value.undefined]⟩,
         ⟨sqlInsertRating, [idVal 1, Value.undefined, lit 5]⟩] ∧
    (run (submitRating Sample.noNumber (Sample.pool 20)
        ⟨some [("id", idVal 1)], handleRateStoreBody (idVal 2) (lit 5), [], []⟩)
        Sample.ratedDb).2.1.ratings
      = Sample.ratedDb.ratings ++ [⟨3, idVal 1, Value.null, lit 5, 20⟩] ∧
    (run (submitRating Sample.noNumber (Sample.pool 20)
        ⟨some [("id", idVal 1)], handleRateStoreBody (idVal 2) (lit 5), [], []⟩)
        Sample.ratedDb).2.1.selectRating (idVal 1) (idVal 2)
      = [⟨1, idVal 1, idVal 2, lit 3, 10⟩] := by
  refine ⟨fun storeId rating => ⟨by simp [handleRateStoreBody, JObject.get, List.lookup],
    by simp [handleRateStoreBody, JObject.get, List.lookup]⟩, ?_⟩
  have hrange : (jsLt Sample.noNumber (lit 5) (lit 1) || jsGt Sample.noNumber (lit 5) (lit 5))
      = false := by
    simp [jsLt, jsGt, toNumber, lit, JSNum.lt]
  have hnone : Sample.ratedDb.selectRating (idVal 1) Value.undefined = [] := by
    decide
  have hrun : (run (submitRating Sample.noNumber (Sample.pool 20)
      ⟨some [("id", idVal 1)], handleRateStoreBody (idVal 2) (lit 5), [], []⟩) Sample.ratedDb).2
      = ((Db.insertRating 20 (idVal 1) Value.undefined (lit 5) Sample.ratedDb).2,
          [⟨sqlSelectRating, [idVal 1, Value.undefined]⟩,
           ⟨sqlInsertRating, [idVal 1, Value.undefined, lit 5]⟩]) := by
    simp [run, submitRating, Request.userField, handleRateStoreBody, JObject.get, List.lookup,
      hrange, hnone, Sample.pool, bind, Handler.bind, pure, Handler.tryCatch, Pool.query]
  refine ⟨congrArg Prod.snd hrun, ?_, ?_⟩
  · rw [congrArg Prod.fst hrun]
    decide
  · rw [congrArg Prod.fst hrun]
    decide

/-! ## Rows of the user list per user -/

/-- In a list of users with distinct ids, exactly one user has the id of a
given member. -/
theorem filter_id_length (users : List UserRow) (hids : (users.map fun u => u.id).Nodup)
    (u : UserRow) (hu : u ∈ users) :
    (users.filter fun v => decide (v.id = u.id)).length = 1 := by
  induction users with
  | nil => cases hu
  | cons w ws ih =>
    rw [List.map_cons, List.nodup_cons] at hids
    rcases List.mem_cons.mp hu with h | h
    · subst h
      have hnone : ws.filter (fun v => decide (v.id = u.id)) = [] := by
        rw [List.filter_eq_nil_iff]
        intro v hv hvid
        exact hids.1 (List.mem_map.mpr ⟨v, hv, by simpa using hvid⟩)
      simp [List.filter_cons, hnone]
    · have hne : w.id ≠ u.id := fun hw =>
        hids.1 (List.mem_map.mpr ⟨u, h, hw.symm⟩)
      simp [List.filter_cons, hne, ih hids.2 h]

/-- C30, counterexample: on tables where the stores `Corner Shop` and `Harbour
Books` both name Alice (id 7) as owner, the unfiltered user list answers two
rows, both for Alice, while one user matches. -/
theorem listUsers_two_rows_for_one_owner :
    (run (listUsers Sample.noDigits Sample.coll (Sample.pool 1) (Sample.listReq []))
        Sample.twoStoresDb).1
      = Except.ok { status := 200, body := ResBody.json (Json.arr
          ((Sample.twoStoresDb.adminUserList Sample.coll.le (fun _ => true)).map
            AdminUserRow.toJson)) } ∧
    (Sample.twoStoresDb.adminUserList Sample.coll.le (fun _ => true)).length = 2 ∧
    (∀ r ∈ Sample.twoStoresDb.adminUserList Sample.coll.le (fun _ => true), r.id = 7) ∧
    (Sample.twoStoresDb.users.filter (userListFilter Sample.coll Sample.noDigits
      ((Sample.listReq []).query.get "name") ((Sample.listReq []).query.get "email")
      ((Sample.listReq []).query.get "role"))).length = 1 := by
  refine ⟨?_, ?_, ?_, by decide⟩
  · rw [listUsers_unfiltered_run Sample.noDigits Sample.coll (Sample.pool 1) (Sample.listReq [])
      Sample.twoStoresDb (fun _ _ => rfl) rfl rfl rfl]
  · simp only [Db.adminUserList, orderByName, List.length_insertionSort, List.length_map]
    decide
  · intro r hr
    simp only [Db.adminUserList] at hr
    rw [mem_orderByName] at hr
    revert r
    decide
/-- C30, amended: on tables with distinct user ids where no user is named as
owner by more than one store, `listUsers` on a pool that rejects nothing
answers 200 with as many rows as users match the filters, every matching user
has exactly one row (the row with the user's id), and every row is the row of
a matching user. -/
theorem listUsers_one_row_per_user (numberToString : JSNum → String) (coll : Collation)
    (pool : Pool) (req : Request) (db : Db) (hpool : ∀ d st, pool.fails d st = false)
    (hids : (db.users.map fun u => u.id).Nodup)
    (hone : ∀ u ∈ db.users,
      (db.stores.filter fun s => colEq (idVal u.id) s.owner_id).length ≤ 1) :
    ∃ rows : List AdminUserRow,
      (run (listUsers numberToString coll pool req) db).1
        = Except.ok { status := 200, body := ResBody.json (Json.arr
            (rows.map AdminUserRow.toJson)) } ∧
      rows.length = (db.users.filter (userListFilter coll numberToString
        (req.query.get "name") (req.query.get "email") (req.query.get "role"))).length ∧
      (∀ u ∈ db.users.filter (userListFilter coll numberToString
          (req.query.get "name") (req.query.get "email") (req.query.get "role")),
        (rows.filter fun r => decide (r.id = u.id)).length = 1) ∧
      (∀ r ∈ rows, ∃ u ∈ db.users.filter (userListFilter coll numberToString
          (req.query.get "name") (req.query.get "email") (req.query.get "role")),
        r.id = u.id) := by
  have hperm := adminUserList_rows db coll.le (userListFilter coll numberToString
    (req.query.get "name") (req.query.get "email") (req.query.get "role")) hids hone
  have hsub : ((db.users.filter (userListFilter coll numberToString
      (req.query.get "name") (req.query.get "email") (req.query.get "role"))).map
      fun u => u.id).Nodup :=
    List.Nodup.sublist ((List.filter_sublist _).map _) hids
  refine ⟨db.adminUserList coll.le (userListFilter coll numberToString
    (req.query.get "name") (req.query.get "email") (req.query.get "role")), ?_, ?_, ?_, ?_⟩
  · simp [run, listUsers, hpool, bind, Handler.bind, pure, Handler.tryCatch, Pool.query]
  · rw [hperm.length_eq, List.length_map]
  · intro u hu
    rw [(hperm.filter _).length_eq, List.filter_map, List.length_map]
    have hfun : ((fun r : AdminUserRow => decide (r.id = u.id)) ∘ fun v : UserRow =>
        match (db.stores.filter fun s => colEq (idVal v.id) s.owner_id).head? with
        | none => (⟨v.id, v.name, v.email, v.address, v.role, Value.null, 0⟩ : AdminUserRow)
        | some s => ⟨v.id, v.name, v.email, v.address, v.role, s.name,
            db.averageFor (idVal s.id)⟩)
        = fun v : UserRow => decide (v.id = u.id) := by
      funext v
      have hid : ∀ o : Option StoreRow, (match o with
          | none => (⟨v.id, v.name, v.email, v.address, v.role, Value.null, 0⟩ : AdminUserRow)
          | some s => ⟨v.id, v.name, v.email, v.address, v.role, s.name,
              db.averageFor (idVal s.id)⟩).id = v.id := by
        intro o
        cases o <;> rfl
      simp only [Function.comp, hid]
    rw [hfun]
    exact filter_id_length _ hsub u hu
  · intro r hr
    obtain ⟨u, hu, hur⟩ := List.mem_map.mp (hperm.mem_iff.mp hr)
    refine ⟨u, hu, ?_⟩
    rw [← hur]
    cases (db.stores.filter fun s => colEq (idVal u.id) s.owner_id).head? <;> rfl
/-- C30, amended, at the unfiltered list on the tables where Alice owns
`Corner Shop` and Bob owns nothing: two users, two rows. -/
theorem listUsers_one_row_per_user_witness :
    ∃ rows : List AdminUserRow,
      (run (listUsers Sample.noDigits Sample.coll (Sample.pool 1) (Sample.listReq []))
          Sample.ownedDb).1
        = Except.ok { status := 200, body := ResBody.json (Json.arr
            (rows.map AdminUserRow.toJson)) } ∧
      rows.length = 2 :=
  match listUsers_one_row_per_user Sample.noDigits Sample.coll (Sample.pool 1)
    (Sample.listReq []) Sample.ownedDb (fun _ _ => rfl) (by decide) (by decide) with
  | ⟨rows, h1, h2, _⟩ => ⟨rows, h1, h2.trans (by decide)⟩

end StoreRating
